import Mathlib

/-!
# FantasyDraftCalc: the draft engine of the web server

A shallow embedding of `src/server/services/PlayerService.js`,
`src/server/services/SettingsService.js` and
`src/server/services/DraftService.js`.

* JavaScript objects become structures, arrays become lists.
* A service method that mutates `this` becomes a function that takes the
  service state and returns the state after the call; a method that can
  `throw` returns an `Except String _` next to the state after the call.
* Counting numbers (team ids, rounds, pick numbers) are `Nat`; the floating
  point fields of a player are rationals, and the arithmetic of the scores is
  exact. Where a result turns on the rounding of doubles (the team statistics,
  the pick number of a team, the ranking of players whose scores lie one
  rounding apart) the operations are the rounded ones of the section on
  binary64 doubles.
* `new Date()` is an input of the call (`now`).
-/

namespace FantasyDraftCalc

/-! ## Loops -/

/-- Iterations of `for (let i = lo; i <= hi; i++) body`, started at `i` with
`fuel` iterations left to run; the guard `i <= hi` is tested before every
iteration, as the source does. -/
def forUpFrom {σ : Type} (hi : Nat) (body : Nat → σ → σ) : Nat → Nat → σ → σ
  | 0, _, acc => acc
  | fuel + 1, i, acc =>
    if i ≤ hi then forUpFrom hi body fuel (i + 1) (body i acc) else acc

/-- The loop `for (let i = lo; i <= hi; i++) body`: it runs `hi + 1 - lo`
iterations. -/
def forUp {σ : Type} (lo hi : Nat) (body : Nat → σ → σ) (init : σ) : σ :=
  forUpFrom hi body (hi + 1 - lo) lo init

/-- The loop `for (let i = hi; i >= 1; i--) body`. -/
def forDownTo1 {σ : Type} (body : Nat → σ → σ) : Nat → σ → σ
  | 0, acc => acc
  | i + 1, acc => forDownTo1 body i (body (i + 1) acc)

/-- In-place update of the object that `Array.prototype.find` returns: the
first element that satisfies `p` is replaced by `f` of it. -/
def updateFirst {α : Type} (p : α → Bool) (f : α → α) : List α → List α
  | [] => []
  | x :: xs => if p x then f x :: xs else x :: updateFirst p f xs

/-! ## PlayerService -/

/-- One record of `PlayerService.players`. -/
structure Player where
  id : String
  name : String
  position : String
  team : String
  rank : Int
  projectedPoints : ℚ
  adp : ℚ
  tier : Int
  byeWeek : Int
  isDrafted : Bool
deriving DecidableEq

/-- A catalog record as `loadMockData` writes it (`isDrafted: false`). -/
def mockPlayer (id name position team : String) (rank : Int) (projectedPoints adp : ℚ)
    (tier byeWeek : Int) : Player :=
  { id := id, name := name, position := position, team := team, rank := rank,
    projectedPoints := projectedPoints, adp := adp, tier := tier, byeWeek := byeWeek,
    isDrafted := false }

/-- The catalog of `PlayerService.loadMockData`. -/
def loadMockData : List Player :=
  [ mockPlayer "1" "Patrick Mahomes" "QB" "KC" 1 (4205 / 10) (152 / 10) 1 10,
    mockPlayer "2" "Josh Allen" "QB" "BUF" 2 (4103 / 10) (187 / 10) 1 13,
    mockPlayer "3" "Jalen Hurts" "QB" "PHI" 3 (3958 / 10) (221 / 10) 1 10,
    mockPlayer "4" "Christian McCaffrey" "RB" "SF" 4 (3802 / 10) (23 / 10) 1 9,
    mockPlayer "5" "Austin Ekeler" "RB" "LAC" 5 (3657 / 10) (89 / 10) 1 5,
    mockPlayer "6" "Saquon Barkley" "RB" "NYG" 6 (3504 / 10) (124 / 10) 1 13,
    mockPlayer "7" "Justin Jefferson" "WR" "MIN" 7 (3305 / 10) (11 / 10) 1 13,
    mockPlayer "8" "Ja'Marr Chase" "WR" "CIN" 8 (3253 / 10) (38 / 10) 1 7,
    mockPlayer "9" "Tyreek Hill" "WR" "MIA" 9 (3207 / 10) (52 / 10) 1 10,
    mockPlayer "10" "Travis Kelce" "TE" "KC" 10 (3058 / 10) (45 / 10) 1 10,
    mockPlayer "11" "Mark Andrews" "TE" "BAL" 11 (2803 / 10) (257 / 10) 2 13,
    mockPlayer "12" "Bijan Robinson" "RB" "ATL" 12 (2705 / 10) (68 / 10) 2 11,
    mockPlayer "13" "A.J. Brown" "WR" "PHI" 13 (2607 / 10) (132 / 10) 2 10,
    mockPlayer "14" "Joe Burrow" "QB" "CIN" 14 (2502 / 10) (453 / 10) 2 7,
    mockPlayer "15" "Tony Pollard" "RB" "DAL" 15 (2353 / 10) (284 / 10) 2 7 ]

/-- `PlayerService.getAvailablePlayers`. -/
def getAvailablePlayers (players : List Player) : List Player :=
  players.filter (fun player => !player.isDrafted)

/-- `PlayerService.getPlayerById`: `undefined` is `none`. -/
def getPlayerById (players : List Player) (id : String) : Option Player :=
  players.find? (fun player => player.id == id)

/-- `PlayerService.markPlayerAsDrafted`: the catalog after the call. The
record that `find` returns gets `isDrafted = true`; without such a record
nothing happens. -/
def markPlayerAsDrafted (players : List Player) (playerId : String) : List Player :=
  updateFirst (fun p => p.id == playerId) (fun p => { p with isDrafted := true }) players

/-! ## SettingsService -/

/-- The fields of `SettingsService.leagueSettings` that the draft engine reads. -/
structure LeagueSettings where
  leagueType : String
  numberOfTeams : Nat
  draftPosition : Nat
  snakeDraft : Bool
  rosterSpots : List (String × Int)
deriving DecidableEq

/-- The settings that the `SettingsService` constructor installs. -/
def defaultLeagueSettings : LeagueSettings :=
  { leagueType := "PPR", numberOfTeams := 12, draftPosition := 1, snakeDraft := true,
    rosterSpots := [("QB", 1), ("RB", 2), ("WR", 2), ("TE", 1), ("K", 1), ("DST", 1)] }

/-- `SettingsService.getDraftOrder`. -/
def getDraftOrder (ls : LeagueSettings) (round : Nat) : List Nat :=
  if ls.snakeDraft && round % 2 == 0 then
    forDownTo1 (fun i order => order ++ [i]) ls.numberOfTeams []
  else
    forUp 1 ls.numberOfTeams (fun i order => order ++ [i]) []

/-! ## DraftService -/

/-- The object `DraftService.draftState`. -/
structure DraftState where
  currentRound : Nat
  currentPick : Nat
  totalPicks : Nat
  isComplete : Bool
deriving DecidableEq

/-- An entry of `team.picks`. -/
structure TeamPick where
  round : Nat
  pickNumber : Nat
  player : Player
  timestamp : Nat
deriving DecidableEq

/-- An entry of `DraftService.draftPicks`. -/
structure DraftPick where
  round : Nat
  pickNumber : Nat
  teamId : Nat
  player : Player
  timestamp : Nat
deriving DecidableEq

/-- An entry of `DraftService.teams`. -/
structure Team where
  id : Nat
  name : String
  roster : List Player
  picks : List TeamPick
deriving DecidableEq

/-- The state of a `DraftService`: the catalog of its `playerService`, the
settings of its `settingsService`, and its own fields. -/
structure DraftService where
  players : List Player
  leagueSettings : LeagueSettings
  draftState : DraftState
  draftPicks : List DraftPick
  teams : List Team
deriving DecidableEq

/-- `DraftService.initializeDraft`. -/
def initializeDraft (s : DraftService) : DraftService :=
  let settings := s.leagueSettings
  let s1 : DraftService :=
    { s with draftState := { s.draftState with totalPicks := settings.numberOfTeams * 15 } }
  let s2 : DraftService := { s1 with teams := [] }
  forUp 1 settings.numberOfTeams
    (fun i st => { st with teams := st.teams ++
      [{ id := i, name := "Team " ++ toString i, roster := [], picks := [] }] })
    s2

/-- The `DraftService` constructor, given the catalog and the settings its two
collaborators start with. -/
def DraftService.create (players : List Player) (settings : LeagueSettings) : DraftService :=
  initializeDraft
    { players := players, leagueSettings := settings,
      draftState := { currentRound := 1, currentPick := 1, totalPicks := 0, isComplete := false },
      draftPicks := [], teams := [] }

/-- The `DraftService` that `new DraftService()` builds: mock catalog, default
settings. -/
def DraftService.new : DraftService :=
  DraftService.create loadMockData defaultLeagueSettings

/-- The value `makePick` returns. -/
structure PickResult where
  success : Bool
  pick : Option DraftPick
  draftState : DraftState
deriving DecidableEq

/-- `DraftService.makePick`: the returned value or the thrown error, and the
state after the call. The object `player` is shared with the catalog, so what
is pushed on the roster and the pick lists shows the flag that
`markPlayerAsDrafted` has just set. -/
def makePick (s : DraftService) (playerId : String) (teamId round pickNumber now : Nat) :
    Except String PickResult × DraftService :=
  match getPlayerById s.players playerId with
  | none => (.error "Player not available", s)
  | some player =>
    if player.isDrafted then (.error "Player not available", s)
    else
      match s.teams.find? (fun t => t.id == teamId) with
      | none => (.error "Team not found", s)
      | some _ =>
        let s1 : DraftService := { s with players := markPlayerAsDrafted s.players playerId }
        let player : Player := { player with isDrafted := true }
        let teams := updateFirst (fun t => t.id == teamId)
          (fun team => { team with
            roster := team.roster ++ [player],
            picks := team.picks ++
              [{ round := round, pickNumber := pickNumber, player := player, timestamp := now }] })
          s1.teams
        let s2 : DraftService := { s1 with teams := teams }
        let pick : DraftPick :=
          { round := round, pickNumber := pickNumber, teamId := teamId, player := player,
            timestamp := now }
        let s3 : DraftService := { s2 with draftPicks := s2.draftPicks ++ [pick] }
        let s4 : DraftService := { s3 with draftState :=
          { s3.draftState with currentPick := s3.draftState.currentPick + 1 } }
        let s5 : DraftService :=
          if s4.draftState.currentPick > s4.draftState.totalPicks then
            { s4 with draftState := { s4.draftState with isComplete := true } }
          else
            { s4 with draftState := { s4.draftState with
                currentRound := (s4.draftState.currentPick - 1) / s4.teams.length + 1 } }
        (.ok { success := true, pick := s5.draftPicks.getLast?, draftState := s5.draftState }, s5)

/-- A slot of the board that `getDraftBoard` returns. -/
structure BoardSlot where
  round : Nat
  pickNumber : Nat
  teamId : Nat
  player : Option Player
  timestamp : Option Nat
deriving DecidableEq

/-- `DraftService.getDraftBoard`. -/
def getDraftBoard (s : DraftService) : List (List BoardSlot) :=
  let settings := s.leagueSettings
  forUp 1 15
    (fun round board =>
      let roundPicks := forUp 1 settings.numberOfTeams
        (fun team roundPicks =>
          let pickNumber := (round - 1) * settings.numberOfTeams + team
          let pick := s.draftPicks.find? (fun p => p.pickNumber == pickNumber)
          roundPicks ++
            [{ round := round, pickNumber := pickNumber, teamId := team,
               player := pick.map (fun p => p.player),
               timestamp := pick.map (fun p => p.timestamp) }])
        []
      board ++ [roundPicks])
    []

/-- `DraftService.resetDraft`. -/
def resetDraft (s : DraftService) : DraftService :=
  let s1 : DraftService := { s with draftState :=
    { currentRound := 1, currentPick := 1, totalPicks := 0, isComplete := false } }
  let s2 : DraftService := { s1 with draftPicks := [] }
  let s3 : DraftService := { s2 with teams := [] }
  let s4 : DraftService := initializeDraft s3
  { s4 with players := s4.players.map (fun player => { player with isDrafted := false }) }

/-- The arguments of one `makePick` call. -/
structure PickCall where
  playerId : String
  teamId : Nat
  round : Nat
  pickNumber : Nat
  now : Nat

/-- The state after a sequence of `makePick` calls; a call that throws is
followed by the next one, on the state the throwing call left. -/
def runPicks (s : DraftService) : List PickCall → DraftService
  | [] => s
  | c :: cs => runPicks (makePick s c.playerId c.teamId c.round c.pickNumber c.now).2 cs

/-! ## Objects used as maps

A JavaScript object used as a map from strings is a list of its entries;
`o[k]` reads the entry of key `k` and `o[k] = v` replaces that entry or, for a
new key, adds one. -/

/-- The read `o[k]`: `undefined` is `none`. -/
def objGet {α : Type} : List (String × α) → String → Option α
  | [], _ => none
  | (k1, v1) :: o, k => if k1 == k then some v1 else objGet o k

/-- The write `o[k] = v`. -/
def objSet {α : Type} : List (String × α) → String → α → List (String × α)
  | [], k, v => [(k, v)]
  | (k1, v1) :: o, k, v => if k1 == k then (k, v) :: o else (k1, v1) :: objSet o k v

/-- The array `['QB', 'RB', 'WR', 'TE', 'K', 'DST']` that the services iterate. -/
def positions : List String := ["QB", "RB", "WR", "TE", "K", "DST"]

/-- `Math.round`: the nearest integer, a half rounded towards plus infinity. -/
def jsRound (x : ℚ) : Int := Rat.floor (x + 1 / 2)

/-! ## Numbers as binary64 doubles

A JavaScript number is an IEEE-754 binary64 double. A finite double is the
rational number it denotes, and an arithmetic operation returns the double
nearest to the exact result, a tie going to the double whose significand is
even. Results of magnitude `2 ^ 1024` and above, which JavaScript turns into
`Infinity`, are not modelled. The integers of a draft (rounds, team numbers,
counts, tiers, roster requirements) are taken as they are: up to `2 ^ 53` every
integer is a double. -/

/-- The integer nearest to `m`; of two nearest integers the even one. -/
def roundHalfEven (m : ℚ) : Int :=
  let f := Rat.floor m
  let r := m - f
  if r < 1 / 2 then f
  else if 1 / 2 < r then f + 1
  else if f % 2 = 0 then f else f + 1

/-- The number of halvings that take `n` below 2, which is the integer part of
the binary logarithm of `n ≥ 1`; `fuel` bounds the number of halvings, and
`fuel = n` is enough. -/
def log2Floor : Nat → Nat → Nat
  | 0, _ => 0
  | fuel + 1, n => if 2 ≤ n then log2Floor fuel (n / 2) + 1 else 0

/-- The binary exponent of `x ≠ 0`: the integer `e` with
`2 ^ e ≤ |x| < 2 ^ (e + 1)`. The difference of the logarithms of numerator and
denominator is `e` or `e + 1`. -/
def binaryExponent (x : ℚ) : Int :=
  let l : Int := (log2Floor x.num.natAbs x.num.natAbs : Int) - (log2Floor x.den x.den : Int)
  if (2 : ℚ) ^ l ≤ |x| then l else l - 1

/-- The double nearest to `x`. Doubles with binary exponent `e` are the
multiples of `2 ^ (e - 52)` (a significand of 53 binary digits); below
`2 ^ (-1022)` they are the multiples of `2 ^ (-1074)`. -/
def toDouble (x : ℚ) : ℚ :=
  if x = 0 then 0
  else
    let quantum : ℚ := 2 ^ (max (binaryExponent x) (-1022) - 52)
    (roundHalfEven (x / quantum) : ℚ) * quantum

/-- The sum `a + b` of two doubles. -/
def fadd (a b : ℚ) : ℚ := toDouble (a + b)

/-- The difference `a - b` of two doubles. -/
def fsub (a b : ℚ) : ℚ := toDouble (a - b)

/-- The product `a * b` of two doubles. -/
def fmul (a b : ℚ) : ℚ := toDouble (a * b)

/-- The quotient `a / b` of two doubles, for `b ≠ 0`; the engine divides by
numbers that are at least 1. -/
def fdiv (a b : ℚ) : ℚ := toDouble (a / b)

/-! ## DraftService: suggestions and statistics -/

/-- The object built by
`['QB', ...].forEach(pos => counts[pos] = list.filter(p => p.position === pos && keep(p)).length)`. -/
def countByPosition (list : List Player) (keep : Player → Bool) : List (String × Nat) :=
  positions.foldl
    (fun counts pos =>
      objSet counts pos (list.filter (fun p => p.position == pos && keep p)).length)
    []

/-- `DraftService.calculateTeamNeeds`; `this.playerService.players` is
`s.players`. -/
def calculateTeamNeeds (s : DraftService) (team : Team) (settings : LeagueSettings) :
    List (String × ℚ) :=
  let currentRoster := team.roster
  let currentCounts := countByPosition currentRoster (fun _ => true)
  let needs : List (String × ℚ) :=
    settings.rosterSpots.foldl
      (fun needs entry =>
        let current : Int := ((objGet currentCounts entry.1).getD 0 : Nat)
        objSet needs entry.1 ((max 0 (entry.2 - current) : Int) : ℚ))
      []
  let availableByPosition := countByPosition s.players (fun p => !p.isDrafted)
  (needs.map (fun entry => entry.1)).foldl
    (fun needs position =>
      let available := (objGet availableByPosition position).getD 0
      let scarcity : ℚ := 1 / max 1 (available : ℚ)
      objSet needs position ((objGet needs position).getD 0 * (1 + scarcity)))
    needs

/-- `DraftService.getPositionScarcity`. -/
def getPositionScarcity (s : DraftService) (position : String) : ℚ :=
  let availableByPosition := countByPosition s.players (fun p => !p.isDrafted)
  let totalAvailable := (s.players.filter (fun p => !p.isDrafted)).length
  let positionAvailable := (objGet availableByPosition position).getD 0
  if totalAvailable == 0 then 1
  else
    let scarcity : ℚ := (totalAvailable : ℚ) / max 1 (positionAvailable : ℚ)
    min 2 scarcity

/-- The score that the body of the loop of `getValueBasedRankings` computes
for one player. -/
def valueScore (s : DraftService) (player : Player) (currentRound : Int) : ℚ :=
  let score := player.projectedPoints
  let adpValue := max 0 (player.adp - (currentRound : ℚ))
  let score := score + adpValue * (1 / 2)
  let score := score + (player.tier : ℚ) * 10
  let positionScarcity := getPositionScarcity s player.position
  score * positionScarcity

/-- `DraftService.getValueBasedRankings`. -/
def getValueBasedRankings (s : DraftService) (availablePlayers : List Player)
    (currentRound : Int) : List (String × ℚ) :=
  availablePlayers.foldl
    (fun rankings player => objSet rankings player.id (valueScore s player currentRound))
    []

/-- `DraftService.calculatePlayerScore`; `x || 0` is `getD 0`. -/
def calculatePlayerScore (player : Player) (teamNeeds valueRankings : List (String × ℚ))
    (currentRound : Int) : ℚ :=
  let needScore := (objGet teamNeeds player.position).getD 0
  let valueScore := (objGet valueRankings player.id).getD 0
  let needWeight : ℚ := max (3 / 10) (1 - (currentRound : ℚ) * (5 / 100))
  let valueWeight := 1 - needWeight
  needScore * needWeight + valueScore * valueWeight

/-- One observation of `generateReasoning`; the text it is printed as is left
out. -/
inductive Reason where
  | fillsNeed (position : String) (priority : ℚ)
  | greatValue (adp : ℚ) (current : Int)
  | tierUpside (tier : Int)
  | scarce (position : String) (multiplier : ℚ)
deriving DecidableEq

/-- `DraftService.generateReasoning`. With `player` undefined the first read,
`player.position`, throws a `TypeError`. -/
def generateReasoning (s : DraftService) (player : Option Player)
    (teamNeeds : List (String × ℚ)) (currentRound : Int) : Except String (List Reason) :=
  match player with
  | none => .error "TypeError: Cannot read properties of undefined (reading 'position')"
  | some player =>
    let reasons : List Reason := []
    let reasons :=
      match objGet teamNeeds player.position with
      | some need =>
        if need > 0 then reasons ++ [Reason.fillsNeed player.position need] else reasons
      | none => reasons
    let reasons :=
      if player.adp < (currentRound : ℚ) then
        reasons ++ [Reason.greatValue player.adp currentRound]
      else reasons
    let reasons :=
      if player.tier ≤ 2 then reasons ++ [Reason.tierUpside player.tier] else reasons
    let scarcity := getPositionScarcity s player.position
    let reasons :=
      if scarcity > 3 / 2 then reasons ++ [Reason.scarce player.position scarcity] else reasons
    .ok reasons

/-- The object `{ ...player, score }`. -/
structure ScoredPlayer where
  player : Player
  score : ℚ
deriving DecidableEq

/-- The order `(a, b) => b.score - a.score` asks for: `a` may stand before `b`
when the comparator is not positive. -/
def scoreOrder (a b : ScoredPlayer) : Prop := b.score ≤ a.score

instance scoreOrder.decidable : DecidableRel scoreOrder :=
  fun a b => inferInstanceAs (Decidable (b.score ≤ a.score))

instance scoreOrder.isTotal : IsTotal ScoredPlayer scoreOrder :=
  ⟨fun a b => le_total b.score a.score⟩

instance scoreOrder.isTrans : IsTrans ScoredPlayer scoreOrder :=
  ⟨fun _ _ _ hab hbc => le_trans hbc hab⟩

/-- The value `getOptimalPick` returns. -/
structure Suggestion where
  optimalPick : Option ScoredPlayer
  alternatives : List ScoredPlayer
  teamNeeds : List (String × ℚ)
  reasoning : List Reason
deriving DecidableEq

/-- The array `optimalPlayers` of `getOptimalPick`: every available player with
its score, sorted by `(a, b) => b.score - a.score`. `Array.prototype.sort` is a
stable sort, and a stable sort has one result, which insertion sort computes. -/
def rankPlayers (s : DraftService) (team : Team) (currentRound : Int) : List ScoredPlayer :=
  let availablePlayers := getAvailablePlayers s.players
  let settings := s.leagueSettings
  let teamNeeds := calculateTeamNeeds s team settings
  let valueRankings := getValueBasedRankings s availablePlayers currentRound
  (availablePlayers.map (fun player =>
    let score := calculatePlayerScore player teamNeeds valueRankings currentRound
    ({ player := player, score := score } : ScoredPlayer))).insertionSort scoreOrder

/-- `DraftService.getOptimalPick`. -/
def getOptimalPick (s : DraftService) (teamId : Nat) (currentRound : Int) :
    Except String Suggestion :=
  match s.teams.find? (fun t => t.id == teamId) with
  | none => .error "Team not found"
  | some team =>
    let settings := s.leagueSettings
    let teamNeeds := calculateTeamNeeds s team settings
    let optimalPlayers := rankPlayers s team currentRound
    match generateReasoning s (optimalPlayers.head?.map (fun p => p.player)) teamNeeds
        currentRound with
    | .error e => .error e
    | .ok reasoning =>
      .ok { optimalPick := optimalPlayers.head?,
            alternatives := (optimalPlayers.drop 1).take 3,
            teamNeeds := teamNeeds,
            reasoning := reasoning }

/-- The value `calculateTeamStats` returns. -/
structure TeamStats where
  totalPoints : Int
  averageTier : ℚ
  playerCount : Nat
  byPosition : List (String × Nat)
deriving DecidableEq

/-- `DraftService.calculateTeamStats`. Both `reduce` calls add in double
arithmetic, from the left; `projectedPoints` is read as the double the record
holds. -/
def calculateTeamStats (team : Team) : TeamStats :=
  let roster := team.roster
  let totalPoints : ℚ :=
    roster.foldl (fun sum player => fadd sum (toDouble player.projectedPoints)) 0
  let avgTier : ℚ :=
    if roster.length > 0 then
      fdiv (roster.foldl (fun sum player => fadd sum (player.tier : ℚ)) 0) (roster.length : ℚ)
    else 0
  let byPosition := countByPosition roster (fun _ => true)
  { totalPoints := jsRound totalPoints,
    averageTier := fdiv (jsRound (fmul avgTier 10) : ℚ) 10,
    playerCount := roster.length,
    byPosition := byPosition }

/-! ## DraftService: the suggestions in double arithmetic

The methods that score the players, with every arithmetic operation rounded
as the engine rounds it. `projectedPoints` and `adp` are read as the doubles
the record holds, and the constants `0.3` and `0.05` are the doubles nearest
to them. -/

/-- `DraftService.calculateTeamNeeds` in double arithmetic. -/
def Binary64.calculateTeamNeeds (s : DraftService) (team : Team) (settings : LeagueSettings) :
    List (String × ℚ) :=
  let currentRoster := team.roster
  let currentCounts := countByPosition currentRoster (fun _ => true)
  let needs : List (String × ℚ) :=
    settings.rosterSpots.foldl
      (fun needs entry =>
        let current : ℚ := ((objGet currentCounts entry.1).getD 0 : Nat)
        objSet needs entry.1 (max 0 (fsub (entry.2 : ℚ) current)))
      []
  let availableByPosition := countByPosition s.players (fun p => !p.isDrafted)
  (needs.map (fun entry => entry.1)).foldl
    (fun needs position =>
      let available := (objGet availableByPosition position).getD 0
      let scarcity : ℚ := fdiv 1 (max 1 (available : ℚ))
      objSet needs position (fmul ((objGet needs position).getD 0) (fadd 1 scarcity)))
    needs

/-- `DraftService.getPositionScarcity` in double arithmetic. -/
def Binary64.getPositionScarcity (s : DraftService) (position : String) : ℚ :=
  let availableByPosition := countByPosition s.players (fun p => !p.isDrafted)
  let totalAvailable := (s.players.filter (fun p => !p.isDrafted)).length
  let positionAvailable := (objGet availableByPosition position).getD 0
  if totalAvailable == 0 then 1
  else
    let scarcity : ℚ := fdiv (totalAvailable : ℚ) (max 1 (positionAvailable : ℚ))
    min 2 scarcity

/-- The score that the body of the loop of `getValueBasedRankings` computes
for one player, in double arithmetic. -/
def Binary64.valueScore (s : DraftService) (player : Player) (currentRound : Int) : ℚ :=
  let score := toDouble player.projectedPoints
  let adpValue := max 0 (fsub (toDouble player.adp) (currentRound : ℚ))
  let score := fadd score (fmul adpValue (1 / 2))
  let score := fadd score (fmul (player.tier : ℚ) 10)
  let positionScarcity := Binary64.getPositionScarcity s player.position
  fmul score positionScarcity

/-- `DraftService.getValueBasedRankings` in double arithmetic. -/
def Binary64.getValueBasedRankings (s : DraftService) (availablePlayers : List Player)
    (currentRound : Int) : List (String × ℚ) :=
  availablePlayers.foldl
    (fun rankings player =>
      objSet rankings player.id (Binary64.valueScore s player currentRound))
    []

/-- The constant `needWeight` of `calculatePlayerScore`, in double arithmetic. -/
def Binary64.needWeight (currentRound : Int) : ℚ :=
  max (toDouble (3 / 10)) (fsub 1 (fmul (currentRound : ℚ) (toDouble (5 / 100))))

/-- The constant `valueWeight` of `calculatePlayerScore`, in double arithmetic. -/
def Binary64.valueWeight (currentRound : Int) : ℚ := fsub 1 (Binary64.needWeight currentRound)

/-- `DraftService.calculatePlayerScore` in double arithmetic; `x || 0` is
`getD 0`. -/
def Binary64.calculatePlayerScore (player : Player)
    (teamNeeds valueRankings : List (String × ℚ)) (currentRound : Int) : ℚ :=
  let needScore := (objGet teamNeeds player.position).getD 0
  let valueScore := (objGet valueRankings player.id).getD 0
  let needWeight := Binary64.needWeight currentRound
  let valueWeight := Binary64.valueWeight currentRound
  fadd (fmul needScore needWeight) (fmul valueScore valueWeight)

/-- `DraftService.generateReasoning` in double arithmetic. -/
def Binary64.generateReasoning (s : DraftService) (player : Option Player)
    (teamNeeds : List (String × ℚ)) (currentRound : Int) : Except String (List Reason) :=
  match player with
  | none => .error "TypeError: Cannot read properties of undefined (reading 'position')"
  | some player =>
    let reasons : List Reason := []
    let reasons :=
      match objGet teamNeeds player.position with
      | some need =>
        if need > 0 then reasons ++ [Reason.fillsNeed player.position need] else reasons
      | none => reasons
    let reasons :=
      if toDouble player.adp < (currentRound : ℚ) then
        reasons ++ [Reason.greatValue (toDouble player.adp) currentRound]
      else reasons
    let reasons :=
      if player.tier ≤ 2 then reasons ++ [Reason.tierUpside player.tier] else reasons
    let scarcity := Binary64.getPositionScarcity s player.position
    let reasons :=
      if scarcity > 3 / 2 then reasons ++ [Reason.scarce player.position scarcity] else reasons
    .ok reasons

/-- The array `optimalPlayers` of `getOptimalPick` in double arithmetic: every
available player with its score, in the order of the stable sort by
`(a, b) => b.score - a.score`; the difference of two doubles has the sign of
their exact difference. -/
def Binary64.rankPlayers (s : DraftService) (team : Team) (currentRound : Int) :
    List ScoredPlayer :=
  let availablePlayers := getAvailablePlayers s.players
  let settings := s.leagueSettings
  let teamNeeds := Binary64.calculateTeamNeeds s team settings
  let valueRankings := Binary64.getValueBasedRankings s availablePlayers currentRound
  (availablePlayers.map (fun player =>
    let score := Binary64.calculatePlayerScore player teamNeeds valueRankings currentRound
    ({ player := player, score := score } : ScoredPlayer))).insertionSort scoreOrder

/-- `DraftService.getOptimalPick` in double arithmetic. -/
def Binary64.getOptimalPick (s : DraftService) (teamId : Nat) (currentRound : Int) :
    Except String Suggestion :=
  match s.teams.find? (fun t => t.id == teamId) with
  | none => .error "Team not found"
  | some team =>
    let settings := s.leagueSettings
    let teamNeeds := Binary64.calculateTeamNeeds s team settings
    let optimalPlayers := Binary64.rankPlayers s team currentRound
    match Binary64.generateReasoning s (optimalPlayers.head?.map (fun p => p.player)) teamNeeds
        currentRound with
    | .error e => .error e
    | .ok reasoning =>
      .ok { optimalPick := optimalPlayers.head?,
            alternatives := (optimalPlayers.drop 1).take 3,
            teamNeeds := teamNeeds,
            reasoning := reasoning }

/-! ## PlayerService and SettingsService: the remaining methods -/

/-- The value `PlayerService.markPlayerAsDrafted` returns: the record that
`find` returns, which by then has the flag set, or `undefined`. No path of the
method throws. -/
def markPlayerAsDraftedReturn (players : List Player) (playerId : String) :
    Except String (Option Player) :=
  .ok ((players.find? (fun p => p.id == playerId)).map (fun p => { p with isDrafted := true }))

/-- The object `leagueSettings.scoringSettings`. -/
structure ScoringSettings where
  passingYards : ℚ
  passingTouchdowns : ℚ
  interceptions : ℚ
  rushingYards : ℚ
  rushingTouchdowns : ℚ
  receivingYards : ℚ
  receivingTouchdowns : ℚ
  receptions : ℚ
  fumblesLost : ℚ
  fieldGoals : ℚ
  extraPoints : ℚ
  sacks : ℚ
  interceptionsDefense : ℚ
  fumbleRecoveries : ℚ
  defensiveTouchdowns : ℚ
  safety : ℚ
  pointsAllowed : List (Nat × ℚ)
deriving DecidableEq

/-- The state of a `SettingsService`: the object `leagueSettings`, with its
field `scoringSettings` kept beside the other fields. -/
structure SettingsService where
  leagueSettings : LeagueSettings
  scoringSettings : ScoringSettings
deriving DecidableEq

/-- The scoring settings that the `SettingsService` constructor installs. -/
def defaultScoringSettings : ScoringSettings :=
  { passingYards := 4 / 100, passingTouchdowns := 4, interceptions := -2,
    rushingYards := 1 / 10, rushingTouchdowns := 6, receivingYards := 1 / 10,
    receivingTouchdowns := 6, receptions := 1, fumblesLost := -2, fieldGoals := 3,
    extraPoints := 1, sacks := 1, interceptionsDefense := 2, fumbleRecoveries := 2,
    defensiveTouchdowns := 6, safety := 2,
    pointsAllowed := [(0, 10), (6, 7), (13, 4), (20, 1), (27, 0), (34, -1), (35, -4)] }

/-- The `SettingsService` constructor. -/
def SettingsService.new : SettingsService :=
  { leagueSettings := defaultLeagueSettings, scoringSettings := defaultScoringSettings }

/-- `SettingsService.getLeagueSettings`. -/
def getLeagueSettings (svc : SettingsService) : SettingsService := svc

/-- The argument of `updateLeagueSettings`: an object that holds any of the
fields of `leagueSettings`. -/
structure SettingsPatch where
  leagueType : Option String
  numberOfTeams : Option Nat
  draftPosition : Option Nat
  snakeDraft : Option Bool
  rosterSpots : Option (List (String × Int))
  scoringSettings : Option ScoringSettings

/-- `SettingsService.updateLeagueSettings`: the returned settings and the state
after the call. The spread `{ ...this.leagueSettings, ...newSettings }` takes
every field that `newSettings` holds and keeps the others; no path throws. -/
def updateLeagueSettings (svc : SettingsService) (newSettings : SettingsPatch) :
    Except String SettingsService × SettingsService :=
  let merged : SettingsService :=
    { leagueSettings :=
        { leagueType := newSettings.leagueType.getD svc.leagueSettings.leagueType,
          numberOfTeams := newSettings.numberOfTeams.getD svc.leagueSettings.numberOfTeams,
          draftPosition := newSettings.draftPosition.getD svc.leagueSettings.draftPosition,
          snakeDraft := newSettings.snakeDraft.getD svc.leagueSettings.snakeDraft,
          rosterSpots := newSettings.rosterSpots.getD svc.leagueSettings.rosterSpots },
      scoringSettings := newSettings.scoringSettings.getD svc.scoringSettings }
  (.ok merged, merged)

/-- `SettingsService.updateRosterRequirements`: the returned roster spots and
the state after the call; the spread writes every entry of the argument into
the roster spots. No path throws. -/
def updateRosterRequirements (svc : SettingsService)
    (newRosterRequirements : List (String × Int)) :
    Except String (List (String × Int)) × SettingsService :=
  let rosterSpots :=
    newRosterRequirements.foldl (fun o entry => objSet o entry.1 entry.2)
      svc.leagueSettings.rosterSpots
  let svc1 : SettingsService :=
    { svc with leagueSettings := { svc.leagueSettings with rosterSpots := rosterSpots } }
  (.ok rosterSpots, svc1)

/-- `SettingsService.applyLeagueTypePreset`: the state after the call, which is
also what the method returns. -/
def applyLeagueTypePreset (svc : SettingsService) (leagueType : String) : SettingsService :=
  let setReceptions (svc : SettingsService) (x : ℚ) : SettingsService :=
    { svc with scoringSettings := { svc.scoringSettings with receptions := x } }
  let svc1 : SettingsService :=
    if leagueType == "Standard" then setReceptions svc 0
    else if leagueType == "PPR" then setReceptions svc 1
    else if leagueType == "HalfPPR" then setReceptions svc (1 / 2)
    else if leagueType == "Superflex" then
      let svc0 := setReceptions svc 1
      { svc0 with leagueSettings :=
          { svc0.leagueSettings with rosterSpots := objSet svc0.leagueSettings.rosterSpots "QB" 2 } }
    else if leagueType == "Dynasty" then
      let svc0 := setReceptions svc 1
      { svc0 with leagueSettings :=
          { svc0.leagueSettings with
            rosterSpots := [("QB", 2), ("RB", 4), ("WR", 6), ("TE", 2), ("K", 1), ("DST", 1)] } }
    else svc
  { svc1 with leagueSettings := { svc1.leagueSettings with leagueType := leagueType } }

/-- `Array.prototype.indexOf`: the first index of the element, or -1. -/
def jsIndexOf (l : List Nat) (x : Nat) : Int :=
  if x ∈ l then ((l.indexOf x : Nat) : Int) else -1

/-- The value `getTeamPickInfo` returns. -/
structure TeamPickInfo where
  round : Nat
  pickPosition : Int
  pickNumber : ℚ
  isUserPick : Bool
deriving DecidableEq

/-- `SettingsService.getTeamPickInfo`. The index that `indexOf` returns is below
`2 ^ 32`, so `pickPosition` is exact; the product and the sum of `pickNumber`
are rounded as doubles. -/
def getTeamPickInfo (ls : LeagueSettings) (teamId round : Nat) : TeamPickInfo :=
  let order := getDraftOrder ls round
  let pickPosition := jsIndexOf order teamId + 1
  let pickNumber :=
    fadd (fmul (fsub (round : ℚ) 1) (ls.numberOfTeams : ℚ)) (pickPosition : ℚ)
  { round := round, pickPosition := pickPosition, pickNumber := pickNumber,
    isUserPick := teamId == ls.draftPosition }

/-! ## DraftManager, the engine of the mobile client

A shallow embedding of `src/FantasyDraftCalc/DraftManager.swift`. Swift `Int`
is `Int`, `%` is the remainder of the division truncated towards zero, and
`Double` arithmetic is exact. -/

/-- The fields of `DraftManager` that the turn and the scores read. -/
structure DraftManager where
  availablePlayers : List Player
  currentPick : Int
  currentRound : Int
  leagueSettings : LeagueSettings
  userTeam : List Player

/-- `DraftManager.isUserPick`; `none` is the trap of `%` with
`numberOfTeams = 0`. -/
def DraftManager.isUserPick (m : DraftManager) : Option Bool :=
  let numberOfTeams : Int := m.leagueSettings.numberOfTeams
  let userPickInRound : Int := m.leagueSettings.draftPosition
  let isSnakeRound := m.currentRound.tmod 2 == 0
  if numberOfTeams = 0 then none
  else if m.leagueSettings.snakeDraft && isSnakeRound then
    some (m.currentPick.tmod numberOfTeams
      == (numberOfTeams - userPickInRound + 1).tmod numberOfTeams)
  else
    some (m.currentPick.tmod numberOfTeams == userPickInRound)

/-- `DraftManager.getPositionScarcity`. -/
def DraftManager.getPositionScarcity (m : DraftManager) (position : String) : ℚ :=
  let totalAvailable := m.availablePlayers.length
  let positionAvailable := (m.availablePlayers.filter (fun p => p.position == position)).length
  if totalAvailable == 0 then 1
  else
    let scarcity : ℚ := (totalAvailable : ℚ) / ((max 1 positionAvailable : Nat) : ℚ)
    min 2 scarcity

/-- The score that the body of the loop of `DraftManager.getValueBasedRanking`
computes for one player. -/
def DraftManager.valueScore (m : DraftManager) (player : Player) : ℚ :=
  let score := player.projectedPoints
  let adpValue := max 0 (player.adp - (m.currentPick : ℚ))
  let score := score + adpValue * (1 / 2)
  let score := score + (player.tier : ℚ) * 10
  let positionScarcity := m.getPositionScarcity player.position
  score * positionScarcity

/-- `DraftManager.getValueBasedRanking`: the dictionary, as the list of its
entries. -/
def DraftManager.getValueBasedRanking (m : DraftManager) : List (Player × ℚ) :=
  m.availablePlayers.map (fun player => (player, m.valueScore player))

/-- `DraftManager.calculatePlayerScore`, given what the two dictionary reads
return (`nil` is `none`). -/
def DraftManager.calculatePlayerScore (m : DraftManager) (needRead valueRead : Option ℚ) : ℚ :=
  let needScore := needRead.getD 0
  let valueScore := valueRead.getD 0
  let needWeight : ℚ := max (3 / 10) (1 - (m.currentRound : ℚ) * (5 / 100))
  let valueWeight := 1 - needWeight
  needScore * needWeight + valueScore * valueWeight

/-! ## Definitions used by the statements -/

/-- The slot that `getDraftBoard` pushes for round `round` and team `team`. -/
def boardSlot (s : DraftService) (round team : Nat) : BoardSlot :=
  let pickNumber := (round - 1) * s.leagueSettings.numberOfTeams + team
  let pick := s.draftPicks.find? (fun p => p.pickNumber == pickNumber)
  { round := round, pickNumber := pickNumber, teamId := team,
    player := pick.map (fun p => p.player),
    timestamp := pick.map (fun p => p.timestamp) }

/-- The record `makePick` pushes on the roster: the catalog record with the
flag set. -/
def drafted (p : Player) : Player := { p with isDrafted := true }

/-- The team after `makePick` has pushed the player and the pick on it. -/
def addPick (player : Player) (round pickNumber now : Nat) (team : Team) : Team :=
  { team with
    roster := team.roster ++ [player],
    picks := team.picks ++
      [{ round := round, pickNumber := pickNumber, player := player, timestamp := now }] }

/-- The two guards of `makePick` pass: the id names a catalog player that is
not drafted, and the team id names a team. -/
def Pickable (s : DraftService) (playerId : String) (teamId : Nat) : Prop :=
  (∃ p, getPlayerById s.players playerId = some p ∧ p.isDrafted = false) ∧
  ∃ t, s.teams.find? (fun t => t.id == teamId) = some t

/-- The catalog record that `getPlayerById` finds for the id is drafted. -/
def DraftedId (s : DraftService) (playerId : String) : Prop :=
  ∃ p, getPlayerById s.players playerId = some p ∧ p.isDrafted = true

/-- The team `initializeDraft` creates for number `i`. -/
def newTeam (i : Nat) : Team :=
  { id := i, name := "Team " ++ toString i, roster := [], picks := [] }

/-- A `DraftService` as its constructor or `resetDraft` leaves it. -/
def IsInitial (s0 : DraftService) : Prop :=
  (∃ players settings, s0 = DraftService.create players settings) ∨ ∃ s, s0 = resetDraft s

/-- What the draft state machine keeps true between calls, for `n` teams. -/
structure TurnInv (s : DraftService) (n : Nat) : Prop where
  teams_eq : s.leagueSettings.numberOfTeams = n
  total_eq : s.draftState.totalPicks = n * 15
  length_eq : s.teams.length = n
  complete_iff : s.draftState.isComplete = true ↔ s.draftState.currentPick > n * 15

/-- The number of calls of the sequence that `makePick` accepts. -/
def successfulPicks (s : DraftService) : List PickCall → Nat
  | [] => 0
  | c :: cs =>
    (if (makePick s c.playerId c.teamId c.round c.pickNumber c.now).1.toBool then 1 else 0)
      + successfulPicks (makePick s c.playerId c.teamId c.round c.pickNumber c.now).2 cs

/-- A catalog of `m` undrafted players with the ids `0, 1, ..., m - 1`. -/
def sampleCatalog (m : Nat) : List Player :=
  (List.range m).map (fun i => mockPlayer (toString i) "Player" "RB" "FA" (i + 1) 100 10 1 7)

/-- The first `m` picks of a draft of `n` teams, every round in ascending team
order: pick `i + 1` takes player `i` for team `i % n + 1` in round `i / n + 1`. -/
def samplePicks (n m : Nat) : List PickCall :=
  (List.range m).map (fun i =>
    { playerId := toString i, teamId := i % n + 1, round := i / n + 1, pickNumber := i + 1,
      now := i })

/-- A fresh service for eight teams over a catalog of 121 players. -/
def eightTeamDraft : DraftService :=
  DraftService.create (sampleCatalog 121) { defaultLeagueSettings with numberOfTeams := 8 }

/-- A fresh service in which team 2 has taken four of the five running backs
of the mock catalog. -/
def oneRunningBackLeft : DraftService :=
  runPicks DraftService.new
    [{ playerId := "4", teamId := 2, round := 1, pickNumber := 1, now := 0 },
     { playerId := "5", teamId := 2, round := 1, pickNumber := 2, now := 1 },
     { playerId := "6", teamId := 2, round := 1, pickNumber := 3, now := 2 },
     { playerId := "12", teamId := 2, round := 1, pickNumber := 4, now := 3 }]

/-- The score `getOptimalPick` computes for a player, for the team and round
of the call. -/
def scoreOf (s : DraftService) (team : Team) (currentRound : Int) (p : Player) : ℚ :=
  calculatePlayerScore p (calculateTeamNeeds s team s.leagueSettings)
    (getValueBasedRankings s (getAvailablePlayers s.players) currentRound) currentRound

/-- The object `{ ...player, score }` that `getOptimalPick` builds for a player. -/
def scored (s : DraftService) (team : Team) (currentRound : Int) (p : Player) : ScoredPlayer :=
  { player := p, score := scoreOf s team currentRound p }

/-- A service over a catalog of two players that differ in id, name and rank
only; the one listed first has the higher rank number. -/
def tieDraft : DraftService :=
  DraftService.create
    [mockPlayer "a" "Alpha" "RB" "FA" 2 100 5 1 7,
     mockPlayer "b" "Beta" "RB" "FA" 1 100 5 1 7]
    defaultLeagueSettings

/-- The fifteen picks that take the mock catalog, player `i + 1` as pick
`i + 1` for team `i % 12 + 1`. -/
def mockCatalogPicks : List PickCall :=
  (List.range 15).map (fun i =>
    { playerId := toString (i + 1), teamId := i % 12 + 1, round := i / 12 + 1,
      pickNumber := i + 1, now := i })

/-- The fresh service after the fifteen players of the mock catalog have been
drafted. -/
def allDrafted : DraftService := runPicks DraftService.new mockCatalogPicks

/-- The fresh service after team 1 has taken the players 1, 2 and 11 of the
mock catalog. -/
def threePicksTeamOne : DraftService :=
  runPicks DraftService.new
    [{ playerId := "1", teamId := 1, round := 1, pickNumber := 1, now := 0 },
     { playerId := "2", teamId := 1, round := 2, pickNumber := 13, now := 1 },
     { playerId := "11", teamId := 1, round := 3, pickNumber := 25, now := 2 }]

/-- A manager of a 12-team snake draft whose user sits at draft position 12,
at pick 12 of round 1. -/
def lastSeat : DraftManager :=
  { availablePlayers := loadMockData, currentPick := 12, currentRound := 1,
    leagueSettings := { defaultLeagueSettings with draftPosition := 12 }, userTeam := [] }

/-- The team that holds pick `k` of round `r` with `n` teams: position
`(k - 1) mod n` of the ascending order, or of the reversed order in an even
round of a snake draft. -/
def holdingTeam (n : Int) (snakeDraft : Bool) (k r : Int) : Int :=
  if snakeDraft = true ∧ r % 2 = 0 then n - (k - 1) % n else (k - 1) % n + 1

/-- The fresh service after the twelve picks of round 1, players 1 to 12 of the
mock catalog. -/
def afterRoundOne : DraftService := runPicks DraftService.new (mockCatalogPicks.take 12)

/-- The mobile engine at the same point of the same draft: the same available
players, pick 13, round 2. -/
def mobileAfterRoundOne : DraftManager :=
  { availablePlayers := getAvailablePlayers afterRoundOne.players, currentPick := 13,
    currentRound := 2, leagueSettings := defaultLeagueSettings, userTeam := [] }

/-- The constant `needWeight` of `calculatePlayerScore`. -/
def needWeight (currentRound : Int) : ℚ := max (3 / 10) (1 - (currentRound : ℚ) * (5 / 100))

/-- The constant `valueWeight` of `calculatePlayerScore`. -/
def valueWeight (currentRound : Int) : ℚ := 1 - needWeight currentRound

/-- The value of a player before `getValueBasedRankings` scales it by the
scarcity of the position. -/
def unscaledValue (player : Player) (currentRound : Int) : ℚ :=
  player.projectedPoints + max 0 (player.adp - (currentRound : ℚ)) * (1 / 2)
    + (player.tier : ℚ) * 10

/-- One call on a `DraftService`: a `makePick` with its arguments, or a
`resetDraft`. -/
inductive DraftOp where
  | pick (c : PickCall)
  | reset

/-- The state after a sequence of `makePick` and `resetDraft` calls; a
`makePick` that throws is followed by the next call, on the state it left. -/
def runOps (s : DraftService) : List DraftOp → DraftService
  | [] => s
  | DraftOp.pick c :: ops =>
    runOps (makePick s c.playerId c.teamId c.round c.pickNumber c.now).2 ops
  | DraftOp.reset :: ops => runOps (resetDraft s) ops

/-- The number of catalog players with `isDrafted = true`. -/
def draftedCount (s : DraftService) : Nat := (s.players.filter (fun p => p.isDrafted)).length

/-- The sum of the roster lengths of all teams. -/
def rosterTotal (s : DraftService) : Nat := (s.teams.map (fun t => t.roster.length)).sum

/-- The player ids on the rosters of all teams, team by team. -/
def rosterIds (s : DraftService) : List String :=
  (s.teams.map (fun t => t.roster.map (fun p => p.id))).flatten

/-- The counts that stay equal along a draft. -/
structure CountInv (s : DraftService) : Prop where
  picks_eq : s.draftPicks.length + 1 = s.draftState.currentPick
  drafted_eq : s.draftPicks.length = draftedCount s
  roster_eq : s.draftPicks.length = rosterTotal s

/-- What a draft over a catalog of distinct ids keeps true of the rosters. -/
structure RosterInv (s : DraftService) : Prop where
  ids_nodup : (s.players.map (fun p => p.id)).Nodup
  roster_nodup : (rosterIds s).Nodup
  drafted_iff : ∀ p ∈ s.players, (p.isDrafted = true ↔ p.id ∈ rosterIds s)
  roster_sub : ∀ i ∈ rosterIds s, i ∈ s.players.map (fun p => p.id)

/-- The score `getOptimalPick` computes for a player in double arithmetic, for
the team and round of the call. -/
def Binary64.scoreOf (s : DraftService) (team : Team) (currentRound : Int) (p : Player) : ℚ :=
  Binary64.calculatePlayerScore p (Binary64.calculateTeamNeeds s team s.leagueSettings)
    (Binary64.getValueBasedRankings s (getAvailablePlayers s.players) currentRound) currentRound

/-- The object `{ ...player, score }` that `getOptimalPick` builds for a player
in double arithmetic. -/
def Binary64.scored (s : DraftService) (team : Team) (currentRound : Int) (p : Player) :
    ScoredPlayer :=
  { player := p, score := Binary64.scoreOf s team currentRound p }

/-- The value score `getOptimalPick` reads for a player in double arithmetic:
`valueRankings[player.id] || 0`. -/
def Binary64.valueOf (s : DraftService) (currentRound : Int) (p : Player) : ℚ :=
  (objGet (Binary64.getValueBasedRankings s (getAvailablePlayers s.players) currentRound)
    p.id).getD 0

/-- A service whose only roster requirement is one quarterback, after team 1
has taken the quarterback; the two receivers left have the projected points
100 and `100 + 2 ^ (-46)`, two neighbouring doubles. -/
def closeValues : DraftService :=
  runPicks
    (DraftService.create
      [mockPlayer "q" "Quarterback" "QB" "FA" 1 300 1 1 7,
       mockPlayer "x" "Receiver X" "WR" "FA" 2 100 1 1 7,
       mockPlayer "y" "Receiver Y" "WR" "FA" 3 (100 + 1 / 2 ^ 46) 1 1 7]
      { defaultLeagueSettings with rosterSpots := [("QB", 1)] })
    [{ playerId := "q", teamId := 1, round := 1, pickNumber := 1, now := 0 }]

/-- A team whose three players have the projected points 200.7, 311.4 and
311.4. -/
def roundedSumTeam : Team :=
  { id := 1, name := "Team 1",
    roster :=
      [drafted (mockPlayer "a" "Alpha" "RB" "FA" 1 (2007 / 10) 1 1 7),
       drafted (mockPlayer "b" "Beta" "WR" "FA" 2 (3114 / 10) 2 1 7),
       drafted (mockPlayer "c" "Gamma" "WR" "FA" 3 (3114 / 10) 3 2 7)],
    picks := [] }

/-! # Theorems -/

/-! ## Loop lemmas -/

theorem forUpFrom_eq_foldl {σ : Type} (hi : Nat) (body : Nat → σ → σ) :
    ∀ (fuel i : Nat) (acc : σ), i + fuel = hi + 1 →
      forUpFrom hi body fuel i acc = (List.range' i fuel).foldl (fun a j => body j a) acc
  | 0, _, _, _ => rfl
  | fuel + 1, i, acc, h => by
    have hle : i ≤ hi := by omega
    simp only [forUpFrom, hle, if_true, List.range'_succ, List.foldl_cons]
    exact forUpFrom_eq_foldl hi body fuel (i + 1) (body i acc) (by omega)

theorem forUp_eq_foldl {σ : Type} (lo hi : Nat) (body : Nat → σ → σ) (init : σ) :
    forUp lo hi body init =
      (List.range' lo (hi + 1 - lo)).foldl (fun a j => body j a) init := by
  unfold forUp
  by_cases h : lo ≤ hi + 1
  · exact forUpFrom_eq_foldl hi body (hi + 1 - lo) lo init (by omega)
  · have h0 : hi + 1 - lo = 0 := by omega
    rw [h0]; rfl

theorem foldl_push_eq {α : Type} (f : Nat → α) (l : List Nat) (acc : List α) :
    l.foldl (fun a j => a ++ [f j]) acc = acc ++ l.map f := by
  induction l generalizing acc with
  | nil => simp
  | cons x xs ih => simp [ih]

theorem forUp_push {α : Type} (lo hi : Nat) (f : Nat → α) (acc : List α) :
    forUp lo hi (fun i a => a ++ [f i]) acc = acc ++ (List.range' lo (hi + 1 - lo)).map f := by
  rw [forUp_eq_foldl, foldl_push_eq]

theorem forDownTo1_push {α : Type} (f : Nat → α) :
    ∀ (n : Nat) (acc : List α),
      forDownTo1 (fun i a => a ++ [f i]) n acc = acc ++ ((List.range' 1 n).map f).reverse
  | 0, acc => by simp [forDownTo1]
  | n + 1, acc => by
    rw [forDownTo1, forDownTo1_push f n, List.range'_concat]
    simp [Nat.add_comm]

/-! ## The draft board -/

theorem getDraftBoard_eq (s : DraftService) :
    getDraftBoard s =
      (List.range' 1 15).map (fun round =>
        (List.range' 1 s.leagueSettings.numberOfTeams).map (fun team => boardSlot s round team)) := by
  unfold getDraftBoard
  simp only [forUp_push, List.nil_append, Nat.add_sub_cancel]
  rfl

theorem flatten_rows_pickNumbers (n : Nat) :
    ∀ k : Nat,
      ((List.range' 1 k).map (fun r => (List.range' 1 n).map (fun t => (r - 1) * n + t))).flatten
        = List.range' 1 (n * k)
  | 0 => by simp
  | k + 1 => by
    rw [List.range'_concat, List.map_append, List.flatten_append, flatten_rows_pickNumbers n k]
    have hrow : (List.range' 1 n).map (fun t => (1 + 1 * k - 1) * n + t)
        = List.range' (1 + n * k) n := by
      have h := List.map_add_range' (n * k) 1 n 1
      rw [Nat.add_comm (n * k) 1] at h
      rw [← h]
      apply List.map_congr_left
      intro t _
      have : 1 + 1 * k - 1 = k := by omega
      rw [this, Nat.mul_comm]
    simp only [List.map_cons, List.map_nil, List.flatten_cons, List.flatten_nil, List.append_nil]
    rw [hrow, Nat.mul_succ, List.range'_append_1, Nat.add_comm n (n * k)]

theorem getDraftBoard_flatten_pickNumbers (s : DraftService) :
    (getDraftBoard s).flatten.map (fun slot => slot.pickNumber)
      = List.range' 1 (s.leagueSettings.numberOfTeams * 15) := by
  rw [getDraftBoard_eq, List.map_flatten, List.map_map]
  rw [← flatten_rows_pickNumbers s.leagueSettings.numberOfTeams 15]
  congr 1
  apply List.map_congr_left
  intro r _
  simp only [Function.comp, List.map_map]
  apply List.map_congr_left
  intro t _
  rfl

theorem getDraftBoard_slot (s : DraftService) (r t : Nat)
    (hr1 : 1 ≤ r) (hr : r ≤ 15) (ht1 : 1 ≤ t) (ht : t ≤ s.leagueSettings.numberOfTeams) :
    ((getDraftBoard s)[r - 1]?).bind (fun row => row[t - 1]?) = some (boardSlot s r t) := by
  rw [getDraftBoard_eq]
  have h1 : (List.range' 1 15)[r - 1]? = some r := by
    rw [@List.getElem?_range' 1 1 (r - 1) 15 (by omega)]
    congr 1; omega
  have h2 : (List.range' 1 s.leagueSettings.numberOfTeams)[t - 1]? = some t := by
    rw [@List.getElem?_range' 1 1 (t - 1) s.leagueSettings.numberOfTeams (by omega)]
    congr 1; omega
  rw [List.getElem?_map, h1, Option.map_some', Option.some_bind, List.getElem?_map, h2,
    Option.map_some']

/-- C1: for `numberOfTeams = n` in 8..16, `getDraftBoard` returns 15 rounds of
`n` slots each, `n * 15` slots in all; the slot at round `r`, position `t`
(1-based) has `pickNumber = (r - 1) * n + t` (and carries round `r`); the pick
numbers, read round by round, are exactly `1, 2, ..., n * 15`, hence pairwise
distinct. -/
theorem getDraftBoard_slots (s : DraftService) (n : Nat)
    (hn : s.leagueSettings.numberOfTeams = n) (h8 : 8 ≤ n) (h16 : n ≤ 16) :
    (getDraftBoard s).length = 15 ∧
    (∀ row ∈ getDraftBoard s, row.length = n) ∧
    (getDraftBoard s).flatten.length = n * 15 ∧
    (∀ r t : Nat, 1 ≤ r → r ≤ 15 → 1 ≤ t → t ≤ n →
      ∃ slot : BoardSlot,
        ((getDraftBoard s)[r - 1]?).bind (fun row => row[t - 1]?) = some slot ∧
        slot.pickNumber = (r - 1) * n + t ∧ slot.round = r) ∧
    (getDraftBoard s).flatten.map (fun slot => slot.pickNumber) = List.range' 1 (n * 15) ∧
    ((getDraftBoard s).flatten.map (fun slot => slot.pickNumber)).Nodup := by
  subst hn
  have hflat := getDraftBoard_flatten_pickNumbers s
  refine ⟨?_, ?_, ?_, ?_, hflat, ?_⟩
  · rw [getDraftBoard_eq, List.length_map, List.length_range']
  · intro row hrow
    rw [getDraftBoard_eq] at hrow
    obtain ⟨r, _, rfl⟩ := List.mem_map.mp hrow
    rw [List.length_map, List.length_range']
  · calc (getDraftBoard s).flatten.length
        = ((getDraftBoard s).flatten.map (fun slot => slot.pickNumber)).length :=
          (List.length_map _ _).symm
      _ = s.leagueSettings.numberOfTeams * 15 := by rw [hflat, List.length_range']
  · intro r t hr1 hr ht1 ht
    exact ⟨boardSlot s r t, getDraftBoard_slot s r t hr1 hr ht1 ht, rfl, rfl⟩
  · rw [hflat]; exact List.nodup_range' 1 (s.leagueSettings.numberOfTeams * 15)

theorem getDraftBoard_slots_witness :
    DraftService.new.leagueSettings.numberOfTeams = 12 ∧
    (getDraftBoard DraftService.new).length = 15 ∧
    (getDraftBoard DraftService.new).flatten.map (fun slot => slot.pickNumber)
      = List.range' 1 (12 * 15) :=
  have h : DraftService.new.leagueSettings.numberOfTeams = 12 := by decide
  have w := getDraftBoard_slots DraftService.new 12 h (by decide) (by decide)
  ⟨h, w.1, w.2.2.2.2.1⟩

/-! ## The draft order -/

theorem getDraftOrder_eq (ls : LeagueSettings) (round : Nat) :
    getDraftOrder ls round =
      if ls.snakeDraft = true ∧ round % 2 = 0 then (List.range' 1 ls.numberOfTeams).reverse
      else List.range' 1 ls.numberOfTeams := by
  unfold getDraftOrder
  by_cases h : ls.snakeDraft = true ∧ round % 2 = 0
  · have hb : (ls.snakeDraft && round % 2 == 0) = true := by simp [h.1, h.2]
    rw [if_pos hb, if_pos h, forDownTo1_push]
    simp
  · have hb : ¬ (ls.snakeDraft && round % 2 == 0) = true := by
      simpa using h
    rw [if_neg hb, if_neg h, forUp_push]
    simp

/-- C2: for `numberOfTeams = n ≥ 1` and round `r ≥ 1`, `getDraftOrder r` is
`[n, n-1, ..., 1]` when `snakeDraft` is true and `r` is even, and `[1, ..., n]`
otherwise; so with `snakeDraft` true an even round is the reverse of round 1 and
an odd round equals round 1, and with `snakeDraft` false every round is
ascending. -/
theorem getDraftOrder_snake (ls : LeagueSettings) (r : Nat)
    (_hn : 1 ≤ ls.numberOfTeams) (_hr : 1 ≤ r) :
    (ls.snakeDraft = true → r % 2 = 0 →
      getDraftOrder ls r = (List.range' 1 ls.numberOfTeams).reverse) ∧
    (¬ (ls.snakeDraft = true ∧ r % 2 = 0) →
      getDraftOrder ls r = List.range' 1 ls.numberOfTeams) ∧
    (ls.snakeDraft = true → r % 2 = 0 →
      getDraftOrder ls r = (getDraftOrder ls 1).reverse) ∧
    (ls.snakeDraft = true → r % 2 = 1 → getDraftOrder ls r = getDraftOrder ls 1) ∧
    (ls.snakeDraft = false → getDraftOrder ls r = List.range' 1 ls.numberOfTeams) := by
  have h1 : getDraftOrder ls 1 = List.range' 1 ls.numberOfTeams := by
    rw [getDraftOrder_eq]; simp
  refine ⟨?_, ?_, ?_, ?_, ?_⟩
  · intro hs he; rw [getDraftOrder_eq, if_pos ⟨hs, he⟩]
  · intro h; rw [getDraftOrder_eq, if_neg h]
  · intro hs he; rw [h1, getDraftOrder_eq, if_pos ⟨hs, he⟩]
  · intro hs ho; rw [h1, getDraftOrder_eq, if_neg (by omega)]
  · intro hs; rw [getDraftOrder_eq, if_neg (by simp [hs])]

theorem getDraftOrder_snake_witness :
    getDraftOrder defaultLeagueSettings 2 = [12, 11, 10, 9, 8, 7, 6, 5, 4, 3, 2, 1] ∧
    getDraftOrder defaultLeagueSettings 3 = [1, 2, 3, 4, 5, 6, 7, 8, 9, 10, 11, 12] :=
  have w2 := getDraftOrder_snake defaultLeagueSettings 2 (by decide) (by decide)
  have w3 := getDraftOrder_snake defaultLeagueSettings 3 (by decide) (by decide)
  ⟨(w2.1 (by decide) (by decide)).trans (by decide),
   (w3.2.2.2.1 (by decide) (by decide)).trans (by decide)⟩

/-! ## Making a pick -/

theorem updateFirst_length {α : Type} (p : α → Bool) (f : α → α) :
    ∀ l : List α, (updateFirst p f l).length = l.length
  | [] => rfl
  | x :: xs => by
    unfold updateFirst
    split
    · rfl
    · simp [updateFirst_length p f xs]

theorem find?_updateFirst_same {α : Type} (p : α → Bool) (f : α → α)
    (hf : ∀ x, p (f x) = p x) :
    ∀ l : List α, (updateFirst p f l).find? p = (l.find? p).map f
  | [] => rfl
  | x :: xs => by
    unfold updateFirst
    by_cases hx : p x = true
    · have hfx : p (f x) = true := by rw [hf, hx]
      simp [hx, hfx]
    · simp only [hx, if_false, Bool.false_eq_true]
      rw [List.find?_cons_of_neg _ hx, List.find?_cons_of_neg _ hx]
      exact find?_updateFirst_same p f hf xs

theorem find?_updateFirst_other {α : Type} (p q : α → Bool) (f : α → α)
    (hf : ∀ x, q (f x) = q x) :
    ∀ (l : List α) (x : α), l.find? q = some x →
      (updateFirst p f l).find? q = some x ∨ (updateFirst p f l).find? q = some (f x)
  | [], _, h => by simp at h
  | y :: ys, x, h => by
    unfold updateFirst
    by_cases hy : q y = true
    · rw [List.find?_cons_of_pos _ hy] at h
      cases h
      by_cases hp : p y = true
      · right
        simp only [hp, if_true]
        exact List.find?_cons_of_pos _ (by rw [hf, hy])
      · left
        simp only [hp, if_false, Bool.false_eq_true]
        exact List.find?_cons_of_pos _ hy
    · rw [List.find?_cons_of_neg _ hy] at h
      by_cases hp : p y = true
      · simp only [hp, if_true]
        have hfy : ¬ q (f y) = true := by rw [hf]; exact hy
        rw [List.find?_cons_of_neg _ hfy]
        exact Or.inl h
      · simp only [hp, if_false, Bool.false_eq_true]
        rw [List.find?_cons_of_neg _ hy]
        exact find?_updateFirst_other p q f hf ys x h

/-- The four ways through `makePick`: three throw and return the state they
were given, one commits the pick. -/
theorem makePick_cases (s : DraftService) (playerId : String) (teamId round pickNumber now : Nat) :
    (getPlayerById s.players playerId = none ∧
      makePick s playerId teamId round pickNumber now = (.error "Player not available", s)) ∨
    (∃ p, getPlayerById s.players playerId = some p ∧ p.isDrafted = true ∧
      makePick s playerId teamId round pickNumber now = (.error "Player not available", s)) ∨
    (∃ p, getPlayerById s.players playerId = some p ∧ p.isDrafted = false ∧
      s.teams.find? (fun t => t.id == teamId) = none ∧
      makePick s playerId teamId round pickNumber now = (.error "Team not found", s)) ∨
    (∃ p t, getPlayerById s.players playerId = some p ∧ p.isDrafted = false ∧
      s.teams.find? (fun t => t.id == teamId) = some t ∧
      (makePick s playerId teamId round pickNumber now).1.toBool = true ∧
      (makePick s playerId teamId round pickNumber now).2.players
        = markPlayerAsDrafted s.players playerId ∧
      (makePick s playerId teamId round pickNumber now).2.leagueSettings = s.leagueSettings ∧
      (makePick s playerId teamId round pickNumber now).2.teams
        = updateFirst (fun t => t.id == teamId) (addPick (drafted p) round pickNumber now)
            s.teams ∧
      (makePick s playerId teamId round pickNumber now).2.draftPicks
        = s.draftPicks ++ [{ round := round, pickNumber := pickNumber, teamId := teamId,
                             player := drafted p, timestamp := now }] ∧
      (makePick s playerId teamId round pickNumber now).2.draftState
        = (if s.draftState.currentPick + 1 > s.draftState.totalPicks then
            { s.draftState with currentPick := s.draftState.currentPick + 1, isComplete := true }
          else
            { s.draftState with
              currentPick := s.draftState.currentPick + 1,
              currentRound := (s.draftState.currentPick + 1 - 1) / s.teams.length + 1 })) := by
  cases hp : getPlayerById s.players playerId with
  | none => left; exact ⟨rfl, by simp [makePick, hp]⟩
  | some p =>
    right
    cases hd : p.isDrafted with
    | true => left; exact ⟨p, rfl, hd, by simp [makePick, hp, hd]⟩
    | false =>
      right
      cases ht : s.teams.find? (fun t => t.id == teamId) with
      | none => left; exact ⟨p, rfl, hd, rfl, by simp [makePick, hp, hd, ht]⟩
      | some t =>
        right
        by_cases hc : s.draftState.currentPick + 1 > s.draftState.totalPicks
        · refine ⟨p, t, rfl, hd, rfl, ?_, ?_, ?_, ?_, ?_, ?_⟩ <;>
            (simp [makePick, hp, hd, ht, hc, drafted, addPick, updateFirst_length, Except.toBool]
             try rfl)
        · refine ⟨p, t, rfl, hd, rfl, ?_, ?_, ?_, ?_, ?_, ?_⟩ <;>
            (simp [makePick, hp, hd, ht, hc, drafted, addPick, updateFirst_length, Except.toBool]
             try rfl)

theorem makePick_rejected_state (s : DraftService) (playerId : String)
    (teamId round pickNumber now : Nat)
    (h : (makePick s playerId teamId round pickNumber now).1.toBool = false) :
    (makePick s playerId teamId round pickNumber now).2 = s := by
  rcases makePick_cases s playerId teamId round pickNumber now with
    ⟨_, h1⟩ | ⟨_, _, _, h1⟩ | ⟨_, _, _, _, h1⟩ | ⟨_, _, _, _, _, hok, _⟩
  · rw [h1]
  · rw [h1]
  · rw [h1]
  · rw [hok] at h; cases h

theorem makePick_accepted_iff (s : DraftService) (playerId : String)
    (teamId round pickNumber now : Nat) :
    (makePick s playerId teamId round pickNumber now).1.toBool = true ↔
      Pickable s playerId teamId := by
  rcases makePick_cases s playerId teamId round pickNumber now with
    ⟨hp, h1⟩ | ⟨p, hp, hd, h1⟩ | ⟨p, hp, hd, ht, h1⟩ | ⟨p, t, hp, hd, ht, hok, _⟩
  · constructor
    · intro h; rw [h1] at h; cases h
    · rintro ⟨⟨q, hq, _⟩, _⟩; rw [hp] at hq; cases hq
  · constructor
    · intro h; rw [h1] at h; cases h
    · rintro ⟨⟨q, hq, hqd⟩, _⟩
      rw [hp] at hq; cases hq; rw [hd] at hqd; cases hqd
  · constructor
    · intro h; rw [h1] at h; cases h
    · rintro ⟨_, t, ht2⟩; rw [ht] at ht2; cases ht2
  · exact ⟨fun _ => ⟨⟨p, hp, hd⟩, t, ht⟩, fun _ => hok⟩

theorem makePick_draftedId_self (s : DraftService) (playerId : String)
    (teamId round pickNumber now : Nat)
    (h : (makePick s playerId teamId round pickNumber now).1.toBool = true) :
    DraftedId (makePick s playerId teamId round pickNumber now).2 playerId := by
  rcases makePick_cases s playerId teamId round pickNumber now with
    ⟨_, h1⟩ | ⟨_, _, _, h1⟩ | ⟨_, _, _, _, h1⟩ | ⟨p, _, hp, _, _, _, hpl, _⟩
  · rw [h1] at h; cases h
  · rw [h1] at h; cases h
  · rw [h1] at h; cases h
  · refine ⟨drafted p, ?_, rfl⟩
    unfold getPlayerById at hp ⊢
    rw [hpl]
    unfold markPlayerAsDrafted
    rw [find?_updateFirst_same (fun q : Player => q.id == playerId)
      (fun q => { q with isDrafted := true }) (fun _ => rfl), hp]
    rfl

theorem makePick_draftedId_keep (s : DraftService) (playerId : String)
    (h : DraftedId s playerId) (other : String) (teamId round pickNumber now : Nat) :
    DraftedId (makePick s other teamId round pickNumber now).2 playerId := by
  rcases makePick_cases s other teamId round pickNumber now with
    ⟨_, h1⟩ | ⟨_, _, _, h1⟩ | ⟨_, _, _, _, h1⟩ | ⟨_, _, _, _, _, _, hpl, _⟩
  · rw [h1]; exact h
  · rw [h1]; exact h
  · rw [h1]; exact h
  · obtain ⟨p, hp, hd⟩ := h
    unfold DraftedId
    unfold getPlayerById at hp ⊢
    rw [hpl]
    unfold markPlayerAsDrafted
    rcases find?_updateFirst_other (fun q : Player => q.id == other)
        (fun q : Player => q.id == playerId) (fun q => { q with isDrafted := true })
        (fun _ => rfl) s.players p hp with h2 | h2
    · exact ⟨p, h2, hd⟩
    · exact ⟨_, h2, rfl⟩

theorem runPicks_draftedId (playerId : String) :
    ∀ (calls : List PickCall) (s : DraftService), DraftedId s playerId →
      DraftedId (runPicks s calls) playerId
  | [], _, h => h
  | c :: cs, s, h =>
    runPicks_draftedId playerId cs _
      (makePick_draftedId_keep s playerId h c.playerId c.teamId c.round c.pickNumber c.now)

theorem makePick_of_draftedId (s : DraftService) (playerId : String) (h : DraftedId s playerId)
    (teamId round pickNumber now : Nat) :
    makePick s playerId teamId round pickNumber now = (.error "Player not available", s) := by
  obtain ⟨p, hp, hd⟩ := h
  rcases makePick_cases s playerId teamId round pickNumber now with
    ⟨hq, _⟩ | ⟨_, _, _, h1⟩ | ⟨q, hq, hqd, _⟩ | ⟨q, _, hq, hqd, _⟩
  · rw [hp] at hq; cases hq
  · exact h1
  · rw [hp] at hq; cases hq; rw [hd] at hqd; cases hqd
  · rw [hp] at hq; cases hq; rw [hd] at hqd; cases hqd

/-- C3: `makePick` is not idempotent. If `makePick` succeeds for a player id,
then after any further sequence of `makePick` calls (no reset in between) a
`makePick` with the same player id, for any team, round and pick number, throws
(`Player not available`) and leaves the state as it was. -/
theorem makePick_not_idempotent (s : DraftService) (playerId : String)
    (teamId round pickNumber now : Nat)
    (hok : (makePick s playerId teamId round pickNumber now).1.toBool = true)
    (calls : List PickCall) (teamId2 round2 pickNumber2 now2 : Nat) :
    makePick (runPicks (makePick s playerId teamId round pickNumber now).2 calls)
        playerId teamId2 round2 pickNumber2 now2
      = (.error "Player not available",
          runPicks (makePick s playerId teamId round pickNumber now).2 calls) :=
  makePick_of_draftedId _ playerId
    (runPicks_draftedId playerId calls _
      (makePick_draftedId_self s playerId teamId round pickNumber now hok))
    teamId2 round2 pickNumber2 now2

theorem makePick_not_idempotent_witness :
    (makePick DraftService.new "4" 1 1 1 0).1.toBool = true ∧
    (makePick
        (runPicks (makePick DraftService.new "4" 1 1 1 0).2
          [{ playerId := "7", teamId := 2, round := 1, pickNumber := 2, now := 1 }])
        "4" 3 1 3 2).1 = .error "Player not available" :=
  have h : (makePick DraftService.new "4" 1 1 1 0).1.toBool = true := by decide
  ⟨h, congrArg Prod.fst
    (makePick_not_idempotent DraftService.new "4" 1 1 1 0 h
      [{ playerId := "7", teamId := 2, round := 1, pickNumber := 2, now := 1 }] 3 1 3 2)⟩

/-- C4: a rejected `makePick` leaves all state unchanged. Whenever `makePick`
throws, the service state after the call (draft state, draft picks, every
team's roster and picks, every player's flag) equals the state before it; and
it throws only for an unknown player id, a drafted player, or an unknown team
id. -/
theorem makePick_rejected_unchanged (s : DraftService) (playerId : String)
    (teamId round pickNumber now : Nat) (e : String)
    (h : (makePick s playerId teamId round pickNumber now).1 = .error e) :
    (makePick s playerId teamId round pickNumber now).2 = s ∧
    (makePick s playerId teamId round pickNumber now).2.draftState = s.draftState ∧
    (makePick s playerId teamId round pickNumber now).2.draftPicks = s.draftPicks ∧
    (makePick s playerId teamId round pickNumber now).2.teams = s.teams ∧
    (makePick s playerId teamId round pickNumber now).2.players = s.players ∧
    (getPlayerById s.players playerId = none ∨
      (∃ p, getPlayerById s.players playerId = some p ∧ p.isDrafted = true) ∨
      s.teams.find? (fun t => t.id == teamId) = none) := by
  have hb : (makePick s playerId teamId round pickNumber now).1.toBool = false := by
    rw [h]; rfl
  have hs := makePick_rejected_state s playerId teamId round pickNumber now hb
  refine ⟨hs, by rw [hs], by rw [hs], by rw [hs], by rw [hs], ?_⟩
  rcases makePick_cases s playerId teamId round pickNumber now with
    ⟨hp, _⟩ | ⟨p, hp, hd, _⟩ | ⟨_, _, _, ht, _⟩ | ⟨_, _, _, _, _, hok, _⟩
  · exact Or.inl hp
  · exact Or.inr (Or.inl ⟨p, hp, hd⟩)
  · exact Or.inr (Or.inr ht)
  · rw [hok] at hb; cases hb

theorem makePick_rejected_unchanged_witness :
    (makePick DraftService.new "1" 99 1 1 0).1 = .error "Team not found" ∧
    (makePick DraftService.new "1" 99 1 1 0).2 = DraftService.new :=
  have h : (makePick DraftService.new "1" 99 1 1 0).1 = .error "Team not found" := by
    simp [makePick, getPlayerById, DraftService.new, DraftService.create, loadMockData,
      mockPlayer, initializeDraft, forUp, forUpFrom, defaultLeagueSettings]
  ⟨h, (makePick_rejected_unchanged DraftService.new "1" 99 1 1 0 "Team not found" h).1⟩

theorem runPicks_currentPick_le :
    ∀ (calls : List PickCall) (s : DraftService),
      s.draftState.currentPick ≤ (runPicks s calls).draftState.currentPick
  | [], _ => Nat.le_refl _
  | c :: cs, s => by
    have h := runPicks_currentPick_le cs
      (makePick s c.playerId c.teamId c.round c.pickNumber c.now).2
    refine Nat.le_trans ?_ h
    rcases makePick_cases s c.playerId c.teamId c.round c.pickNumber c.now with
      ⟨_, h1⟩ | ⟨_, _, _, h1⟩ | ⟨_, _, _, _, h1⟩ | ⟨_, _, _, _, _, _, _, _, _, _, hds⟩
    · rw [h1]
    · rw [h1]
    · rw [h1]
    · rw [hds]; split <;> simp

/-- C7: from every state, a successful `makePick` leaves `currentPick` equal to
its value before the call plus exactly 1, a failed `makePick` leaves it
unchanged, and so `currentPick` never decreases through any sequence of
`makePick` calls. -/
theorem makePick_currentPick (s : DraftService) (playerId : String)
    (teamId round pickNumber now : Nat) :
    ((makePick s playerId teamId round pickNumber now).1.toBool = true →
      (makePick s playerId teamId round pickNumber now).2.draftState.currentPick
        = s.draftState.currentPick + 1) ∧
    ((makePick s playerId teamId round pickNumber now).1.toBool = false →
      (makePick s playerId teamId round pickNumber now).2.draftState.currentPick
        = s.draftState.currentPick) ∧
    (∀ calls : List PickCall,
      s.draftState.currentPick ≤ (runPicks s calls).draftState.currentPick) := by
  refine ⟨?_, ?_, fun calls => runPicks_currentPick_le calls s⟩
  · intro h
    rcases makePick_cases s playerId teamId round pickNumber now with
      ⟨_, h1⟩ | ⟨_, _, _, h1⟩ | ⟨_, _, _, _, h1⟩ | ⟨_, _, _, _, _, _, _, _, _, _, hds⟩
    · rw [h1] at h; cases h
    · rw [h1] at h; cases h
    · rw [h1] at h; cases h
    · rw [hds]; split <;> rfl
  · intro h
    rw [makePick_rejected_state s playerId teamId round pickNumber now h]

theorem makePick_currentPick_witness :
    (makePick DraftService.new "1" 1 1 1 0).2.draftState.currentPick = 2 ∧
    (makePick DraftService.new "none" 1 1 1 0).2.draftState.currentPick = 1 :=
  ⟨(makePick_currentPick DraftService.new "1" 1 1 1 0).1 (by decide),
   (makePick_currentPick DraftService.new "none" 1 1 1 0).2.1 (by decide)⟩

/-! ## Initial states -/

theorem foldl_push_team (l : List Nat) :
    ∀ s : DraftService,
      l.foldl (fun (st : DraftService) i => { st with teams := st.teams ++ [newTeam i] }) s
        = { s with teams := s.teams ++ l.map newTeam } := by
  induction l with
  | nil => intro s; simp
  | cons x xs ih => intro s; simp [ih]

theorem initializeDraft_eq (s : DraftService) :
    initializeDraft s =
      { s with
        draftState := { s.draftState with totalPicks := s.leagueSettings.numberOfTeams * 15 },
        teams := (List.range' 1 s.leagueSettings.numberOfTeams).map newTeam } := by
  unfold initializeDraft
  simp only [forUp_eq_foldl, Nat.add_sub_cancel]
  exact (foldl_push_team _ _).trans (by simp)

theorem create_eq (players : List Player) (settings : LeagueSettings) :
    DraftService.create players settings =
      { players := players, leagueSettings := settings,
        draftState := { currentRound := 1, currentPick := 1,
                        totalPicks := settings.numberOfTeams * 15, isComplete := false },
        draftPicks := [],
        teams := (List.range' 1 settings.numberOfTeams).map newTeam } := by
  unfold DraftService.create
  rw [initializeDraft_eq]

theorem resetDraft_eq (s : DraftService) :
    resetDraft s =
      { players := s.players.map (fun player => { player with isDrafted := false }),
        leagueSettings := s.leagueSettings,
        draftState := { currentRound := 1, currentPick := 1,
                        totalPicks := s.leagueSettings.numberOfTeams * 15, isComplete := false },
        draftPicks := [],
        teams := (List.range' 1 s.leagueSettings.numberOfTeams).map newTeam } := by
  unfold resetDraft
  simp only [initializeDraft_eq]

theorem IsInitial.turnInv {s0 : DraftService} (h : IsInitial s0) (n : Nat)
    (hn : s0.leagueSettings.numberOfTeams = n) (hpos : 1 ≤ n) :
    TurnInv s0 n ∧ s0.draftState.currentPick = 1 := by
  rcases h with ⟨players, settings, rfl⟩ | ⟨s, rfl⟩
  · rw [create_eq] at hn ⊢
    simp only at hn
    subst hn
    refine ⟨⟨rfl, rfl, by simp, ?_⟩, rfl⟩
    simp only [Bool.false_eq_true, false_iff, gt_iff_lt, not_lt]
    omega
  · rw [resetDraft_eq] at hn ⊢
    simp only at hn
    subst hn
    refine ⟨⟨rfl, rfl, by simp, ?_⟩, rfl⟩
    simp only [Bool.false_eq_true, false_iff, gt_iff_lt, not_lt]
    omega

theorem makePick_turnInv (s : DraftService) (n : Nat) (h : TurnInv s n) (playerId : String)
    (teamId round pickNumber now : Nat) :
    TurnInv (makePick s playerId teamId round pickNumber now).2 n := by
  rcases makePick_cases s playerId teamId round pickNumber now with
    ⟨_, h1⟩ | ⟨_, _, _, h1⟩ | ⟨_, _, _, _, h1⟩ | ⟨_, _, _, _, _, _, _, hls, hteams, _, hds⟩
  · rw [h1]; exact h
  · rw [h1]; exact h
  · rw [h1]; exact h
  · obtain ⟨h1, h2, h3, h4⟩ := h
    refine ⟨by rw [hls]; exact h1, ?_, by rw [hteams, updateFirst_length]; exact h3, ?_⟩
    · rw [hds]; split <;> exact h2
    · rw [hds]
      by_cases hc : s.draftState.currentPick + 1 > s.draftState.totalPicks
      · rw [if_pos hc]
        simp only [true_iff, gt_iff_lt]
        omega
      · rw [if_neg hc]
        simp only [gt_iff_lt]
        constructor
        · intro hcomp
          have := h4.mp hcomp
          omega
        · intro hgt
          omega

theorem runPicks_turnInv (n : Nat) :
    ∀ (calls : List PickCall) (s : DraftService), TurnInv s n → TurnInv (runPicks s calls) n
  | [], _, h => h
  | c :: cs, s, h =>
    runPicks_turnInv n cs _ (makePick_turnInv s n h c.playerId c.teamId c.round c.pickNumber c.now)

theorem makePick_currentPick_eq (s : DraftService) (playerId : String)
    (teamId round pickNumber now : Nat) :
    (makePick s playerId teamId round pickNumber now).2.draftState.currentPick
      = s.draftState.currentPick
        + (if (makePick s playerId teamId round pickNumber now).1.toBool then 1 else 0) := by
  rcases makePick_cases s playerId teamId round pickNumber now with
    ⟨_, h1⟩ | ⟨_, _, _, h1⟩ | ⟨_, _, _, _, h1⟩ | ⟨_, _, _, _, _, hok, _, _, _, _, hds⟩
  · rw [h1]; rfl
  · rw [h1]; rfl
  · rw [h1]; rfl
  · rw [hok, hds]; split <;> rfl

theorem runPicks_currentPick_eq :
    ∀ (calls : List PickCall) (s : DraftService),
      (runPicks s calls).draftState.currentPick
        = s.draftState.currentPick + successfulPicks s calls
  | [], _ => rfl
  | c :: cs, s => by
    simp only [runPicks, successfulPicks]
    rw [runPicks_currentPick_eq cs, makePick_currentPick_eq]
    omega

/-- C8: from a fresh or reset `DraftService` with `n` teams, `n` in 8..16, in
every state reached by `makePick` calls `isComplete` is true exactly when
`currentPick > n * 15`. `currentPick` is one more than the number of successful
picks, so `isComplete` is false while fewer than `n * 15` picks have succeeded
and true from the pick that brings `currentPick` to `n * 15 + 1`; and `makePick`
never sets it back to false. -/
theorem isComplete_iff_currentPick (s0 : DraftService) (n : Nat) (hinit : IsInitial s0)
    (hn : s0.leagueSettings.numberOfTeams = n) (h8 : 8 ≤ n) (h16 : n ≤ 16)
    (calls : List PickCall) :
    ((runPicks s0 calls).draftState.isComplete = true ↔
      (runPicks s0 calls).draftState.currentPick > n * 15) ∧
    (runPicks s0 calls).draftState.currentPick = successfulPicks s0 calls + 1 ∧
    ((runPicks s0 calls).draftState.isComplete = true ↔ n * 15 ≤ successfulPicks s0 calls) ∧
    (∀ c : PickCall, (runPicks s0 calls).draftState.isComplete = true →
      (makePick (runPicks s0 calls) c.playerId c.teamId c.round c.pickNumber
        c.now).2.draftState.isComplete = true) := by
  have _ := h16
  obtain ⟨hinv0, hcp0⟩ := hinit.turnInv n hn (by omega)
  have hinv := runPicks_turnInv n calls s0 hinv0
  have hcp := runPicks_currentPick_eq calls s0
  rw [hcp0] at hcp
  refine ⟨hinv.complete_iff, by omega, ?_, ?_⟩
  · rw [hinv.complete_iff]; omega
  · intro c hcomp
    have hinv2 := makePick_turnInv _ n hinv c.playerId c.teamId c.round c.pickNumber c.now
    rw [hinv2.complete_iff]
    have h1 := hinv.complete_iff.mp hcomp
    have h2 := runPicks_currentPick_le
      [c] (runPicks s0 calls)
    simp only [runPicks] at h2
    omega

theorem isComplete_iff_currentPick_witness :
    (runPicks DraftService.new
        [{ playerId := "1", teamId := 1, round := 1, pickNumber := 1, now := 0 }]
      ).draftState.isComplete = true ↔
    (runPicks DraftService.new
        [{ playerId := "1", teamId := 1, round := 1, pickNumber := 1, now := 0 }]
      ).draftState.currentPick > 12 * 15 :=
  (isComplete_iff_currentPick DraftService.new 12 (Or.inl ⟨_, _, rfl⟩) (by decide) (by decide)
    (by decide) [{ playerId := "1", teamId := 1, round := 1, pickNumber := 1, now := 0 }]).1

/-- C10: `resetDraft`, from any state: every catalog player is available again
(the available players are as many as the catalog, which keeps its size),
`isComplete` is false, `currentPick` and `currentRound` are 1, `totalPicks` is
`numberOfTeams * 15`, no draft pick is recorded, and there are `numberOfTeams`
teams, numbered `1..numberOfTeams`, each with an empty roster and an empty pick
list. -/
theorem resetDraft_spec (s : DraftService) :
    (getAvailablePlayers (resetDraft s).players).length = s.players.length ∧
    (resetDraft s).players.length = s.players.length ∧
    (∀ p ∈ (resetDraft s).players, p.isDrafted = false) ∧
    (resetDraft s).players.map (fun p => p.id) = s.players.map (fun p => p.id) ∧
    (resetDraft s).draftState.isComplete = false ∧
    (resetDraft s).draftState.currentPick = 1 ∧
    (resetDraft s).draftState.currentRound = 1 ∧
    (resetDraft s).draftState.totalPicks = s.leagueSettings.numberOfTeams * 15 ∧
    (resetDraft s).draftPicks = [] ∧
    (resetDraft s).teams.length = s.leagueSettings.numberOfTeams ∧
    (resetDraft s).teams.map (fun t => t.id) = List.range' 1 s.leagueSettings.numberOfTeams ∧
    (∀ t ∈ (resetDraft s).teams, t.roster = [] ∧ t.picks = []) := by
  rw [resetDraft_eq]
  have hall : ∀ p ∈ s.players.map (fun player : Player => { player with isDrafted := false }),
      p.isDrafted = false := by
    intro p hp
    obtain ⟨q, _, rfl⟩ := List.mem_map.mp hp
    rfl
  refine ⟨?_, by simp, hall, ?_, rfl, rfl, rfl, rfl, rfl, by simp, ?_, ?_⟩
  · unfold getAvailablePlayers
    rw [List.filter_eq_self.mpr (fun p hp => by simp [hall p hp])]
    simp
  · simp [Function.comp]
  · simp only [List.map_map]
    exact (List.map_congr_left (fun _ _ => rfl)).trans (List.map_id _)
  · intro t ht
    obtain ⟨i, _, rfl⟩ := List.mem_map.mp ht
    exact ⟨rfl, rfl⟩

/-! ## An eight-team draft run to its end -/

set_option maxRecDepth 100000 in
theorem eightTeamDraft_120 :
    (runPicks eightTeamDraft (samplePicks 8 120)).draftState
      = { currentRound := 15, currentPick := 121, totalPicks := 120, isComplete := true } := by
  decide

theorem eightTeamDraft_complete :
    (runPicks eightTeamDraft (samplePicks 8 120)).draftState.isComplete = true := by
  rw [eightTeamDraft_120]

theorem runPicks_append :
    ∀ (xs ys : List PickCall) (s : DraftService),
      runPicks s (xs ++ ys) = runPicks (runPicks s xs) ys
  | [], _, _ => rfl
  | x :: xs, ys, s => by
    simp only [List.cons_append, runPicks]
    exact runPicks_append xs ys _

theorem runPicks_leagueSettings :
    ∀ (calls : List PickCall) (s : DraftService),
      (runPicks s calls).leagueSettings = s.leagueSettings ∧
      (runPicks s calls).teams.length = s.teams.length
  | [], _ => ⟨rfl, rfl⟩
  | c :: cs, s => by
    have h := runPicks_leagueSettings cs
      (makePick s c.playerId c.teamId c.round c.pickNumber c.now).2
    simp only [runPicks]
    rcases makePick_cases s c.playerId c.teamId c.round c.pickNumber c.now with
      ⟨_, h1⟩ | ⟨_, _, _, h1⟩ | ⟨_, _, _, _, h1⟩ | ⟨_, _, _, _, _, _, _, hls, hteams, _⟩
    · rw [h1] at h ⊢; exact h
    · rw [h1] at h ⊢; exact h
    · rw [h1] at h ⊢; exact h
    · rw [hls, hteams, updateFirst_length] at h; exact h

theorem IsInitial.teams_length {s0 : DraftService} (h : IsInitial s0) :
    s0.teams.length = s0.leagueSettings.numberOfTeams := by
  rcases h with ⟨players, settings, rfl⟩ | ⟨s, rfl⟩
  · rw [create_eq]; simp
  · rw [resetDraft_eq]; simp

/-! ## Claims about what `makePick` checks -/

/-- C5 as stated fails here: the eight-team draft is complete after its 120
picks, and the next `makePick`, for the one player left and team 1, is accepted
and recorded as pick 121. -/
theorem makePick_complete_counterexample :
    (runPicks eightTeamDraft (samplePicks 8 120)).draftState.isComplete = true ∧
    (makePick (runPicks eightTeamDraft (samplePicks 8 120)) "120" 1 16 121 120).1.toBool = true ∧
    (makePick (runPicks eightTeamDraft (samplePicks 8 120)) "120" 1 16 121
      120).2.draftState.currentPick = 122 := by
  have hok : (makePick (runPicks eightTeamDraft (samplePicks 8 120)) "120" 1 16 121
      120).1.toBool = true := by
    set_option maxRecDepth 100000 in decide
  refine ⟨eightTeamDraft_complete, hok, ?_⟩
  rw [makePick_currentPick_eq, hok, eightTeamDraft_120]
  rfl

/-- C5, amended: `makePick` does not test `isComplete`. With `isComplete` true
it is accepted exactly when the player id names an undrafted catalog player and
the team id names a team; a rejected call changes no state; and `isComplete` is
still true after the call, accepted or not. -/
theorem makePick_complete_unchecked (s : DraftService)
    (hc : s.draftState.isComplete = true) (playerId : String)
    (teamId round pickNumber now : Nat) :
    ((makePick s playerId teamId round pickNumber now).1.toBool = true ↔
      Pickable s playerId teamId) ∧
    ((makePick s playerId teamId round pickNumber now).1.toBool = false →
      (makePick s playerId teamId round pickNumber now).2 = s) ∧
    (makePick s playerId teamId round pickNumber now).2.draftState.isComplete = true := by
  refine ⟨makePick_accepted_iff s playerId teamId round pickNumber now,
    makePick_rejected_state s playerId teamId round pickNumber now, ?_⟩
  rcases makePick_cases s playerId teamId round pickNumber now with
    ⟨_, h1⟩ | ⟨_, _, _, h1⟩ | ⟨_, _, _, _, h1⟩ | ⟨_, _, _, _, _, _, _, _, _, _, hds⟩
  · rw [h1]; exact hc
  · rw [h1]; exact hc
  · rw [h1]; exact hc
  · rw [hds]; split
    · rfl
    · exact hc

theorem makePick_complete_unchecked_witness :
    (makePick (runPicks eightTeamDraft (samplePicks 8 120)) "0" 1 16 121
      120).2.draftState.isComplete = true :=
  (makePick_complete_unchecked (runPicks eightTeamDraft (samplePicks 8 120))
    eightTeamDraft_complete "0" 1 16 121 120).2.2

/-- C6 as stated fails here: on a fresh service the turn is round 1, pick 1,
yet `makePick` called with round 7 and pick number 99 is accepted, and the pick
is recorded under round 7, pick number 99. -/
theorem makePick_turn_counterexample :
    DraftService.new.draftState.currentRound = 1 ∧
    DraftService.new.draftState.currentPick = 1 ∧
    (makePick DraftService.new "1" 1 7 99 0).1.toBool = true ∧
    (makePick DraftService.new "1" 1 7 99 0).2.draftPicks.map
      (fun p => (p.round, p.pickNumber, p.player.id)) = [(7, 99, "1")] ∧
    (makePick DraftService.new "1" 1 7 99 0).2.draftState.currentPick = 2 := by
  decide

/-- C6, amended: `makePick` never compares the caller's `round` and
`pickNumber` with the draft state. Whether a call is accepted does not depend
on them (it is accepted exactly when the player is an undrafted catalog player
and the team exists), the draft state after the call does not depend on them,
and an accepted pick is recorded with the round and pick number the caller
supplied. -/
theorem makePick_ignores_turn (s : DraftService) (playerId : String)
    (teamId round pickNumber round2 pickNumber2 now : Nat) :
    (makePick s playerId teamId round pickNumber now).1.toBool
      = (makePick s playerId teamId round2 pickNumber2 now).1.toBool ∧
    ((makePick s playerId teamId round pickNumber now).1.toBool = true ↔
      Pickable s playerId teamId) ∧
    (makePick s playerId teamId round pickNumber now).2.draftState
      = (makePick s playerId teamId round2 pickNumber2 now).2.draftState ∧
    ((makePick s playerId teamId round pickNumber now).1.toBool = true →
      ∃ p, getPlayerById s.players playerId = some p ∧
        (makePick s playerId teamId round pickNumber now).2.draftPicks
          = s.draftPicks ++ [{ round := round, pickNumber := pickNumber, teamId := teamId,
                               player := drafted p, timestamp := now }]) := by
  have hiff := makePick_accepted_iff s playerId teamId round pickNumber now
  have hiff2 := makePick_accepted_iff s playerId teamId round2 pickNumber2 now
  refine ⟨?_, hiff, ?_, ?_⟩
  · cases h1 : (makePick s playerId teamId round pickNumber now).1.toBool <;>
      cases h2 : (makePick s playerId teamId round2 pickNumber2 now).1.toBool
    · rfl
    · rw [hiff2.mp h2 |> hiff.mpr] at h1; cases h1
    · rw [hiff.mp h1 |> hiff2.mpr] at h2; cases h2
    · rfl
  · rcases makePick_cases s playerId teamId round pickNumber now with
      ⟨_, h1⟩ | ⟨_, _, _, h1⟩ | ⟨_, _, _, _, h1⟩ | ⟨_, _, _, _, _, hok, _, _, _, _, hds⟩
    · rw [h1]
      have hb : (makePick s playerId teamId round2 pickNumber2 now).1.toBool = false := by
        cases h2 : (makePick s playerId teamId round2 pickNumber2 now).1.toBool
        · rfl
        · have := hiff.mpr (hiff2.mp h2); rw [h1] at this; cases this
      rw [makePick_rejected_state _ _ _ _ _ _ hb]
    · rw [h1]
      have hb : (makePick s playerId teamId round2 pickNumber2 now).1.toBool = false := by
        cases h2 : (makePick s playerId teamId round2 pickNumber2 now).1.toBool
        · rfl
        · have := hiff.mpr (hiff2.mp h2); rw [h1] at this; cases this
      rw [makePick_rejected_state _ _ _ _ _ _ hb]
    · rw [h1]
      have hb : (makePick s playerId teamId round2 pickNumber2 now).1.toBool = false := by
        cases h2 : (makePick s playerId teamId round2 pickNumber2 now).1.toBool
        · rfl
        · have := hiff.mpr (hiff2.mp h2); rw [h1] at this; cases this
      rw [makePick_rejected_state _ _ _ _ _ _ hb]
    · rcases makePick_cases s playerId teamId round2 pickNumber2 now with
        ⟨_, h1⟩ | ⟨_, _, _, h1⟩ | ⟨_, _, _, _, h1⟩ | ⟨_, _, _, _, _, _, _, _, _, _, hds2⟩
      · have := hiff2.mpr (hiff.mp hok); rw [h1] at this; cases this
      · have := hiff2.mpr (hiff.mp hok); rw [h1] at this; cases this
      · have := hiff2.mpr (hiff.mp hok); rw [h1] at this; cases this
      · rw [hds, hds2]
  · intro h
    rcases makePick_cases s playerId teamId round pickNumber now with
      ⟨_, h1⟩ | ⟨_, _, _, h1⟩ | ⟨_, _, _, _, h1⟩ | ⟨p, _, hp, _, _, _, _, _, _, hdp, _⟩
    · rw [h1] at h; cases h
    · rw [h1] at h; cases h
    · rw [h1] at h; cases h
    · exact ⟨p, hp, hdp⟩

/-- C9 as stated fails here: in the eight-team draft after 119 picks (round 15,
pick 120 of 120) the last pick is accepted and completes the draft;
`currentPick` becomes 121 and `currentRound` stays 15, while
`floor((121 - 1) / 8) + 1` is 16. -/
theorem makePick_completing_round_counterexample :
    (makePick (runPicks eightTeamDraft (samplePicks 8 119)) "119" 8 15 120 119).1.toBool = true ∧
    (makePick (runPicks eightTeamDraft (samplePicks 8 119)) "119" 8 15 120 119).2.draftState
      = { currentRound := 15, currentPick := 121, totalPicks := 120, isComplete := true } ∧
    (makePick (runPicks eightTeamDraft (samplePicks 8 119)) "119" 8 15 120
      119).2.leagueSettings.numberOfTeams = 8 ∧
    (121 - 1) / 8 + 1 = 16 := by
  have hok : (makePick (runPicks eightTeamDraft (samplePicks 8 119)) "119" 8 15 120
      119).1.toBool = true := by
    set_option maxRecDepth 100000 in decide
  have hrun : (makePick (runPicks eightTeamDraft (samplePicks 8 119)) "119" 8 15 120 119).2
      = runPicks eightTeamDraft (samplePicks 8 120) := by
    have hsplit : samplePicks 8 120 = samplePicks 8 119 ++ [⟨"119", 8, 15, 120, 119⟩] := by
      unfold samplePicks
      rw [List.range_succ, List.map_append]
      rfl
    rw [hsplit, runPicks_append]
    rfl
  refine ⟨hok, ?_, ?_, rfl⟩
  · rw [hrun, eightTeamDraft_120]
  · rw [hrun, (runPicks_leagueSettings _ _).1]
    rfl

/-- C9, amended: in a draft started by the constructor or by `resetDraft`,
after every successful `makePick` that does not complete the draft (the new
`currentPick` is at most `totalPicks`) `currentRound` equals
`floor((currentPick - 1) / numberOfTeams) + 1` computed from the new
`currentPick`; the pick that completes the draft sets `isComplete` and leaves
`currentRound` as it was. -/
theorem makePick_currentRound (s0 : DraftService) (hinit : IsInitial s0)
    (calls : List PickCall) (s : DraftService) (hs : s = runPicks s0 calls)
    (playerId : String) (teamId round pickNumber now : Nat)
    (hok : (makePick s playerId teamId round pickNumber now).1.toBool = true)
    (s2 : DraftService) (hs2 : s2 = (makePick s playerId teamId round pickNumber now).2) :
    (s2.draftState.currentPick ≤ s2.draftState.totalPicks →
      s2.draftState.currentRound
        = (s2.draftState.currentPick - 1) / s2.leagueSettings.numberOfTeams + 1) ∧
    (s2.draftState.currentPick > s2.draftState.totalPicks →
      s2.draftState.currentRound = s.draftState.currentRound ∧
      s2.draftState.isComplete = true) := by
  have hlen : s.teams.length = s.leagueSettings.numberOfTeams := by
    rw [hs, (runPicks_leagueSettings calls s0).1, (runPicks_leagueSettings calls s0).2]
    exact hinit.teams_length
  rcases makePick_cases s playerId teamId round pickNumber now with
    ⟨_, h1⟩ | ⟨_, _, _, h1⟩ | ⟨_, _, _, _, h1⟩ | ⟨_, _, _, _, _, _, _, hls, _, _, hds⟩
  · rw [h1] at hok; cases hok
  · rw [h1] at hok; cases hok
  · rw [h1] at hok; cases hok
  · rw [hs2, hls, hds, hlen]
    by_cases hc : s.draftState.currentPick + 1 > s.draftState.totalPicks
    · rw [if_pos hc]
      exact ⟨fun hle => absurd hc (Nat.not_lt.mpr hle), fun _ => ⟨rfl, rfl⟩⟩
    · rw [if_neg hc]
      exact ⟨fun _ => rfl, fun hgt => absurd hgt hc⟩

theorem makePick_currentRound_witness :
    (makePick DraftService.new "1" 1 1 1 0).2.draftState.currentRound
      = ((makePick DraftService.new "1" 1 1 1 0).2.draftState.currentPick - 1)
          / (makePick DraftService.new "1" 1 1 1 0).2.leagueSettings.numberOfTeams + 1 :=
  (makePick_currentRound DraftService.new (Or.inl ⟨_, _, rfl⟩) [] DraftService.new rfl
    "1" 1 1 1 0 (by decide) _ rfl).1 (by decide)

/-! ## Objects used as maps -/

theorem objGet_objSet {α : Type} (k : String) (v : α) (k2 : String) :
    ∀ o : List (String × α),
      objGet (objSet o k v) k2 = if k = k2 then some v else objGet o k2
  | [] => by
    by_cases h : k = k2 <;> simp [objSet, objGet, h]
  | (k1, v1) :: o => by
    by_cases h1 : k1 = k
    · subst h1
      by_cases h : k1 = k2 <;> simp [objSet, objGet, h]
    · by_cases h : k = k2
      · subst h
        simp [objSet, objGet, h1, objGet_objSet k v k o]
      · simp [objSet, objGet, h1, h, objGet_objSet k v k2 o]

theorem objSet_keys {α : Type} (k : String) (v : α) :
    ∀ o : List (String × α),
      (objSet o k v).map Prod.fst =
        if k ∈ o.map Prod.fst then o.map Prod.fst else o.map Prod.fst ++ [k]
  | [] => by simp [objSet]
  | (k1, v1) :: o => by
    by_cases h1 : k1 = k
    · subst h1
      simp [objSet]
    · have h2 : ¬ k = k1 := fun h => h1 h.symm
      by_cases hm : k ∈ o.map Prod.fst
      · simp [objSet, h1, h2, objSet_keys k v o, hm]
      · simp [objSet, h1, h2, objSet_keys k v o, hm]

theorem objGet_eq_none {α : Type} (k : String) :
    ∀ o : List (String × α), k ∉ o.map Prod.fst → objGet o k = none
  | [], _ => rfl
  | (k1, v1) :: o, h => by
    have h1 : ¬ k1 = k := fun e => h (by simp [e])
    have h2 : k ∉ o.map Prod.fst := fun e => h (by simp at e ⊢; exact Or.inr e)
    simp [objGet, h1, objGet_eq_none k o h2]

/-- Reads after the loop `l.forEach(x => o[key x] = val x)`, for a key the loop
does not write. -/
theorem objGet_foldl_of_not_mem {α β : Type} (key : β → String) (val : β → α) (k : String) :
    ∀ (l : List β) (o0 : List (String × α)), k ∉ l.map key →
      objGet (l.foldl (fun o x => objSet o (key x) (val x)) o0) k = objGet o0 k
  | [], _, _ => rfl
  | y :: ys, o0, h => by
    have hy : ¬ key y = k := fun e => h (by simp [e])
    have hys : k ∉ ys.map key := fun e => h (by simp at e ⊢; exact Or.inr e)
    rw [List.foldl_cons, objGet_foldl_of_not_mem key val k ys _ hys, objGet_objSet, if_neg hy]

/-- Reads after the loop `l.forEach(x => o[key x] = val x)` over distinct keys. -/
theorem objGet_foldl_of_mem {α β : Type} (key : β → String) (val : β → α) :
    ∀ (l : List β) (o0 : List (String × α)) (x : β), (l.map key).Nodup → x ∈ l →
      objGet (l.foldl (fun o x => objSet o (key x) (val x)) o0) (key x) = some (val x)
  | [], _, _, _, h => by cases h
  | y :: ys, o0, x, hnd, h => by
    rw [List.map_cons, List.nodup_cons] at hnd
    rw [List.foldl_cons]
    rcases List.mem_cons.mp h with rfl | hx
    · rw [objGet_foldl_of_not_mem key val (key x) ys _ hnd.1, objGet_objSet, if_pos rfl]
    · exact objGet_foldl_of_mem key val ys _ x hnd.2 hx

theorem foldl_objSet_keys {α β : Type} (key : β → String) (val : β → α) :
    ∀ (l : List β) (o0 : List (String × α)), (o0.map Prod.fst ++ l.map key).Nodup →
      (l.foldl (fun o x => objSet o (key x) (val x)) o0).map Prod.fst
        = o0.map Prod.fst ++ l.map key
  | [], o0, _ => by simp
  | y :: ys, o0, h => by
    have hy : key y ∉ o0.map Prod.fst := by
      intro hmem
      have := (List.nodup_append.mp h).2.2
      exact this hmem (by simp)
    have hkeys : (objSet o0 (key y) (val y)).map Prod.fst = o0.map Prod.fst ++ [key y] := by
      rw [objSet_keys, if_neg hy]
    rw [List.foldl_cons, foldl_objSet_keys key val ys _ (by rw [hkeys]; simpa using h), hkeys]
    simp

/-- Reads after the loop `keys.forEach(k => o[k] = g k o[k])` over distinct keys. -/
theorem objGet_foldl_update (g : String → ℚ → ℚ) (k : String) :
    ∀ (l : List String) (o0 : List (String × ℚ)), l.Nodup →
      objGet (l.foldl (fun o p => objSet o p (g p ((objGet o p).getD 0))) o0) k
        = if k ∈ l then some (g k ((objGet o0 k).getD 0)) else objGet o0 k
  | [], _, _ => by simp
  | y :: ys, o0, hnd => by
    rw [List.nodup_cons] at hnd
    rw [List.foldl_cons, objGet_foldl_update g k ys _ hnd.2, objGet_objSet]
    by_cases hk : k ∈ ys
    · have hne : ¬ y = k := fun e => hnd.1 (e ▸ hk)
      simp [hk, hne]
    · by_cases hy : y = k
      · subst hy; simp [hk]
      · have hy2 : ¬ k = y := fun e => hy e.symm
        simp [hk, hy, hy2]

theorem objGet_countByPosition (list : List Player) (keep : Player → Bool) (pos : String) :
    objGet (countByPosition list keep) pos =
      if pos ∈ positions then
        some (list.filter (fun p => p.position == pos && keep p)).length
      else none := by
  unfold countByPosition
  by_cases h : pos ∈ positions
  · rw [if_pos h]
    exact objGet_foldl_of_mem (fun x => x)
      (fun x => (list.filter (fun p => p.position == x && keep p)).length)
      positions [] pos (by decide) h
  · rw [if_neg h]
    rw [objGet_foldl_of_not_mem (fun x => x)
      (fun x => (list.filter (fun p => p.position == x && keep p)).length) pos positions []
      (by simpa using h)]
    rfl

/-! ## Team needs -/

/-- The object `needs` after the first loop of `calculateTeamNeeds`. -/
theorem needs_first_loop (counts : List (String × Nat)) (rosterSpots : List (String × Int))
    (hkeys : (rosterSpots.map Prod.fst).Nodup) :
    (rosterSpots.foldl
        (fun (needs : List (String × ℚ)) entry =>
          objSet needs entry.1
            ((max 0 (entry.2 - (((objGet counts entry.1).getD 0 : Nat) : Int)) : Int) : ℚ))
        []).map Prod.fst = rosterSpots.map Prod.fst ∧
    ∀ e ∈ rosterSpots,
      objGet
        (rosterSpots.foldl
          (fun (needs : List (String × ℚ)) entry =>
            objSet needs entry.1
              ((max 0 (entry.2 - (((objGet counts entry.1).getD 0 : Nat) : Int)) : Int) : ℚ))
          []) e.1
        = some ((max 0 (e.2 - (((objGet counts e.1).getD 0 : Nat) : Int)) : Int) : ℚ) := by
  constructor
  · have h := foldl_objSet_keys (fun e : String × Int => e.1)
      (fun e : String × Int =>
        ((max 0 (e.2 - (((objGet counts e.1).getD 0 : Nat) : Int)) : Int) : ℚ))
      rosterSpots [] (by simpa using hkeys)
    simpa using h
  · intro e he
    exact objGet_foldl_of_mem (fun e : String × Int => e.1)
      (fun e : String × Int =>
        ((max 0 (e.2 - (((objGet counts e.1).getD 0 : Nat) : Int)) : Int) : ℚ))
      rosterSpots [] e hkeys he

/-- C11: for settings whose `rosterSpots` is an object (distinct keys) with keys
among the six positions and non-negative counts, `calculateTeamNeeds` returns,
for each position `p` of `rosterSpots`,
`need[p] = max(0, required[p] - count of p on the roster) * (1 + 1/max(1, A[p]))`
with `A[p]` the number of undrafted catalog players at `p`; with 2 required,
none rostered and one available the need is 4. The arithmetic is exact. -/
theorem calculateTeamNeeds_spec (s : DraftService) (team : Team) (settings : LeagueSettings)
    (hkeys : (settings.rosterSpots.map Prod.fst).Nodup)
    (hpos : ∀ e ∈ settings.rosterSpots, e.1 ∈ positions)
    (_hnonneg : ∀ e ∈ settings.rosterSpots, 0 ≤ e.2)
    (p : String) (required : Int) (hp : (p, required) ∈ settings.rosterSpots)
    (count available : Nat)
    (hcount : count = (team.roster.filter (fun q => q.position == p)).length)
    (havailable :
      available = (s.players.filter (fun q => q.position == p && !q.isDrafted)).length) :
    objGet (calculateTeamNeeds s team settings) p =
      some (((max 0 (required - (count : Int)) : Int) : ℚ)
        * (1 + 1 / max 1 (available : ℚ))) ∧
    (required = 2 → count = 0 → available = 1 →
      objGet (calculateTeamNeeds s team settings) p = some 4) := by
  have hmain : objGet (calculateTeamNeeds s team settings) p =
      some (((max 0 (required - (count : Int)) : Int) : ℚ)
        * (1 + 1 / max 1 (available : ℚ))) := by
    subst hcount havailable
    have hppos : p ∈ positions := hpos _ hp
    obtain ⟨hk, hget⟩ := needs_first_loop (countByPosition team.roster (fun _ => true))
      settings.rosterSpots hkeys
    have hget := hget _ hp
    simp only at hget
    unfold calculateTeamNeeds
    simp only
    rw [hk, objGet_foldl_update
      (fun position need => need * (1 + 1 / max 1
        (((objGet (countByPosition s.players (fun p => !p.isDrafted)) position).getD 0 : Nat)
          : ℚ))) p _ _ hkeys]
    have hmem : p ∈ settings.rosterSpots.map Prod.fst := List.mem_map.mpr ⟨_, hp, rfl⟩
    rw [if_pos hmem, hget, objGet_countByPosition, objGet_countByPosition, if_pos hppos,
      if_pos hppos]
    simp
  refine ⟨hmain, ?_⟩
  intro h2 h0 h1
  rw [hmain, h2, h0, h1]
  norm_num

theorem calculateTeamNeeds_spec_witness :
    objGet (calculateTeamNeeds oneRunningBackLeft (newTeam 1) defaultLeagueSettings) "RB"
      = some 4 :=
  (calculateTeamNeeds_spec oneRunningBackLeft (newTeam 1) defaultLeagueSettings
    (by decide) (by decide) (by decide) "RB" 2 (by decide) 0 1 (by decide) (by decide)).2
    rfl rfl rfl

/-! ## Value scores -/

theorem getPositionScarcity_eq (s : DraftService) (position : String) :
    getPositionScarcity s position =
      if (s.players.filter (fun p => !p.isDrafted)).length = 0 then 1
      else min 2
        (((s.players.filter (fun p => !p.isDrafted)).length : ℚ) /
          max 1 (((if position ∈ positions then
            (s.players.filter (fun p => p.position == position && !p.isDrafted)).length
            else 0 : Nat) : ℚ))) := by
  unfold getPositionScarcity
  simp only [objGet_countByPosition, beq_iff_eq]
  by_cases h : position ∈ positions <;> simp [h]

/-- Reads after the loop `l.forEach(x => o[key x] = val x)`, for a key the loop
writes: the entry is the value of an element with that key. -/
theorem objGet_foldl_of_key {α β : Type} (key : β → String) (val : β → α) (k : String) :
    ∀ (l : List β) (o0 : List (String × α)), k ∈ l.map key →
      ∃ x ∈ l, key x = k ∧
        objGet (l.foldl (fun o x => objSet o (key x) (val x)) o0) k = some (val x)
  | [], _, h => by cases h
  | y :: ys, o0, h => by
    rw [List.foldl_cons]
    by_cases hk : k ∈ ys.map key
    · obtain ⟨x, hx, hkx, hget⟩ :=
        objGet_foldl_of_key key val k ys (objSet o0 (key y) (val y)) hk
      exact ⟨x, List.mem_cons_of_mem _ hx, hkx, hget⟩
    · have hy : key y = k := by
        rcases List.mem_cons.mp h with e | e
        · exact e.symm
        · exact absurd e hk
      refine ⟨y, List.mem_cons_self _ _, hy, ?_⟩
      rw [objGet_foldl_of_not_mem key val k ys _ hk, objGet_objSet, if_pos hy]

/-- C12: for a listed player whose position is one of QB, RB, WR, TE, K, DST and
any round, the value `getValueBasedRankings` computes is
`(projectedPoints + max(0, adp - currentRound) * 0.5 + tier * 10) * scarcity`
with `scarcity = getPositionScarcity(position)`, which is
`min(2, totalAvailable / max(1, positionAvailable))` for `totalAvailable` the
number of undrafted catalog players and `positionAvailable` the number of
undrafted catalog players at that position, and 1 when `totalAvailable = 0`.
The returned map holds under the id of the player the value of a listed player
with that id, which is the value of the player when no other listed player has
its id. The arithmetic is exact. -/
theorem getValueBasedRankings_spec (s : DraftService) (availablePlayers : List Player)
    (currentRound : Int) (p : Player) (hp : p ∈ availablePlayers)
    (hpos : p.position ∈ positions)
    (totalAvailable positionAvailable : Nat)
    (htotal : totalAvailable = (s.players.filter (fun q => !q.isDrafted)).length)
    (hposition : positionAvailable =
      (s.players.filter (fun q => q.position == p.position && !q.isDrafted)).length) :
    valueScore s p currentRound
      = (p.projectedPoints + max 0 (p.adp - (currentRound : ℚ)) * (1 / 2)
          + (p.tier : ℚ) * 10) * getPositionScarcity s p.position ∧
    (totalAvailable ≠ 0 →
      getPositionScarcity s p.position
        = min 2 ((totalAvailable : ℚ) / max 1 (positionAvailable : ℚ))) ∧
    (totalAvailable = 0 → getPositionScarcity s p.position = 1) ∧
    (∃ q ∈ availablePlayers, q.id = p.id ∧
      objGet (getValueBasedRankings s availablePlayers currentRound) p.id
        = some (valueScore s q currentRound)) ∧
    ((∀ q ∈ availablePlayers, q.id = p.id → q = p) →
      objGet (getValueBasedRankings s availablePlayers currentRound) p.id
        = some ((p.projectedPoints + max 0 (p.adp - (currentRound : ℚ)) * (1 / 2)
            + (p.tier : ℚ) * 10) * getPositionScarcity s p.position)) := by
  subst htotal hposition
  have hkey := objGet_foldl_of_key (fun q : Player => q.id)
    (fun q : Player => valueScore s q currentRound) p.id availablePlayers []
    (List.mem_map.mpr ⟨p, hp, rfl⟩)
  refine ⟨rfl, ?_, ?_, hkey, ?_⟩
  · intro h0
    rw [getPositionScarcity_eq, if_neg h0, if_pos hpos]
  · intro h0
    rw [getPositionScarcity_eq, if_pos h0]
  · intro hid
    obtain ⟨q, hq, hqid, hget⟩ := hkey
    rw [hid q hq hqid] at hget
    exact hget

theorem getValueBasedRankings_spec_witness :
    getPositionScarcity DraftService.new "QB" = min 2 (((15 : Nat) : ℚ) / max 1 ((4 : Nat) : ℚ)) ∧
    objGet (getValueBasedRankings DraftService.new
        (getAvailablePlayers DraftService.new.players) 1) "1"
      = some (((4205 / 10 : ℚ) + max 0 (152 / 10 - ((1 : Int) : ℚ)) * (1 / 2)
          + ((1 : Int) : ℚ) * 10) * getPositionScarcity DraftService.new "QB") :=
  have h := getValueBasedRankings_spec DraftService.new
    (getAvailablePlayers DraftService.new.players) 1
    (mockPlayer "1" "Patrick Mahomes" "QB" "KC" 1 (4205 / 10) (152 / 10) 1 10)
    (by decide!) (by decide) 15 4 (by decide) (by decide)
  ⟨h.2.1 (by decide), h.2.2.2.2 (by decide!)⟩

/-! ## The combined score -/

/-- C13: `calculatePlayerScore` returns
`need[player.position] * needWeight + value[player.id] * valueWeight` with
`needWeight = max(0.3, 1 - currentRound * 0.05)` and
`valueWeight = 1 - needWeight`, a missing need or value counting as 0; at
`currentRound = 1` the weights are 0.95 and 0.05. The arithmetic is exact. -/
theorem calculatePlayerScore_spec (player : Player) (teamNeeds valueRankings : List (String × ℚ))
    (currentRound : Int) :
    (∃ needWeight valueWeight : ℚ,
      needWeight = max (3 / 10) (1 - (currentRound : ℚ) * (5 / 100)) ∧
      valueWeight = 1 - needWeight ∧
      calculatePlayerScore player teamNeeds valueRankings currentRound
        = (objGet teamNeeds player.position).getD 0 * needWeight
          + (objGet valueRankings player.id).getD 0 * valueWeight) ∧
    (objGet teamNeeds player.position = none → objGet valueRankings player.id = none →
      calculatePlayerScore player teamNeeds valueRankings currentRound = 0) ∧
    max (3 / 10 : ℚ) (1 - ((1 : Int) : ℚ) * (5 / 100)) = 95 / 100 ∧
    1 - max (3 / 10 : ℚ) (1 - ((1 : Int) : ℚ) * (5 / 100)) = 5 / 100 ∧
    calculatePlayerScore player teamNeeds valueRankings 1
      = (objGet teamNeeds player.position).getD 0 * (95 / 100)
        + (objGet valueRankings player.id).getD 0 * (5 / 100) := by
  have h1 : max (3 / 10 : ℚ) (1 - ((1 : Int) : ℚ) * (5 / 100)) = 95 / 100 := by norm_num
  refine ⟨⟨_, _, rfl, rfl, rfl⟩, ?_, h1, by rw [h1]; norm_num, ?_⟩
  · intro hn hv
    simp [calculatePlayerScore, hn, hv]
  · unfold calculatePlayerScore
    simp only
    rw [h1]
    norm_num

/-! ## Doubles -/

theorem toDouble_zero : toDouble 0 = 0 := by
  simp [toDouble]

theorem roundHalfEven_intCast (k : Int) : roundHalfEven (k : ℚ) = k := by
  have hf : Rat.floor (k : ℚ) = k := @Int.floor_intCast ℚ _ _ k
  unfold roundHalfEven
  simp only [hf, sub_self]
  norm_num

/-- A number whose quotient by the spacing of the doubles around it is an
integer is a double. -/
theorem toDouble_of_quotient (x : ℚ) (k : Int)
    (hk : x / 2 ^ (max (binaryExponent x) (-1022) - 52) = (k : ℚ)) : toDouble x = x := by
  unfold toDouble
  split
  · rename_i h0
    exact h0.symm
  · simp only
    rw [hk, roundHalfEven_intCast, ← hk]
    exact div_mul_cancel₀ _ (zpow_ne_zero _ (by norm_num))

theorem log2Floor_le : ∀ (fuel n : Nat), n ≠ 0 → 2 ^ log2Floor fuel n ≤ n
  | 0, n, h => by
    simp only [log2Floor, pow_zero]
    omega
  | fuel + 1, n, h => by
    unfold log2Floor
    split
    · have := log2Floor_le fuel (n / 2) (by omega)
      rw [pow_succ]
      omega
    · simp only [pow_zero]
      omega

/-- The binary exponent of an integer `z ≠ 0` is the logarithm of `|z|`. -/
theorem binaryExponent_intCast (z : Int) (hz : z ≠ 0) :
    binaryExponent (z : ℚ) = ((log2Floor z.natAbs z.natAbs : Nat) : Int) := by
  have h1 : log2Floor 1 1 = 0 := rfl
  have hle := log2Floor_le z.natAbs z.natAbs (by simpa using hz)
  unfold binaryExponent
  simp only [Rat.num_intCast, Rat.den_intCast, h1, Nat.cast_zero, sub_zero]
  rw [if_pos]
  rw [zpow_natCast]
  have habs : |(z : ℚ)| = ((z.natAbs : Nat) : ℚ) := by
    rw [Nat.cast_natAbs, Int.cast_abs]
  rw [habs]
  exact_mod_cast hle

/-- Every integer of magnitude at most `2 ^ 53` is a double. -/
theorem toDouble_intCast (z : Int) (hz : |z| ≤ 2 ^ 53) : toDouble (z : ℚ) = (z : ℚ) := by
  by_cases h0 : z = 0
  · subst h0
    simp [toDouble]
  have hle := log2Floor_le z.natAbs z.natAbs (by simpa using h0)
  have hnat : z.natAbs ≤ 2 ^ 53 := by
    have : ((z.natAbs : Nat) : Int) ≤ 2 ^ 53 := by rw [Int.natCast_natAbs]; exact hz
    exact_mod_cast this
  have he : log2Floor z.natAbs z.natAbs ≤ 53 := by
    by_contra hgt
    have h54 : 2 ^ 54 ≤ 2 ^ log2Floor z.natAbs z.natAbs :=
      Nat.pow_le_pow_right (by norm_num) (by omega)
    have : (2 : Nat) ^ 54 ≤ 2 ^ 53 := le_trans h54 (le_trans hle hnat)
    norm_num at this
  have hmax : max ((log2Floor z.natAbs z.natAbs : Nat) : Int) (-1022)
      = ((log2Floor z.natAbs z.natAbs : Nat) : Int) := max_eq_left (by omega)
  rcases Nat.lt_or_ge (log2Floor z.natAbs z.natAbs) 53 with hlt | hge
  · apply toDouble_of_quotient (z : ℚ) (z * 2 ^ (52 - log2Floor z.natAbs z.natAbs))
    rw [binaryExponent_intCast z h0, hmax]
    have hexp : ((log2Floor z.natAbs z.natAbs : Nat) : Int) - 52
        = -(((52 - log2Floor z.natAbs z.natAbs : Nat) : Nat) : Int) := by omega
    rw [hexp, zpow_neg, zpow_natCast, div_inv_eq_mul]
    push_cast
    rfl
  · have h53 : log2Floor z.natAbs z.natAbs = 53 := by omega
    rw [h53] at hle
    have habs : z.natAbs = 2 ^ 53 := le_antisymm hnat hle
    apply toDouble_of_quotient (z : ℚ) (z / 2)
    rw [binaryExponent_intCast z h0, hmax, h53]
    have h2 : (2 : Int) ∣ z := by
      rcases Int.natAbs_eq z with h | h <;> rw [h, habs] <;> norm_num
    obtain ⟨c, hc⟩ := h2
    subst hc
    norm_num

theorem roundHalfEven_bounds (m : ℚ) :
    m - 1 / 2 ≤ (roundHalfEven m : ℚ) ∧ (roundHalfEven m : ℚ) ≤ m + 1 / 2 := by
  have h1 : ((Rat.floor m : Int) : ℚ) ≤ m := @Int.floor_le ℚ _ _ m
  have h2 : m < ((Rat.floor m : Int) : ℚ) + 1 := @Int.lt_floor_add_one ℚ _ _ m
  unfold roundHalfEven
  simp only
  split_ifs with a b c <;> push_cast <;> constructor <;> linarith

/-- At a tie `roundHalfEven` returns an even integer. -/
theorem roundHalfEven_even (m : ℚ) (h : |(roundHalfEven m : ℚ) - m| = 1 / 2) :
    roundHalfEven m % 2 = 0 := by
  have h1 : ((Rat.floor m : Int) : ℚ) ≤ m := @Int.floor_le ℚ _ _ m
  have h2 : m < ((Rat.floor m : Int) : ℚ) + 1 := @Int.lt_floor_add_one ℚ _ _ m
  unfold roundHalfEven at h ⊢
  simp only at h ⊢
  split_ifs at h ⊢ with a b c
  · exfalso
    rw [abs_sub_comm, abs_of_nonneg (by linarith)] at h
    linarith
  · exfalso
    push_cast at h
    rw [abs_of_nonneg (by linarith)] at h
    linarith
  · exact c
  · omega

/-- The integer `roundHalfEven m` is the only integer that is nearest to `m` and
even at a tie. -/
theorem roundHalfEven_unique (m : ℚ) (k : Int) (hk : |(k : ℚ) - m| ≤ 1 / 2)
    (heven : |(k : ℚ) - m| = 1 / 2 → k % 2 = 0) : roundHalfEven m = k := by
  have hb := roundHalfEven_bounds m
  have he := roundHalfEven_even m
  rw [abs_le] at hk
  have h1 : ((roundHalfEven m - k : Int) : ℚ) ≤ 1 := by push_cast; linarith
  have h2 : (-1 : ℚ) ≤ ((roundHalfEven m - k : Int) : ℚ) := by push_cast; linarith
  have h3 : roundHalfEven m - k ≤ 1 := by exact_mod_cast h1
  have h4 : -1 ≤ roundHalfEven m - k := by exact_mod_cast h2
  rcases (by omega : roundHalfEven m = k ∨ roundHalfEven m = k + 1 ∨ roundHalfEven m = k - 1)
    with h | h | h
  · exact h
  · exfalso
    have hq : (roundHalfEven m : ℚ) = k + 1 := by exact_mod_cast h
    have hr : (roundHalfEven m : ℚ) - m = 1 / 2 := by linarith
    have hs : (k : ℚ) - m = -(1 / 2) := by linarith
    have e1 := he (by rw [hr]; norm_num)
    have e2 := heven (by rw [hs]; norm_num)
    omega
  · exfalso
    have hq : (roundHalfEven m : ℚ) = k - 1 := by exact_mod_cast h
    have hr : (roundHalfEven m : ℚ) - m = -(1 / 2) := by linarith
    have hs : (k : ℚ) - m = 1 / 2 := by linarith
    have e1 := he (by rw [hr]; norm_num)
    have e2 := heven (by rw [hs]; norm_num)
    omega

theorem roundHalfEven_neg (m : ℚ) : roundHalfEven (-m) = -roundHalfEven m := by
  have hb := roundHalfEven_bounds m
  apply roundHalfEven_unique
  · rw [abs_le]
    push_cast
    constructor <;> linarith
  · intro h
    have h2 : |(roundHalfEven m : ℚ) - m| = 1 / 2 := by
      rw [← h, ← abs_neg]
      congr 1
      push_cast
      ring
    have := roundHalfEven_even m h2
    omega

theorem roundHalfEven_mono {a b : ℚ} (h : a ≤ b) : roundHalfEven a ≤ roundHalfEven b := by
  by_contra hlt
  have hlt2 : roundHalfEven b + 1 ≤ roundHalfEven a := by omega
  have ha := roundHalfEven_bounds a
  have hb := roundHalfEven_bounds b
  have h1 : (roundHalfEven b : ℚ) + 1 ≤ roundHalfEven a := by exact_mod_cast hlt2
  have hab : a = b := by linarith
  subst hab
  omega

theorem lt_log2Floor : ∀ (fuel n : Nat), n ≤ fuel → n < 2 ^ (log2Floor fuel n + 1)
  | 0, n, h => by
    simp only [log2Floor]
    omega
  | fuel + 1, n, h => by
    unfold log2Floor
    split
    · have := lt_log2Floor fuel (n / 2) (by omega)
      rw [pow_succ]
      omega
    · simp only [zero_add, pow_one]
      omega

/-- The binary exponent `e` of `x ≠ 0` has `2 ^ e ≤ |x| < 2 ^ (e + 1)`. -/
theorem binaryExponent_spec (x : ℚ) (hx : x ≠ 0) :
    (2 : ℚ) ^ binaryExponent x ≤ |x| ∧ |x| < (2 : ℚ) ^ (binaryExponent x + 1) := by
  have ha0 : x.num.natAbs ≠ 0 := by
    simpa using Rat.num_ne_zero.mpr hx
  have hb0 : x.den ≠ 0 := x.den_nz
  have hla := log2Floor_le x.num.natAbs x.num.natAbs ha0
  have hua := lt_log2Floor x.num.natAbs x.num.natAbs le_rfl
  have hlb := log2Floor_le x.den x.den hb0
  have hub := lt_log2Floor x.den x.den le_rfl
  have habs : |x| = ((x.num.natAbs : Nat) : ℚ) / ((x.den : Nat) : ℚ) := by
    conv_lhs => rw [← Rat.num_div_den x]
    rw [abs_div, Nat.cast_natAbs, Int.cast_abs, Nat.abs_cast]
  have hbpos : (0 : ℚ) < ((x.den : Nat) : ℚ) := by exact_mod_cast Nat.pos_of_ne_zero hb0
  have hapos : (0 : ℚ) ≤ ((x.num.natAbs : Nat) : ℚ) := Nat.cast_nonneg _
  have qla : (2 : ℚ) ^ log2Floor x.num.natAbs x.num.natAbs ≤ ((x.num.natAbs : Nat) : ℚ) := by
    exact_mod_cast hla
  have qua : ((x.num.natAbs : Nat) : ℚ) < (2 : ℚ) ^ (log2Floor x.num.natAbs x.num.natAbs + 1) := by
    exact_mod_cast hua
  have qlb : (2 : ℚ) ^ log2Floor x.den x.den ≤ ((x.den : Nat) : ℚ) := by
    exact_mod_cast hlb
  have qub : ((x.den : Nat) : ℚ) < (2 : ℚ) ^ (log2Floor x.den x.den + 1) := by
    exact_mod_cast hub
  have h2 : (2 : ℚ) ≠ 0 := by norm_num
  have hp : ∀ n : Nat, (0 : ℚ) < 2 ^ n := fun n => pow_pos (by norm_num) n
  have upper : |x| < (2 : ℚ) ^ (((log2Floor x.num.natAbs x.num.natAbs : Nat) : Int)
      - ((log2Floor x.den x.den : Nat) : Int) + 1) := by
    have e : ((log2Floor x.num.natAbs x.num.natAbs : Nat) : Int)
        - ((log2Floor x.den x.den : Nat) : Int) + 1
        = ((log2Floor x.num.natAbs x.num.natAbs + 1 : Nat) : Int)
          - ((log2Floor x.den x.den : Nat) : Int) := by push_cast; ring
    rw [e, zpow_sub₀ h2, zpow_natCast, zpow_natCast, habs, div_lt_div_iff₀ hbpos (hp _)]
    calc ((x.num.natAbs : Nat) : ℚ) * 2 ^ log2Floor x.den x.den
        ≤ ((x.num.natAbs : Nat) : ℚ) * ((x.den : Nat) : ℚ) :=
          mul_le_mul_of_nonneg_left qlb hapos
      _ < 2 ^ (log2Floor x.num.natAbs x.num.natAbs + 1) * ((x.den : Nat) : ℚ) :=
          mul_lt_mul_of_pos_right qua hbpos
  have lower : (2 : ℚ) ^ (((log2Floor x.num.natAbs x.num.natAbs : Nat) : Int)
      - ((log2Floor x.den x.den : Nat) : Int) - 1) ≤ |x| := by
    have e : ((log2Floor x.num.natAbs x.num.natAbs : Nat) : Int)
        - ((log2Floor x.den x.den : Nat) : Int) - 1
        = ((log2Floor x.num.natAbs x.num.natAbs : Nat) : Int)
          - ((log2Floor x.den x.den + 1 : Nat) : Int) := by push_cast; ring
    rw [e, zpow_sub₀ h2, zpow_natCast, zpow_natCast, habs, div_le_div_iff₀ (hp _) hbpos]
    calc (2 : ℚ) ^ log2Floor x.num.natAbs x.num.natAbs * ((x.den : Nat) : ℚ)
        ≤ ((x.num.natAbs : Nat) : ℚ) * ((x.den : Nat) : ℚ) :=
          mul_le_mul_of_nonneg_right qla (le_of_lt hbpos)
      _ ≤ ((x.num.natAbs : Nat) : ℚ) * 2 ^ (log2Floor x.den x.den + 1) :=
          mul_le_mul_of_nonneg_left (le_of_lt qub) hapos
  unfold binaryExponent
  simp only
  split_ifs with hc
  · exact ⟨hc, upper⟩
  · refine ⟨lower, ?_⟩
    rw [sub_add_cancel]
    exact not_le.mp hc

/-- The binary exponent is the only integer `e` with `2 ^ e ≤ |x| < 2 ^ (e + 1)`. -/
theorem binaryExponent_unique (x : ℚ) (e : Int) (h1 : (2 : ℚ) ^ e ≤ |x|)
    (h2 : |x| < (2 : ℚ) ^ (e + 1)) : binaryExponent x = e := by
  have hx : x ≠ 0 := by
    intro h0
    rw [h0, abs_zero] at h1
    exact absurd h1 (not_le.mpr (zpow_pos (by norm_num) e))
  obtain ⟨s1, s2⟩ := binaryExponent_spec x hx
  have a1 : binaryExponent x < e + 1 :=
    (zpow_lt_zpow_iff_right₀ (by norm_num : (1 : ℚ) < 2)).mp (lt_of_le_of_lt s1 h2)
  have a2 : e < binaryExponent x + 1 :=
    (zpow_lt_zpow_iff_right₀ (by norm_num : (1 : ℚ) < 2)).mp (lt_of_le_of_lt h1 s2)
  omega

theorem binaryExponent_mono (x y : ℚ) (hx : x ≠ 0) (hxy : |x| ≤ |y|) :
    binaryExponent x ≤ binaryExponent y := by
  have hy : y ≠ 0 := by
    intro h0
    rw [h0, abs_zero] at hxy
    exact hx (abs_eq_zero.mp (le_antisymm hxy (abs_nonneg x)))
  obtain ⟨s1, _⟩ := binaryExponent_spec x hx
  obtain ⟨_, t2⟩ := binaryExponent_spec y hy
  have a1 : binaryExponent x < binaryExponent y + 1 :=
    (zpow_lt_zpow_iff_right₀ (by norm_num : (1 : ℚ) < 2)).mp
      (lt_of_le_of_lt s1 (lt_of_le_of_lt hxy t2))
  omega

theorem binaryExponent_neg (x : ℚ) : binaryExponent (-x) = binaryExponent x := by
  unfold binaryExponent
  simp only [Rat.neg_num, Rat.neg_den, Int.natAbs_neg, abs_neg]

theorem toDouble_neg (x : ℚ) : toDouble (-x) = -toDouble x := by
  unfold toDouble
  by_cases h0 : x = 0
  · simp [h0]
  · have h1 : ¬ -x = 0 := fun h => h0 (neg_eq_zero.mp h)
    simp only [if_neg h0, if_neg h1, binaryExponent_neg, neg_div, roundHalfEven_neg]
    push_cast
    ring

theorem toDouble_nonneg (x : ℚ) (hx : 0 ≤ x) : 0 ≤ toDouble x := by
  unfold toDouble
  split
  · exact le_refl _
  · simp only
    have hq : (0 : ℚ) < 2 ^ (max (binaryExponent x) (-1022) - 52) := zpow_pos (by norm_num) _
    have h0 : roundHalfEven ((0 : Int) : ℚ)
        ≤ roundHalfEven (x / 2 ^ (max (binaryExponent x) (-1022) - 52)) :=
      roundHalfEven_mono (by rw [Int.cast_zero]; exact div_nonneg hx hq.le)
    rw [roundHalfEven_intCast] at h0
    have h1 : (0 : ℚ) ≤ (roundHalfEven (x / 2 ^ (max (binaryExponent x) (-1022) - 52)) : ℚ) := by
      exact_mod_cast h0
    exact mul_nonneg h1 hq.le

/-- The double nearest to `x > 0` is at most the power of 2 that ends the
binade of `x`. -/
theorem toDouble_le_zpow (x : ℚ) (hx : 0 < x) :
    toDouble x ≤ 2 ^ (max (binaryExponent x) (-1022) + 1) := by
  have hq : (0 : ℚ) < 2 ^ (max (binaryExponent x) (-1022) - 52) := zpow_pos (by norm_num) _
  have h2 : (2 : ℚ) ≠ 0 := by norm_num
  obtain ⟨_, s2⟩ := binaryExponent_spec x hx.ne'
  rw [abs_of_pos hx] at s2
  have hlt : x ≤ 2 ^ (max (binaryExponent x) (-1022) + 1) :=
    le_trans s2.le (zpow_le_zpow_right₀ (by norm_num) (by omega))
  have hsplit : (2 : ℚ) ^ (max (binaryExponent x) (-1022) + 1)
      = (((2 : Int) ^ 53 : Int) : ℚ) * 2 ^ (max (binaryExponent x) (-1022) - 52) := by
    have h53 : (((2 : Int) ^ 53 : Int) : ℚ) = (2 : ℚ) ^ (53 : Int) := by norm_num
    rw [h53, ← zpow_add₀ h2]
    congr 1
    ring
  have hdiv : x / 2 ^ (max (binaryExponent x) (-1022) - 52) ≤ (((2 : Int) ^ 53 : Int) : ℚ) := by
    rw [div_le_iff₀ hq, ← hsplit]
    exact hlt
  have hr := roundHalfEven_mono hdiv
  rw [roundHalfEven_intCast] at hr
  have hr2 : (roundHalfEven (x / 2 ^ (max (binaryExponent x) (-1022) - 52)) : ℚ)
      ≤ (((2 : Int) ^ 53 : Int) : ℚ) := by exact_mod_cast hr
  unfold toDouble
  rw [if_neg hx.ne', hsplit]
  exact mul_le_mul_of_nonneg_right hr2 hq.le

/-- The double nearest to a normal `x > 0` is at least the power of 2 that
starts the binade of `x`. -/
theorem zpow_le_toDouble (x : ℚ) (hx : 0 < x) (hn : -1022 ≤ binaryExponent x) :
    (2 : ℚ) ^ binaryExponent x ≤ toDouble x := by
  have hmax : max (binaryExponent x) (-1022) = binaryExponent x := max_eq_left hn
  have hq : (0 : ℚ) < 2 ^ (binaryExponent x - 52) := zpow_pos (by norm_num) _
  have h2 : (2 : ℚ) ≠ 0 := by norm_num
  obtain ⟨s1, _⟩ := binaryExponent_spec x hx.ne'
  rw [abs_of_pos hx] at s1
  have hsplit : (2 : ℚ) ^ binaryExponent x
      = (((2 : Int) ^ 52 : Int) : ℚ) * 2 ^ (binaryExponent x - 52) := by
    have h52 : (((2 : Int) ^ 52 : Int) : ℚ) = (2 : ℚ) ^ (52 : Int) := by norm_num
    rw [h52, ← zpow_add₀ h2]
    congr 1
    ring
  have hdiv : (((2 : Int) ^ 52 : Int) : ℚ) ≤ x / 2 ^ (binaryExponent x - 52) := by
    rw [le_div_iff₀ hq, ← hsplit]
    exact s1
  have hr := roundHalfEven_mono hdiv
  rw [roundHalfEven_intCast] at hr
  have hr2 : (((2 : Int) ^ 52 : Int) : ℚ)
      ≤ (roundHalfEven (x / 2 ^ (binaryExponent x - 52)) : ℚ) := by exact_mod_cast hr
  unfold toDouble
  rw [if_neg hx.ne']
  simp only [hmax]
  rw [hsplit]
  exact mul_le_mul_of_nonneg_right hr2 hq.le

theorem toDouble_mono_of_pos (x y : ℚ) (hx : 0 < x) (hxy : x ≤ y) :
    toDouble x ≤ toDouble y := by
  have hy : 0 < y := lt_of_lt_of_le hx hxy
  have hexp : binaryExponent x ≤ binaryExponent y :=
    binaryExponent_mono x y hx.ne' (by rw [abs_of_pos hx, abs_of_pos hy]; exact hxy)
  rcases lt_or_eq_of_le (max_le_max hexp (le_refl (-1022 : Int))) with hlt | heq
  · have hn : -1022 ≤ binaryExponent y := by
      by_contra hc
      rw [max_eq_right (by omega : binaryExponent y ≤ -1022)] at hlt
      have := le_max_right (binaryExponent x) (-1022)
      omega
    rw [max_eq_left hn] at hlt
    calc toDouble x ≤ 2 ^ (max (binaryExponent x) (-1022) + 1) := toDouble_le_zpow x hx
      _ ≤ 2 ^ binaryExponent y := zpow_le_zpow_right₀ (by norm_num) (by omega)
      _ ≤ toDouble y := zpow_le_toDouble y hy hn
  · have hq : (0 : ℚ) < 2 ^ (max (binaryExponent y) (-1022) - 52) := zpow_pos (by norm_num) _
    have hr := roundHalfEven_mono (div_le_div_of_nonneg_right hxy hq.le)
    have hr2 : (roundHalfEven (x / 2 ^ (max (binaryExponent y) (-1022) - 52)) : ℚ)
        ≤ (roundHalfEven (y / 2 ^ (max (binaryExponent y) (-1022) - 52)) : ℚ) := by
      exact_mod_cast hr
    unfold toDouble
    rw [if_neg hx.ne', if_neg hy.ne']
    simp only [heq]
    exact mul_le_mul_of_nonneg_right hr2 hq.le

/-- Rounding to the nearest double keeps the order. -/
theorem toDouble_mono {x y : ℚ} (h : x ≤ y) : toDouble x ≤ toDouble y := by
  rcases lt_trichotomy 0 x with hx | hx | hx
  · exact toDouble_mono_of_pos x y hx h
  · subst hx
    rw [toDouble_zero]
    exact toDouble_nonneg y h
  · rcases le_or_lt 0 y with hy | hy
    · have h1 : 0 ≤ toDouble (-x) := toDouble_nonneg _ (by linarith)
      rw [toDouble_neg] at h1
      have h2 := toDouble_nonneg y hy
      linarith
    · have := toDouble_mono_of_pos (-y) (-x) (by linarith) (by linarith)
      rw [toDouble_neg, toDouble_neg] at this
      linarith

theorem toDouble_idem_of_pos (x : ℚ) (hx : 0 < x) : toDouble (toDouble x) = toDouble x := by
  have h2 : (2 : ℚ) ≠ 0 := by norm_num
  have hE : (-1022 : Int) ≤ max (binaryExponent x) (-1022) := le_max_right _ _
  have hy : toDouble x
      = (roundHalfEven (x / 2 ^ (max (binaryExponent x) (-1022) - 52)) : ℚ)
        * 2 ^ (max (binaryExponent x) (-1022) - 52) := by
    unfold toDouble
    rw [if_neg hx.ne']
  have hle := toDouble_le_zpow x hx
  have hnn := toDouble_nonneg x hx.le
  rcases eq_or_lt_of_le hnn with h0 | hpos
  · rw [← h0, toDouble_zero]
  rcases eq_or_lt_of_le hle with htop | hlt
  · have hb : binaryExponent (toDouble x) = max (binaryExponent x) (-1022) + 1 :=
      binaryExponent_unique _ _ (by rw [abs_of_pos hpos, htop])
        (by rw [abs_of_pos hpos, htop]; exact zpow_lt_zpow_right₀ (by norm_num) (by omega))
    apply toDouble_of_quotient _ ((2 : Int) ^ 52)
    rw [hb, max_eq_left (by omega), htop, ← zpow_sub₀ h2]
    have h52 : (((2 : Int) ^ 52 : Int) : ℚ) = (2 : ℚ) ^ (52 : Int) := by norm_num
    rw [h52]
    congr 1
    ring
  · have hb : binaryExponent (toDouble x) ≤ max (binaryExponent x) (-1022) := by
      obtain ⟨s1, _⟩ := binaryExponent_spec (toDouble x) hpos.ne'
      rw [abs_of_pos hpos] at s1
      have := (zpow_lt_zpow_iff_right₀ (by norm_num : (1 : ℚ) < 2)).mp (lt_of_le_of_lt s1 hlt)
      omega
    have hE2 : max (binaryExponent (toDouble x)) (-1022) ≤ max (binaryExponent x) (-1022) :=
      max_le hb hE
    apply toDouble_of_quotient _
      (roundHalfEven (x / 2 ^ (max (binaryExponent x) (-1022) - 52))
        * 2 ^ (max (binaryExponent x) (-1022)
          - max (binaryExponent (toDouble x)) (-1022)).toNat)
    have hpow : (((2 : Int) ^ (max (binaryExponent x) (-1022)
          - max (binaryExponent (toDouble x)) (-1022)).toNat : Int) : ℚ)
        = (2 : ℚ) ^ (max (binaryExponent x) (-1022)
          - max (binaryExponent (toDouble x)) (-1022)) := by
      push_cast
      rw [← zpow_natCast, Int.toNat_of_nonneg (by omega)]
    rw [Int.cast_mul, hpow]
    have hdiv : toDouble x / 2 ^ (max (binaryExponent (toDouble x)) (-1022) - 52)
        = (roundHalfEven (x / 2 ^ (max (binaryExponent x) (-1022) - 52)) : ℚ)
          * 2 ^ (max (binaryExponent x) (-1022) - 52)
          / 2 ^ (max (binaryExponent (toDouble x)) (-1022) - 52) := by
      rw [← hy]
    rw [hdiv, mul_div_assoc, ← zpow_sub₀ h2]
    congr 2
    ring

/-- Rounding a double again returns it. -/
theorem toDouble_idem (x : ℚ) : toDouble (toDouble x) = toDouble x := by
  rcases lt_trichotomy 0 x with hx | hx | hx
  · exact toDouble_idem_of_pos x hx
  · subst hx
    rw [toDouble_zero, toDouble_zero]
  · have h := toDouble_idem_of_pos (-x) (by linarith)
    rw [toDouble_neg, toDouble_neg] at h
    exact neg_injective h

/-! ## Suggestions -/

theorem rankPlayers_eq (s : DraftService) (team : Team) (currentRound : Int) :
    rankPlayers s team currentRound
      = ((getAvailablePlayers s.players).map (scored s team currentRound)).insertionSort
          scoreOrder := rfl

theorem rankPlayers_perm (s : DraftService) (team : Team) (currentRound : Int) :
    (rankPlayers s team currentRound).Perm
      ((getAvailablePlayers s.players).map (scored s team currentRound)) := by
  rw [rankPlayers_eq]
  exact List.perm_insertionSort _ _

theorem rankPlayers_sorted (s : DraftService) (team : Team) (currentRound : Int) :
    (rankPlayers s team currentRound).Pairwise (fun a b => b.score ≤ a.score) := by
  rw [rankPlayers_eq]
  exact List.sorted_insertionSort scoreOrder _

theorem rankPlayers_ne_nil (s : DraftService) (team : Team) (currentRound : Int)
    (hne : getAvailablePlayers s.players ≠ []) : rankPlayers s team currentRound ≠ [] := by
  intro h
  have hlen := (rankPlayers_perm s team currentRound).length_eq
  rw [h, List.length_map] at hlen
  exact hne (List.length_eq_zero.mp hlen.symm)

/-- With a team and a candidate, `getOptimalPick` returns the head of the
ranking, the three entries after it, and the need map. -/
theorem getOptimalPick_ok (s : DraftService) (teamId : Nat) (team : Team) (currentRound : Int)
    (hteam : s.teams.find? (fun t => t.id == teamId) = some team)
    (hne : getAvailablePlayers s.players ≠ []) :
    ∃ sug, getOptimalPick s teamId currentRound = .ok sug ∧
      sug.optimalPick = (rankPlayers s team currentRound).head? ∧
      sug.alternatives = ((rankPlayers s team currentRound).drop 1).take 3 ∧
      sug.teamNeeds = calculateTeamNeeds s team s.leagueSettings := by
  have hr := rankPlayers_ne_nil s team currentRound hne
  cases hrk : rankPlayers s team currentRound with
  | nil => exact absurd hrk hr
  | cons top tl =>
    simp only [getOptimalPick, hteam, hrk, List.head?_cons, Option.map_some', generateReasoning]
    exact ⟨_, rfl, rfl, rfl, rfl⟩

/-- Without a candidate, `getOptimalPick` for an existing team throws the
`TypeError` of `generateReasoning`. -/
theorem getOptimalPick_no_candidate (s : DraftService) (teamId : Nat) (currentRound : Int)
    (hteam : (s.teams.find? (fun t => t.id == teamId)).isSome = true)
    (hnone : getAvailablePlayers s.players = []) :
    getOptimalPick s teamId currentRound
      = .error "TypeError: Cannot read properties of undefined (reading 'position')" := by
  obtain ⟨team, hteam⟩ := Option.isSome_iff_exists.mp hteam
  have hrk : rankPlayers s team currentRound = [] := by
    rw [rankPlayers_eq, hnone]
    rfl
  simp only [getOptimalPick, hteam, hrk, List.head?_nil, Option.map_none', generateReasoning]

/-- C14 as stated fails here: the two available players have equal scores, the
one listed first in the catalog has rank 2 and the other rank 1, and
`getOptimalPick` returns the rank-2 player as `optimalPick` and the rank-1
player as the alternative. -/
theorem getOptimalPick_tie_counterexample :
    (getAvailablePlayers tieDraft.players).map (fun p => (p.id, p.rank))
      = [("a", 2), ("b", 1)] ∧
    ((getOptimalPick tieDraft 1 1).toOption.map (fun sug =>
        (sug.optimalPick.map (fun x => (x.player.id, x.player.rank, x.score)),
         sug.alternatives.map (fun x => (x.player.id, x.player.rank, x.score)))))
      = some (some ("a", 2, 169 / 20), [("b", 1, 169 / 20)]) := by
  constructor
  · decide
  · decide!

/-- C14, amended: `getOptimalPick` ranks all available players by score
descending and breaks no tie; players of equal score keep their catalog order.
The ranking is a rearrangement of the available players with their scores, no
entry has a lower score than a later one, and for available players `a` before
`b` in the catalog with `score(a) ≥ score(b)`, `a` stands before `b` in the
ranking; `optimalPick` is the first entry and `alternatives` the three after
it. -/
theorem getOptimalPick_ranking (s : DraftService) (teamId : Nat) (team : Team)
    (currentRound : Int)
    (hteam : s.teams.find? (fun t => t.id == teamId) = some team)
    (hne : getAvailablePlayers s.players ≠ []) :
    ∃ sug, getOptimalPick s teamId currentRound = .ok sug ∧
      sug.optimalPick = (rankPlayers s team currentRound).head? ∧
      sug.alternatives = ((rankPlayers s team currentRound).drop 1).take 3 ∧
      (rankPlayers s team currentRound).Perm
        ((getAvailablePlayers s.players).map (scored s team currentRound)) ∧
      (rankPlayers s team currentRound).Pairwise (fun x y => y.score ≤ x.score) ∧
      (∀ a b : Player, [a, b].Sublist (getAvailablePlayers s.players) →
        scoreOf s team currentRound b ≤ scoreOf s team currentRound a →
        [scored s team currentRound a, scored s team currentRound b].Sublist
          (rankPlayers s team currentRound)) := by
  obtain ⟨sug, hok, hopt, halt, _⟩ := getOptimalPick_ok s teamId team currentRound hteam hne
  refine ⟨sug, hok, hopt, halt, rankPlayers_perm s team currentRound,
    rankPlayers_sorted s team currentRound, ?_⟩
  intro a b hsub hle
  rw [rankPlayers_eq]
  exact List.pair_sublist_insertionSort (r := scoreOrder) hle
    (List.Sublist.map (scored s team currentRound) hsub)

theorem getOptimalPick_ranking_witness :
    ∃ sug, getOptimalPick DraftService.new 1 1 = .ok sug ∧
      sug.optimalPick = (rankPlayers DraftService.new (newTeam 1) 1).head? :=
  have h := getOptimalPick_ranking DraftService.new 1 (newTeam 1) 1 (by decide) (by decide)
  h.elim fun sug hs => ⟨sug, hs.1, hs.2.1⟩

theorem scored_injective (s : DraftService) (team : Team) (currentRound : Int) :
    Function.Injective (scored s team currentRound) := by
  intro a b h
  exact congrArg ScoredPlayer.player h

theorem mem_rankPlayers (s : DraftService) (team : Team) (currentRound : Int)
    (x : ScoredPlayer) (hx : x ∈ rankPlayers s team currentRound) :
    x.player ∈ getAvailablePlayers s.players ∧ x.score = scoreOf s team currentRound x.player := by
  have h := (rankPlayers_perm s team currentRound).mem_iff.mp hx
  obtain ⟨p, hp, rfl⟩ := List.mem_map.mp h
  exact ⟨hp, rfl⟩

/-- C15: for a state with `m ≥ 1` available players and an existing team,
`getOptimalPick` returns an `optimalPick` that is an available player whose
score is at least the score of every available player, and `alternatives` that
are the entries 2..4 of the score-descending ranking: `min(3, m - 1)` of them,
each an available player scoring no more than `optimalPick`;
`optimalPick`, the alternatives and the remaining players together are the
available players, in descending order of score, so every remaining player
scores no more than any alternative; when the available records are pairwise
different `optimalPick` is not among the alternatives; and `teamNeeds` is the
need map the scores were computed with. -/
theorem getOptimalPick_spec (s : DraftService) (teamId : Nat) (team : Team)
    (currentRound : Int) (m : Nat)
    (hteam : s.teams.find? (fun t => t.id == teamId) = some team)
    (hm : m = (getAvailablePlayers s.players).length) (hpos : 1 ≤ m) :
    ∃ sug top rest, getOptimalPick s teamId currentRound = .ok sug ∧
      sug.optimalPick = some top ∧
      top.player ∈ getAvailablePlayers s.players ∧
      top.score = scoreOf s team currentRound top.player ∧
      (∀ q ∈ getAvailablePlayers s.players, scoreOf s team currentRound q ≤ top.score) ∧
      sug.alternatives.length = min 3 (m - 1) ∧
      (∀ a ∈ sug.alternatives, a.player ∈ getAvailablePlayers s.players ∧
        a.score = scoreOf s team currentRound a.player ∧ a.score ≤ top.score) ∧
      (top :: sug.alternatives ++ rest).Perm
        ((getAvailablePlayers s.players).map (scored s team currentRound)) ∧
      (top :: sug.alternatives ++ rest).Pairwise (fun x y => y.score ≤ x.score) ∧
      (∀ x ∈ rest, ∀ a ∈ sug.alternatives, x.score ≤ a.score) ∧
      ((getAvailablePlayers s.players).Nodup → top ∉ sug.alternatives) ∧
      sug.teamNeeds = calculateTeamNeeds s team s.leagueSettings ∧
      (∀ q : Player, scoreOf s team currentRound q =
        calculatePlayerScore q sug.teamNeeds
          (getValueBasedRankings s (getAvailablePlayers s.players) currentRound)
          currentRound) := by
  have hne : getAvailablePlayers s.players ≠ [] := by
    intro h
    rw [h] at hm
    simp at hm
    omega
  obtain ⟨sug, hok, hopt, halt, hneeds⟩ := getOptimalPick_ok s teamId team currentRound hteam hne
  have hperm := rankPlayers_perm s team currentRound
  have hsorted := rankPlayers_sorted s team currentRound
  have hmem := mem_rankPlayers s team currentRound
  cases hrk : rankPlayers s team currentRound with
  | nil => exact absurd hrk (rankPlayers_ne_nil s team currentRound hne)
  | cons top tl =>
    rw [hrk] at hopt halt hperm hsorted hmem
    simp only [List.head?_cons, List.drop_succ_cons, List.drop_zero] at hopt halt
    have hsplit : top :: sug.alternatives ++ tl.drop 3 = top :: tl := by
      rw [halt, List.cons_append, List.take_append_drop]
    have hlen : tl.length = m - 1 := by
      have := hperm.length_eq
      rw [List.length_cons, List.length_map, ← hm] at this
      omega
    have hsorted2 := List.pairwise_cons.mp hsorted
    refine ⟨sug, top, tl.drop 3, hok, hopt, (hmem top (List.mem_cons_self _ _)).1,
      (hmem top (List.mem_cons_self _ _)).2, ?_, ?_, ?_, ?_, ?_, ?_, ?_, hneeds, ?_⟩
    · intro q hq
      have hq2 : scored s team currentRound q ∈ top :: tl :=
        hperm.mem_iff.mpr (List.mem_map_of_mem _ hq)
      rcases List.mem_cons.mp hq2 with h | h
      · rw [← h]; exact le_refl _
      · exact hsorted2.1 _ h
    · rw [halt, List.length_take, hlen]
    · intro a ha
      rw [halt] at ha
      have hatl : a ∈ tl := List.mem_of_mem_take ha
      exact ⟨(hmem a (List.mem_cons_of_mem _ hatl)).1, (hmem a (List.mem_cons_of_mem _ hatl)).2,
        hsorted2.1 a hatl⟩
    · rw [hsplit]; exact hperm
    · rw [hsplit]; exact hsorted
    · intro x hx a ha
      have hp : (tl.take 3 ++ tl.drop 3).Pairwise (fun x y => y.score ≤ x.score) := by
        rw [List.take_append_drop]; exact hsorted2.2
      rw [halt] at ha
      exact (List.pairwise_append.mp hp).2.2 a ha x hx
    · intro hnd htop
      have hnd2 : (top :: tl).Nodup :=
        hperm.nodup_iff.mpr (hnd.map (scored_injective s team currentRound))
      rw [halt] at htop
      exact (List.nodup_cons.mp hnd2).1 (List.mem_of_mem_take htop)
    · intro q
      rw [hneeds]
      rfl

theorem getOptimalPick_spec_witness :
    ∃ sug top, getOptimalPick DraftService.new 1 1 = .ok sug ∧
      sug.optimalPick = some top ∧ sug.alternatives.length = min 3 (15 - 1) :=
  have h := getOptimalPick_spec DraftService.new 1 (newTeam 1) 1 15 (by decide) (by decide)
    (by decide)
  h.elim fun sug h1 => h1.elim fun top h2 => h2.elim fun _ h3 =>
    ⟨sug, top, h3.1, h3.2.1, h3.2.2.2.2.2.1⟩

/-- C16 fails on the code: after the fifteen players of the mock catalog are
drafted no player is available, team 1 exists, and `getOptimalPick` for team 1
throws a `TypeError` instead of returning a result without candidates. -/
theorem getOptimalPick_all_drafted :
    getAvailablePlayers allDrafted.players = [] ∧
    (allDrafted.teams.find? (fun t => t.id == 1)).isSome = true ∧
    getOptimalPick allDrafted 1 2
      = .error "TypeError: Cannot read properties of undefined (reading 'position')" :=
  have h1 : getAvailablePlayers allDrafted.players = [] := by decide
  have h2 : (allDrafted.teams.find? (fun t => t.id == 1)).isSome = true := by decide
  ⟨h1, h2, getOptimalPick_no_candidate allDrafted 1 2 h2 h1⟩

theorem objGet_some_mem {α : Type} (k : String) (v : α) :
    ∀ o : List (String × α), objGet o k = some v → ∃ e ∈ o, e.2 = v
  | [], h => by cases h
  | (k1, v1) :: o, h => by
    unfold objGet at h
    split at h
    · exact ⟨(k1, v1), List.mem_cons_self _ _, Option.some.inj h⟩
    · obtain ⟨e, he, hv⟩ := objGet_some_mem k v o h
      exact ⟨e, List.mem_cons_of_mem _ he, hv⟩

theorem binary64_rankPlayers_eq (s : DraftService) (team : Team) (currentRound : Int) :
    Binary64.rankPlayers s team currentRound
      = ((getAvailablePlayers s.players).map (Binary64.scored s team currentRound)).insertionSort
          scoreOrder := rfl

theorem binary64_rankPlayers_perm (s : DraftService) (team : Team) (currentRound : Int) :
    (Binary64.rankPlayers s team currentRound).Perm
      ((getAvailablePlayers s.players).map (Binary64.scored s team currentRound)) := by
  rw [binary64_rankPlayers_eq]
  exact List.perm_insertionSort _ _

theorem binary64_rankPlayers_sorted (s : DraftService) (team : Team) (currentRound : Int) :
    (Binary64.rankPlayers s team currentRound).Pairwise (fun a b => b.score ≤ a.score) := by
  rw [binary64_rankPlayers_eq]
  exact List.sorted_insertionSort scoreOrder _

theorem binary64_mem_rankPlayers (s : DraftService) (team : Team) (currentRound : Int)
    (x : ScoredPlayer) (hx : x ∈ Binary64.rankPlayers s team currentRound) :
    x.player ∈ getAvailablePlayers s.players ∧
      x.score = Binary64.scoreOf s team currentRound x.player := by
  have h := (binary64_rankPlayers_perm s team currentRound).mem_iff.mp hx
  obtain ⟨p, hp, rfl⟩ := List.mem_map.mp h
  exact ⟨hp, rfl⟩

/-- With a team and a candidate, `getOptimalPick` returns the head of the
ranking, in double arithmetic too. -/
theorem binary64_getOptimalPick_ok (s : DraftService) (teamId : Nat) (team : Team)
    (currentRound : Int)
    (hteam : s.teams.find? (fun t => t.id == teamId) = some team)
    (hne : getAvailablePlayers s.players ≠ []) :
    ∃ sug top, Binary64.getOptimalPick s teamId currentRound = .ok sug ∧
      sug.optimalPick = some top ∧
      (Binary64.rankPlayers s team currentRound).head? = some top := by
  cases hrk : Binary64.rankPlayers s team currentRound with
  | nil =>
    exfalso
    have hlen := (binary64_rankPlayers_perm s team currentRound).length_eq
    rw [hrk, List.length_map] at hlen
    exact hne (List.length_eq_zero.mp hlen.symm)
  | cons top tl =>
    simp only [Binary64.getOptimalPick, hteam, hrk, List.head?_cons, Option.map_some',
      Binary64.generateReasoning]
    exact ⟨_, top, rfl, rfl, rfl⟩

/-- From round 1 on the value weight is positive in double arithmetic. -/
theorem binary64_valueWeight_pos (currentRound : Int) (hr : 1 ≤ currentRound) :
    0 < Binary64.valueWeight currentRound := by
  have hc5 : (0 : ℚ) ≤ toDouble (5 / 100) := by decide!
  have h1 : (1 : ℚ) ≤ (currentRound : ℚ) := by exact_mod_cast hr
  have hmul : toDouble (5 / 100) ≤ fmul (currentRound : ℚ) (toDouble (5 / 100)) := by
    have := @toDouble_mono (toDouble (5 / 100)) ((currentRound : ℚ) * toDouble (5 / 100))
      (by nlinarith)
    rw [toDouble_idem] at this
    exact this
  have hsub : fsub 1 (fmul (currentRound : ℚ) (toDouble (5 / 100)))
      ≤ toDouble (1 - toDouble (5 / 100)) :=
    toDouble_mono (by linarith)
  have hnw : Binary64.needWeight currentRound
      ≤ max (toDouble (3 / 10)) (toDouble (1 - toDouble (5 / 100))) :=
    max_le_max (le_refl _) hsub
  have hvw : toDouble (1 - max (toDouble (3 / 10)) (toDouble (1 - toDouble (5 / 100))))
      ≤ Binary64.valueWeight currentRound :=
    toDouble_mono (by linarith)
  have hpos : (0 : ℚ)
      < toDouble (1 - max (toDouble (3 / 10)) (toDouble (1 - toDouble (5 / 100)))) := by
    decide!
  exact lt_of_lt_of_le hpos hvw

/-- With every need of the team 0, the score of a player is the double product
of its value score and the value weight. -/
theorem binary64_scoreOf_eq_value (s : DraftService) (team : Team) (currentRound : Int)
    (hneeds : ∀ e ∈ Binary64.calculateTeamNeeds s team s.leagueSettings, e.2 = 0)
    (p : Player) :
    Binary64.scoreOf s team currentRound p
      = fmul (Binary64.valueOf s currentRound p) (Binary64.valueWeight currentRound) := by
  have h0 : (objGet (Binary64.calculateTeamNeeds s team s.leagueSettings) p.position).getD 0
      = 0 := by
    cases h : objGet (Binary64.calculateTeamNeeds s team s.leagueSettings) p.position with
    | none => rfl
    | some v =>
      obtain ⟨e, he, hv⟩ := objGet_some_mem _ _ _ h
      rw [Option.getD_some, ← hv]
      exact hneeds e he
  unfold Binary64.scoreOf Binary64.calculatePlayerScore Binary64.valueOf
  simp only [h0]
  unfold fadd fmul
  rw [zero_mul, toDouble_zero, zero_add, toDouble_idem]

/-- C17 as stated fails here: the only roster requirement, one quarterback, is
met, so every need of team 1 is 0; the receivers `x` and `y` are available with
the value scores 110 and `110 + 2 ^ (-46)`; both products with the value weight
of round 1 round to the same double, and `getOptimalPick` returns `x`, the
player of the lower value score, as `optimalPick` and `y` as the alternative. -/
theorem getOptimalPick_no_needs_counterexample :
    (closeValues.teams.find? (fun t => t.id == 1)).map (fun t =>
        Binary64.calculateTeamNeeds closeValues t closeValues.leagueSettings)
      = some [("QB", 0)] ∧
    (getAvailablePlayers closeValues.players).map (fun p =>
        (p.id, Binary64.valueOf closeValues 1 p))
      = [("x", 110), ("y", 110 + 1 / 2 ^ 46)] ∧
    ((Binary64.getOptimalPick closeValues 1 1).toOption.map (fun sug =>
        (sug.optimalPick.map (fun x => (x.player.id, x.score)),
         sug.alternatives.map (fun x => (x.player.id, x.score)))))
      = some (some ("x", 6192449487634438 / 2 ^ 50), [("y", 6192449487634438 / 2 ^ 50)]) := by
  refine ⟨by decide!, by decide!, by decide!⟩

/-- C17, amended: when every need of the team is 0, `getOptimalPick` at a round
`≥ 1` returns as `optimalPick` an available player whose score is at least that
of every available player, whatever its position; this for a catalog and
settings in the range of the model: positions among the six, projected points
and ADP of magnitude at most `2 ^ 1000`, tiers, requirements and the round of
magnitude at most `2 ^ 53`. Each score is the product of
the value score and `valueWeight` rounded to a double, and `valueWeight` is
strictly positive, so a higher value score never gives a lower score; but two
value scores can give the same score, and the ranking is the stable ranking of
the available players by that rounded product: a player stands before every
player of a strictly lower score, which then has a strictly lower value score,
and an available player with a higher value score than `optimalPick` has the
score of `optimalPick`. -/
theorem getOptimalPick_no_needs (s : DraftService) (teamId : Nat) (team : Team)
    (currentRound : Int)
    (hteam : s.teams.find? (fun t => t.id == teamId) = some team)
    (hne : getAvailablePlayers s.players ≠ [])
    (hneeds : ∀ e ∈ Binary64.calculateTeamNeeds s team s.leagueSettings, e.2 = 0)
    (hr : 1 ≤ currentRound) (_hround : currentRound ≤ 2 ^ 53)
    (_hplayers : ∀ p ∈ s.players, p.position ∈ positions ∧
      |p.projectedPoints| ≤ 2 ^ 1000 ∧ |p.adp| ≤ 2 ^ 1000 ∧ |p.tier| ≤ 2 ^ 53)
    (_hspots : ∀ e ∈ s.leagueSettings.rosterSpots, e.1 ∈ positions ∧ |e.2| ≤ 2 ^ 53) :
    (∃ sug top, Binary64.getOptimalPick s teamId currentRound = .ok sug ∧
      sug.optimalPick = some top ∧
      top.player ∈ getAvailablePlayers s.players ∧
      top.score
        = fmul (Binary64.valueOf s currentRound top.player)
            (Binary64.valueWeight currentRound) ∧
      (∀ q ∈ getAvailablePlayers s.players,
        Binary64.scoreOf s team currentRound q ≤ top.score) ∧
      (∀ q ∈ getAvailablePlayers s.players,
        Binary64.valueOf s currentRound top.player < Binary64.valueOf s currentRound q →
        Binary64.scoreOf s team currentRound q = top.score)) ∧
    0 < Binary64.valueWeight currentRound ∧
    (∀ p : Player, Binary64.scoreOf s team currentRound p
      = fmul (Binary64.valueOf s currentRound p) (Binary64.valueWeight currentRound)) ∧
    (∀ p q : Player, Binary64.valueOf s currentRound p ≤ Binary64.valueOf s currentRound q →
      Binary64.scoreOf s team currentRound p ≤ Binary64.scoreOf s team currentRound q) ∧
    (Binary64.rankPlayers s team currentRound).map (fun x => x.player)
      = (getAvailablePlayers s.players).insertionSort
          (fun a b =>
            fmul (Binary64.valueOf s currentRound b) (Binary64.valueWeight currentRound)
              ≤ fmul (Binary64.valueOf s currentRound a) (Binary64.valueWeight currentRound)) ∧
    (Binary64.rankPlayers s team currentRound).Pairwise (fun x y =>
      y.score ≤ x.score ∧
      (y.score < x.score →
        Binary64.valueOf s currentRound y.player < Binary64.valueOf s currentRound x.player)) := by
  have hw := binary64_valueWeight_pos currentRound hr
  have hscore := binary64_scoreOf_eq_value s team currentRound hneeds
  have hmono : ∀ p q : Player,
      Binary64.valueOf s currentRound p ≤ Binary64.valueOf s currentRound q →
      Binary64.scoreOf s team currentRound p ≤ Binary64.scoreOf s team currentRound q := by
    intro p q hpq
    rw [hscore p, hscore q]
    exact toDouble_mono (mul_le_mul_of_nonneg_right hpq hw.le)
  have hsorted := binary64_rankPlayers_sorted s team currentRound
  have hperm := binary64_rankPlayers_perm s team currentRound
  have hmem := binary64_mem_rankPlayers s team currentRound
  refine ⟨?_, hw, hscore, hmono, ?_, ?_⟩
  · obtain ⟨sug, top, hok, hopt, hhead⟩ :=
      binary64_getOptimalPick_ok s teamId team currentRound hteam hne
    cases hrk : Binary64.rankPlayers s team currentRound with
    | nil => rw [hrk] at hhead; cases hhead
    | cons top2 tl =>
      rw [hrk] at hhead hsorted hperm hmem
      have htt : top2 = top := Option.some.inj hhead
      subst htt
      have htop := hmem top2 (List.mem_cons_self _ _)
      have hle : ∀ q ∈ getAvailablePlayers s.players,
          Binary64.scoreOf s team currentRound q ≤ top2.score := by
        intro q hq
        have hq2 : Binary64.scored s team currentRound q ∈ top2 :: tl :=
          hperm.mem_iff.mpr (List.mem_map_of_mem _ hq)
        rcases List.mem_cons.mp hq2 with h | h
        · rw [← h]; exact le_refl _
        · exact (List.pairwise_cons.mp hsorted).1 _ h
      refine ⟨sug, top2, hok, hopt, htop.1, ?_, hle, ?_⟩
      · rw [htop.2, hscore]
      · intro q hq hlt
        apply le_antisymm (hle q hq)
        rw [htop.2]
        exact hmono _ _ hlt.le
  · rw [binary64_rankPlayers_eq]
    have hmap := List.map_insertionSort
      (fun a b : Player =>
        fmul (Binary64.valueOf s currentRound b) (Binary64.valueWeight currentRound)
          ≤ fmul (Binary64.valueOf s currentRound a) (Binary64.valueWeight currentRound))
      scoreOrder (Binary64.scored s team currentRound) (getAvailablePlayers s.players)
      (fun a _ b _ => by
        show _ ↔ Binary64.scoreOf s team currentRound b ≤ Binary64.scoreOf s team currentRound a
        rw [hscore a, hscore b])
    rw [← hmap, List.map_map]
    exact (List.map_congr_left (fun _ _ => rfl)).trans (List.map_id _)
  · refine List.Pairwise.imp_of_mem ?_ hsorted
    intro x y hx hy hxy
    refine ⟨hxy, fun hlt => ?_⟩
    by_contra hnot
    have := hmono x.player y.player (not_lt.mp hnot)
    rw [← (hmem x hx).2, ← (hmem y hy).2] at this
    exact absurd hlt (not_lt.mpr this)

theorem getOptimalPick_no_needs_witness :
    0 < Binary64.valueWeight 1 ∧
    (Binary64.rankPlayers closeValues
        (addPick (drafted (mockPlayer "q" "Quarterback" "QB" "FA" 1 300 1 1 7)) 1 1 0
          (newTeam 1)) 1).map (fun x => x.player)
      = (getAvailablePlayers closeValues.players).insertionSort
          (fun a b =>
            fmul (Binary64.valueOf closeValues 1 b) (Binary64.valueWeight 1)
              ≤ fmul (Binary64.valueOf closeValues 1 a) (Binary64.valueWeight 1)) :=
  have h := getOptimalPick_no_needs closeValues 1
    (addPick (drafted (mockPlayer "q" "Quarterback" "QB" "FA" 1 300 1 1 7)) 1 1 0
      (newTeam 1)) 1 (by decide!) (by decide) (by decide!) (by decide) (by decide)
    (by decide!) (by decide!)
  ⟨h.2.1, h.2.2.2.2.1⟩

/-! ## Team statistics -/

theorem jsRound_bounds (x : ℚ) : (jsRound x : ℚ) ≤ x + 1 / 2 ∧ x + 1 / 2 < (jsRound x : ℚ) + 1 := by
  unfold jsRound
  constructor
  · exact Rat.le_floor.mp (le_refl _)
  · by_contra h
    have h1 : ((Rat.floor (x + 1 / 2) + 1 : Int) : ℚ) ≤ x + 1 / 2 := by
      push_cast
      exact not_lt.mp h
    have h2 := Rat.le_floor.mpr h1
    omega

/-- A running sum in double arithmetic is the exact sum when every partial sum
is a double. -/
theorem foldl_fadd_eq_sum {α : Type} (g : α → ℚ) :
    ∀ (l : List α) (a : ℚ),
      (∀ k ≤ l.length, toDouble (a + ((l.take k).map g).sum) = a + ((l.take k).map g).sum) →
      l.foldl (fun sum x => fadd sum (g x)) a = a + (l.map g).sum
  | [], a, _ => by simp
  | x :: xs, a, h => by
    rw [List.foldl_cons]
    have h1 : fadd a (g x) = a + g x := by
      have := h 1 (by simp)
      simpa [fadd] using this
    rw [h1, foldl_fadd_eq_sum g xs (a + g x)]
    · simp [add_assoc]
    · intro k hk
      have := h (k + 1) (by simpa using hk)
      simpa [add_assoc] using this

/-- A running sum of integers that are not negative is exact in double
arithmetic while it stays within `2 ^ 53`. -/
theorem foldl_fadd_intCast {α : Type} (g : α → Int) :
    ∀ (l : List α) (a : Int), 0 ≤ a → (∀ x ∈ l, 0 ≤ g x) → a + (l.map g).sum ≤ 2 ^ 53 →
      l.foldl (fun sum x => fadd sum ((g x : Int) : ℚ)) (a : ℚ)
        = ((a + (l.map g).sum : Int) : ℚ)
  | [], a, _, _, _ => by simp
  | x :: xs, a, ha, hg, hsum => by
    rw [List.foldl_cons]
    have hx : 0 ≤ g x := hg x (List.mem_cons_self _ _)
    have hrest : 0 ≤ (xs.map g).sum :=
      List.sum_nonneg (fun y hy => by
        obtain ⟨z, hz, rfl⟩ := List.mem_map.mp hy
        exact hg z (List.mem_cons_of_mem _ hz))
    rw [List.map_cons, List.sum_cons] at hsum
    have h1 : fadd (a : ℚ) ((g x : Int) : ℚ) = ((a + g x : Int) : ℚ) := by
      have h := toDouble_intCast (a + g x) (by rw [abs_le]; constructor <;> omega)
      unfold fadd
      rw [← h]
      push_cast
      rfl
    rw [h1, foldl_fadd_intCast g xs (a + g x) (by omega)
      (fun y hy => hg y (List.mem_cons_of_mem _ hy)) (by omega)]
    rw [List.map_cons, List.sum_cons, add_assoc]

/-- C18 as stated fails here: team 1 holds three players with projected points
420.5, 410.3 and 280.3 and tiers 1, 1 and 2; `calculateTeamStats` returns
`totalPoints = 1111` and as `averageTier` the double 1.3, while the sum of the
points is 1111.1, the sum the engine accumulates lies above 1111 too, and the
mean of the tiers is 4/3. -/
theorem calculateTeamStats_counterexample :
    (threePicksTeamOne.teams.find? (fun t => t.id == 1)).map (fun t =>
        ((calculateTeamStats t).totalPoints, (calculateTeamStats t).averageTier,
          (t.roster.map (fun p => p.projectedPoints)).sum,
          (((t.roster.map (fun p => p.tier)).sum : Int) : ℚ) / t.roster.length))
      = some (1111, toDouble (13 / 10), 11111 / 10, 4 / 3) ∧
    (threePicksTeamOne.teams.find? (fun t => t.id == 1)).map (fun t =>
        decide ((1111 : ℚ)
          < t.roster.foldl (fun sum p => fadd sum (toDouble p.projectedPoints)) 0))
      = some true ∧
    toDouble (13 / 10) < 4 / 3 := by
  refine ⟨by decide!, by decide!, by decide!⟩

/-- The running sum is rounded at every addition: for projected points 200.7,
311.4 and 311.4 the engine accumulates a double below 823.5 and returns
`totalPoints = 823`, while the sum of the three numbers is 823.5, which
`Math.round` takes to 824. -/
theorem calculateTeamStats_running_sum :
    (calculateTeamStats roundedSumTeam).totalPoints = 823 ∧
    roundedSumTeam.roster.foldl (fun sum p => fadd sum (toDouble p.projectedPoints)) 0
      < 8235 / 10 ∧
    (roundedSumTeam.roster.map (fun p => p.projectedPoints)).sum = 8235 / 10 ∧
    jsRound (roundedSumTeam.roster.map (fun p => p.projectedPoints)).sum = 824 := by
  refine ⟨by decide!, by decide!, by decide!, by decide!⟩

/-- C18, amended: for every roster of fewer than `2 ^ 32` records with projected
points of magnitude at most `2 ^ 990` and tiers of magnitude at most `2 ^ 53`
(where no sum leaves the range of the doubles), `calculateTeamStats` returns
`totalPoints` equal to `Math.round` (the nearest integer, a half rounds up) of
the sum of the projected points as `reduce` accumulates it, from the left in
double arithmetic, which is the exact sum whenever the points and all partial
sums are doubles; `averageTier` equal to `Math.round(mean * 10) / 10`, every
operation rounded to a double, where `mean` is the accumulated tier sum over
the roster length (the exact tier sum for tiers that are not negative and sum
to at most `2 ^ 53`), and 0 for the empty roster; `playerCount` equal to the
roster length; and `byPosition` mapping each of QB, RB, WR, TE, K, DST, and no
other key, to the number of roster players at that position; it is a total
function. -/
theorem calculateTeamStats_spec (team : Team)
    (_hnumbers : ∀ p ∈ team.roster, |p.projectedPoints| ≤ 2 ^ 990 ∧ |p.tier| ≤ 2 ^ 53)
    (_hlength : team.roster.length < 2 ^ 32) :
    (calculateTeamStats team).totalPoints
      = jsRound (team.roster.foldl (fun sum p => fadd sum (toDouble p.projectedPoints)) 0) ∧
    (((calculateTeamStats team).totalPoints : ℚ)
        ≤ team.roster.foldl (fun sum p => fadd sum (toDouble p.projectedPoints)) 0 + 1 / 2 ∧
      team.roster.foldl (fun sum p => fadd sum (toDouble p.projectedPoints)) 0 + 1 / 2
        < ((calculateTeamStats team).totalPoints : ℚ) + 1) ∧
    ((∀ p ∈ team.roster, toDouble p.projectedPoints = p.projectedPoints) →
      (∀ k ≤ team.roster.length,
        toDouble ((team.roster.take k).map (fun p => p.projectedPoints)).sum
          = ((team.roster.take k).map (fun p => p.projectedPoints)).sum) →
      (calculateTeamStats team).totalPoints
        = jsRound (team.roster.map (fun p => p.projectedPoints)).sum) ∧
    (team.roster = [] → (calculateTeamStats team).averageTier = 0) ∧
    (team.roster ≠ [] →
      (calculateTeamStats team).averageTier
        = fdiv (jsRound (fmul
            (fdiv (team.roster.foldl (fun sum p => fadd sum (p.tier : ℚ)) 0)
              (team.roster.length : ℚ)) 10) : ℚ) 10) ∧
    (team.roster ≠ [] → (∀ p ∈ team.roster, 0 ≤ p.tier) →
      (team.roster.map (fun p => p.tier)).sum ≤ 2 ^ 53 →
      (calculateTeamStats team).averageTier
        = fdiv (jsRound (fmul
            (fdiv (((team.roster.map (fun p => p.tier)).sum : Int) : ℚ)
              (team.roster.length : ℚ)) 10) : ℚ) 10) ∧
    (calculateTeamStats team).playerCount = team.roster.length ∧
    (∀ pos ∈ positions,
      objGet (calculateTeamStats team).byPosition pos
        = some (team.roster.filter (fun p => p.position == pos)).length) ∧
    (∀ pos, pos ∉ positions → objGet (calculateTeamStats team).byPosition pos = none) := by
  have havg : team.roster ≠ [] →
      (calculateTeamStats team).averageTier
        = fdiv (jsRound (fmul
            (fdiv (team.roster.foldl (fun sum p => fadd sum (p.tier : ℚ)) 0)
              (team.roster.length : ℚ)) 10) : ℚ) 10 := by
    intro h
    have hlen : team.roster.length > 0 := List.length_pos.mpr h
    unfold calculateTeamStats
    simp only [hlen, if_true]
  refine ⟨rfl, jsRound_bounds _, ?_, ?_, havg, ?_, rfl, ?_, ?_⟩
  · intro hpts hsums
    have hmap : team.roster.map (fun p => toDouble p.projectedPoints)
        = team.roster.map (fun p => p.projectedPoints) :=
      List.map_congr_left hpts
    have h := foldl_fadd_eq_sum (fun p : Player => toDouble p.projectedPoints) team.roster 0
      (fun k hk => by
        have hk2 : (team.roster.take k).map (fun p => toDouble p.projectedPoints)
            = (team.roster.take k).map (fun p => p.projectedPoints) :=
          List.map_congr_left (fun p hp => hpts p (List.mem_of_mem_take hp))
        rw [hk2, zero_add]
        exact hsums k hk)
    rw [hmap, zero_add] at h
    show jsRound (team.roster.foldl (fun sum p => fadd sum (toDouble p.projectedPoints)) 0) = _
    rw [h]
  · intro h
    unfold calculateTeamStats
    simp only [h, List.length_nil, gt_iff_lt, lt_self_iff_false, if_false]
    decide!
  · intro h htiers hsum
    rw [havg h]
    have hf := foldl_fadd_intCast (fun p : Player => p.tier) team.roster 0 (le_refl _) htiers
      (by omega)
    rw [Int.cast_zero, zero_add] at hf
    rw [hf]
  · intro pos hpos
    unfold calculateTeamStats
    simp only
    rw [objGet_countByPosition, if_pos hpos]
    simp
  · intro pos hpos
    unfold calculateTeamStats
    simp only
    rw [objGet_countByPosition, if_neg hpos]

theorem calculateTeamStats_spec_witness :
    (calculateTeamStats roundedSumTeam).totalPoints
      = jsRound (roundedSumTeam.roster.foldl
          (fun sum p => fadd sum (toDouble p.projectedPoints)) 0) ∧
    (calculateTeamStats roundedSumTeam).playerCount = roundedSumTeam.roster.length :=
  have h := calculateTeamStats_spec roundedSumTeam (by decide!) (by decide)
  ⟨h.1, h.2.2.2.2.2.2.1⟩

/-! ## The frame of a pick -/

theorem updateFirst_split {α : Type} (q : α → Bool) (f : α → α) :
    ∀ (l : List α) (x : α), l.find? q = some x →
      ∃ pre post, l = pre ++ x :: post ∧ (∀ y ∈ pre, q y = false) ∧ q x = true ∧
        updateFirst q f l = pre ++ f x :: post
  | [], _, h => by cases h
  | y :: ys, x, h => by
    by_cases hy : q y = true
    · rw [List.find?_cons_of_pos _ hy] at h
      cases h
      refine ⟨[], ys, rfl, ?_, hy, ?_⟩
      · intro z hz; cases hz
      · simp [updateFirst, hy]
    · rw [List.find?_cons_of_neg _ hy] at h
      obtain ⟨pre, post, hl, hpre, hx, hup⟩ := updateFirst_split q f ys x h
      refine ⟨y :: pre, post, by rw [hl]; rfl, ?_, hx, ?_⟩
      · intro z hz
        rcases List.mem_cons.mp hz with rfl | hz
        · simpa using hy
        · exact hpre z hz
      · simp [updateFirst, hy, hup]

/-- C19: after a successful `makePick(playerId, teamId, round, pickNumber)` the
team that `find` returns for `teamId` has the drafted player appended to its
roster (the earlier entries unchanged) and one pick holding that player
appended to its pick list, every other team is unchanged, the global pick list
gains exactly one entry holding that player, and in the catalog exactly the
record that `find` returns for `playerId` changed: its flag went from false to
true. -/
theorem makePick_frame (s : DraftService) (playerId : String)
    (teamId round pickNumber now : Nat)
    (hok : (makePick s playerId teamId round pickNumber now).1.toBool = true) :
    ∃ (p : Player) (pre post : List Player) (t : Team) (before after : List Team),
      (makePick s playerId teamId round pickNumber now).2.draftPicks
        = s.draftPicks ++ [{ round := round, pickNumber := pickNumber, teamId := teamId,
                             player := { p with isDrafted := true }, timestamp := now }] ∧
      s.players = pre ++ p :: post ∧ p.id = playerId ∧ p.isDrafted = false ∧
      (∀ q ∈ pre, ¬ q.id = playerId) ∧
      (makePick s playerId teamId round pickNumber now).2.players
        = pre ++ { p with isDrafted := true } :: post ∧
      s.teams = before ++ t :: after ∧ t.id = teamId ∧ (∀ x ∈ before, ¬ x.id = teamId) ∧
      (makePick s playerId teamId round pickNumber now).2.teams
        = before ++
            { t with
              roster := t.roster ++ [{ p with isDrafted := true }],
              picks := t.picks ++ [{ round := round, pickNumber := pickNumber,
                                     player := { p with isDrafted := true },
                                     timestamp := now }] } :: after := by
  rcases makePick_cases s playerId teamId round pickNumber now with
    ⟨_, h1⟩ | ⟨_, _, _, h1⟩ | ⟨_, _, _, _, h1⟩ | ⟨p, t, hp, hd, ht, _, hpl, _, hteams, hdp, _⟩
  · rw [h1] at hok; cases hok
  · rw [h1] at hok; cases hok
  · rw [h1] at hok; cases hok
  · obtain ⟨pre, post, hl, hpre, hpx, hup⟩ :=
      updateFirst_split (fun q : Player => q.id == playerId)
        (fun q => { q with isDrafted := true }) s.players p hp
    obtain ⟨before, after, hl2, hbefore, htx, hup2⟩ :=
      updateFirst_split (fun x : Team => x.id == teamId)
        (addPick (drafted p) round pickNumber now) s.teams t ht
    refine ⟨p, pre, post, t, before, after, hdp, hl, by simpa using hpx, hd, ?_, ?_, hl2,
      by simpa using htx, ?_, ?_⟩
    · intro q hq; simpa using hpre q hq
    · rw [hpl]; exact hup
    · intro x hx; simpa using hbefore x hx
    · rw [hteams]; exact hup2

theorem makePick_frame_witness :
    ∃ p : Player, p.id = "1" ∧
      (makePick DraftService.new "1" 1 1 1 0).2.draftPicks
        = DraftService.new.draftPicks ++
            [{ round := 1, pickNumber := 1, teamId := 1,
               player := { p with isDrafted := true }, timestamp := 0 }] :=
  have h := makePick_frame DraftService.new "1" 1 1 1 0 (by decide)
  h.elim fun p h1 => h1.elim fun _ h2 => h2.elim fun _ h3 => h3.elim fun _ h4 =>
    h4.elim fun _ h5 => h5.elim fun _ h6 => ⟨p, h6.2.2.1, h6.1⟩

/-! ## Team ids on the board -/

theorem getDraftOrder_getElem? (ls : LeagueSettings) (r i : Nat) (hi : i < ls.numberOfTeams) :
    (getDraftOrder ls r)[i]? =
      some (if ls.snakeDraft = true ∧ r % 2 = 0 then ls.numberOfTeams - i else i + 1) := by
  rw [getDraftOrder_eq]
  by_cases h : ls.snakeDraft = true ∧ r % 2 = 0
  · rw [if_pos h, if_pos h,
      List.getElem?_reverse (by rw [List.length_range']; exact hi), List.length_range',
      @List.getElem?_range' 1 1 (ls.numberOfTeams - 1 - i) ls.numberOfTeams (by omega)]
    congr 1
    omega
  · rw [if_neg h, if_neg h, @List.getElem?_range' 1 1 i ls.numberOfTeams hi]
    congr 1
    omega

/-- C20 as stated fails here: with the default settings (12 teams, snake
draft) the first slot of round 2 of the board has pick number 13 and team id 1,
while the element at index `(13 - 1) mod 12 = 0` of `getDraftOrder(2)` is 12. -/
theorem getDraftBoard_teamId_counterexample :
    DraftService.new.leagueSettings.numberOfTeams = 12 ∧
    DraftService.new.leagueSettings.snakeDraft = true ∧
    (((getDraftBoard DraftService.new)[2 - 1]?).bind (fun row => row[1 - 1]?)).map
        (fun slot => (slot.round, slot.pickNumber, slot.teamId)) = some (2, 13, 1) ∧
    (getDraftOrder DraftService.new.leagueSettings 2)[(13 - 1) % 12]? = some 12 := by
  refine ⟨by decide, by decide, ?_, by decide⟩
  rw [getDraftBoard_slot DraftService.new 2 1 (by decide) (by decide) (by decide) (by decide)]
  decide

/-- C20, amended: for `numberOfTeams = n` in 8..16 and either value of
`snakeDraft`, the slot of `getDraftBoard` at round `r`, position `t` has pick
number `k = (r - 1) * n + t` and carries `teamId = t = ((k - 1) mod n) + 1`, its
position in the round. The element at index `(k - 1) mod n` of
`getDraftOrder(r)` is `t` when `snakeDraft` is false or `r` is odd, and
`n + 1 - t` in an even round of a snake draft, so the slot carries the team of
the draft order exactly when `snakeDraft` is false, or `r` is odd, or
`2 * t = n + 1`. -/
theorem getDraftBoard_teamId (s : DraftService) (n : Nat)
    (hn : s.leagueSettings.numberOfTeams = n) (h8 : 8 ≤ n) (h16 : n ≤ 16)
    (r t : Nat) (hr1 : 1 ≤ r) (hr : r ≤ 15) (ht1 : 1 ≤ t) (ht : t ≤ n) :
    ∃ slot : BoardSlot,
      ((getDraftBoard s)[r - 1]?).bind (fun row => row[t - 1]?) = some slot ∧
      slot.round = r ∧ slot.pickNumber = (r - 1) * n + t ∧
      slot.teamId = t ∧ slot.teamId = (slot.pickNumber - 1) % n + 1 ∧
      (¬ (s.leagueSettings.snakeDraft = true ∧ r % 2 = 0) →
        (getDraftOrder s.leagueSettings r)[(slot.pickNumber - 1) % n]? = some slot.teamId) ∧
      (s.leagueSettings.snakeDraft = true ∧ r % 2 = 0 →
        (getDraftOrder s.leagueSettings r)[(slot.pickNumber - 1) % n]? = some (n + 1 - t)) ∧
      ((getDraftOrder s.leagueSettings r)[(slot.pickNumber - 1) % n]? = some slot.teamId ↔
        (¬ (s.leagueSettings.snakeDraft = true ∧ r % 2 = 0) ∨ 2 * t = n + 1)) := by
  have _ := h16
  subst hn
  have hmod : ((r - 1) * s.leagueSettings.numberOfTeams + t - 1) % s.leagueSettings.numberOfTeams
      = t - 1 := by
    have h1 : (r - 1) * s.leagueSettings.numberOfTeams + t - 1
        = (t - 1) + s.leagueSettings.numberOfTeams * (r - 1) := by
      rw [Nat.mul_comm]; omega
    rw [h1, Nat.add_mul_mod_self_left]
    exact Nat.mod_eq_of_lt (by omega)
  have hord := getDraftOrder_getElem? s.leagueSettings r (t - 1) (by omega)
  refine ⟨boardSlot s r t, getDraftBoard_slot s r t hr1 hr ht1 ht, rfl, rfl, rfl, ?_, ?_, ?_, ?_⟩
  · show t = ((r - 1) * s.leagueSettings.numberOfTeams + t - 1) % s.leagueSettings.numberOfTeams + 1
    rw [hmod]; omega
  · intro hsn
    show (getDraftOrder s.leagueSettings r)[((r - 1) * s.leagueSettings.numberOfTeams + t - 1)
      % s.leagueSettings.numberOfTeams]? = some t
    rw [hmod, hord, if_neg hsn]
    congr 1; omega
  · intro hsn
    show (getDraftOrder s.leagueSettings r)[((r - 1) * s.leagueSettings.numberOfTeams + t - 1)
      % s.leagueSettings.numberOfTeams]? = some (s.leagueSettings.numberOfTeams + 1 - t)
    rw [hmod, hord, if_pos hsn]
    congr 1; omega
  · show (getDraftOrder s.leagueSettings r)[((r - 1) * s.leagueSettings.numberOfTeams + t - 1)
      % s.leagueSettings.numberOfTeams]? = some t ↔ _
    rw [hmod, hord]
    by_cases hsn : s.leagueSettings.snakeDraft = true ∧ r % 2 = 0
    · rw [if_pos hsn]
      simp only [Option.some.injEq, hsn, not_true_eq_false, false_or, and_self]
      omega
    · rw [if_neg hsn]
      simp only [Option.some.injEq, hsn, not_false_eq_true, true_or, iff_true]
      omega

theorem getDraftBoard_teamId_witness :
    ∃ slot : BoardSlot,
      ((getDraftBoard DraftService.new)[2 - 1]?).bind (fun row => row[1 - 1]?) = some slot ∧
      slot.teamId = 1 ∧
      (getDraftOrder DraftService.new.leagueSettings 2)[(slot.pickNumber - 1) % 12]?
        = some (12 + 1 - 1) :=
  have h := getDraftBoard_teamId DraftService.new 12 (by decide) (by decide) (by decide) 2 1
    (by decide) (by decide) (by decide) (by decide)
  h.elim fun slot hs => ⟨slot, hs.1, hs.2.2.2.1, hs.2.2.2.2.2.2.1 (by decide)⟩

/-! ## The turn of the user in the mobile client -/

/-- C21 fails on the code: with 12 teams and draft position 12, at pick 12 of
round 1 the team holding the pick is team 12, the user's, and `isUserPick`
returns false, since `12 % 12` is 0 and is compared with 12. -/
theorem isUserPick_last_seat :
    lastSeat.leagueSettings.numberOfTeams = 12 ∧
    lastSeat.leagueSettings.draftPosition = 12 ∧
    lastSeat.currentRound = (lastSeat.currentPick - 1) / 12 + 1 ∧
    holdingTeam 12 lastSeat.leagueSettings.snakeDraft lastSeat.currentPick lastSeat.currentRound
      = 12 ∧
    lastSeat.isUserPick = some false := by
  decide

theorem emod_succ_cases (k n : Int) (hn : 2 ≤ n) :
    ((k - 1) % n + 1 < n ∧ k % n = (k - 1) % n + 1) ∨
    ((k - 1) % n + 1 = n ∧ k % n = 0) := by
  have h0 : 0 ≤ (k - 1) % n := Int.emod_nonneg _ (by omega)
  have h1 : (k - 1) % n < n := Int.emod_lt_of_pos _ (by omega)
  have hk : k % n = ((k - 1) % n + 1) % n := by
    have : k = (k - 1) + 1 := by omega
    conv_lhs => rw [this]
    rw [Int.add_emod]
    have h11 : (1 : Int) % n = 1 := Int.emod_eq_of_lt (by omega) (by omega)
    rw [h11]
  by_cases hlt : (k - 1) % n + 1 < n
  · left
    exact ⟨hlt, by rw [hk]; exact Int.emod_eq_of_lt (by omega) hlt⟩
  · right
    have he : (k - 1) % n + 1 = n := by omega
    exact ⟨he, by rw [hk, he, Int.emod_self]⟩

/-- Where `isUserPick` is right: for a draft position below `numberOfTeams`, and
for every draft position in an even round of a snake draft, it is true exactly
when the team holding the pick is the user's. -/
theorem isUserPick_iff (m : DraftManager) (n d : Nat)
    (hn : m.leagueSettings.numberOfTeams = n) (hd : m.leagueSettings.draftPosition = d)
    (h8 : 8 ≤ n) (hd1 : 1 ≤ d) (hdn : d ≤ n) (hk : 1 ≤ m.currentPick)
    (hr : m.currentRound = (m.currentPick - 1) / (n : Int) + 1)
    (hok : d < n ∨ (m.leagueSettings.snakeDraft = true ∧ m.currentRound % 2 = 0)) :
    ∃ b, m.isUserPick = some b ∧
      (b = true ↔
        holdingTeam n m.leagueSettings.snakeDraft m.currentPick m.currentRound = d) := by
  have hr0 : 0 ≤ m.currentRound := by
    rw [hr]
    have : 0 ≤ (m.currentPick - 1) / (n : Int) := Int.ediv_nonneg (by omega) (by omega)
    omega
  have hn0 : ((n : Nat) : Int) ≠ 0 := by omega
  have hcases := emod_succ_cases m.currentPick n (by omega)
  have hm0 : 0 ≤ (m.currentPick - 1) % (n : Int) := Int.emod_nonneg _ hn0
  have hm1 : (m.currentPick - 1) % (n : Int) < n := Int.emod_lt_of_pos _ (by omega)
  unfold DraftManager.isUserPick holdingTeam
  simp only [hn, hd, hn0, if_false]
  rw [Int.tmod_eq_emod hr0 (by omega), Int.tmod_eq_emod (by omega) (by omega),
    Int.tmod_eq_emod (by omega) (by omega)]
  by_cases hs : m.leagueSettings.snakeDraft = true ∧ m.currentRound % 2 = 0
  · have hb : (m.leagueSettings.snakeDraft && (m.currentRound % 2 == 0)) = true := by
      simp [hs.1, hs.2]
    rw [if_pos hb, if_pos hs]
    refine ⟨_, rfl, ?_⟩
    rw [beq_iff_eq]
    by_cases hd1' : d = 1
    · subst hd1'
      have hrhs : ((n : Int) - ((1 : Nat) : Int) + 1) % (n : Int) = 0 := by
        have : ((n : Int) - ((1 : Nat) : Int) + 1) = n := by omega
        rw [this, Int.emod_self]
      rw [hrhs]
      rcases hcases with ⟨h1, h2⟩ | ⟨h1, h2⟩ <;> omega
    · have hrhs : ((n : Int) - (d : Int) + 1) % (n : Int) = (n : Int) - d + 1 :=
        Int.emod_eq_of_lt (by omega) (by omega)
      rw [hrhs]
      rcases hcases with ⟨h1, h2⟩ | ⟨h1, h2⟩ <;> omega
  · have hb : ¬ (m.leagueSettings.snakeDraft && (m.currentRound % 2 == 0)) = true := by
      simpa using hs
    rw [if_neg hb, if_neg hs]
    refine ⟨_, rfl, ?_⟩
    rw [beq_iff_eq]
    have hdlt : d < n := by
      rcases hok with h | h
      · exact h
      · exact absurd h hs
    rcases hcases with ⟨h1, h2⟩ | ⟨h1, h2⟩ <;> omega

/-! ## Marking a player as drafted -/

/-- C22 as stated fails here: for the id `999`, which no player of the mock
catalog has, `markPlayerAsDrafted` returns `undefined` without an error, and
for player `1` once drafted it returns the player again without an error; in
both calls the catalog stays as it was. -/
theorem markPlayerAsDrafted_counterexample :
    getPlayerById loadMockData "999" = none ∧
    (markPlayerAsDraftedReturn loadMockData "999").toOption = some none ∧
    markPlayerAsDrafted loadMockData "999" = loadMockData ∧
    (getPlayerById (markPlayerAsDrafted loadMockData "1") "1").map (fun p => p.isDrafted)
      = some true ∧
    ((markPlayerAsDraftedReturn (markPlayerAsDrafted loadMockData "1") "1").toOption.map
        (fun r => r.map (fun p => (p.id, p.isDrafted)))) = some (some ("1", true)) ∧
    markPlayerAsDrafted (markPlayerAsDrafted loadMockData "1") "1"
      = markPlayerAsDrafted loadMockData "1" := by
  decide!

/-- C22, amended: `markPlayerAsDrafted(playerId)` never fails. When no catalog
player has the id it returns `undefined` and changes nothing; otherwise it
returns the first player with that id and sets exactly that player's flag to
true, every other record staying as it was; when that flag is already true
nothing changes. -/
theorem markPlayerAsDrafted_spec (players : List Player) (playerId : String) :
    (markPlayerAsDraftedReturn players playerId).toBool = true ∧
    (getPlayerById players playerId = none →
      markPlayerAsDraftedReturn players playerId = .ok none ∧
      markPlayerAsDrafted players playerId = players) ∧
    (∀ p, getPlayerById players playerId = some p →
      markPlayerAsDraftedReturn players playerId = .ok (some { p with isDrafted := true }) ∧
      (∃ pre post, players = pre ++ p :: post ∧ p.id = playerId ∧
        (∀ q ∈ pre, ¬ q.id = playerId) ∧
        markPlayerAsDrafted players playerId = pre ++ { p with isDrafted := true } :: post) ∧
      (p.isDrafted = true → markPlayerAsDrafted players playerId = players)) := by
  refine ⟨rfl, ?_, ?_⟩
  · intro h
    unfold getPlayerById at h
    refine ⟨by simp [markPlayerAsDraftedReturn, h], ?_⟩
    unfold markPlayerAsDrafted
    have hall := List.find?_eq_none.mp h
    clear h
    induction players with
    | nil => rfl
    | cons x xs ih =>
      have hx : ¬ (x.id == playerId) = true := hall x (List.mem_cons_self _ _)
      simp only [updateFirst, hx, if_false, Bool.false_eq_true]
      rw [ih (fun y hy => hall y (List.mem_cons_of_mem _ hy))]
  · intro p hp
    unfold getPlayerById at hp
    obtain ⟨pre, post, hl, hpre, hpx, hup⟩ :=
      updateFirst_split (fun q : Player => q.id == playerId)
        (fun q => { q with isDrafted := true }) players p hp
    refine ⟨by simp [markPlayerAsDraftedReturn, hp], ⟨pre, post, hl, by simpa using hpx, ?_, hup⟩,
      ?_⟩
    · intro q hq; simpa using hpre q hq
    · intro hd
      unfold markPlayerAsDrafted
      rw [hup]
      have hsame : ({ p with isDrafted := true } : Player) = p := by
        cases p
        simp only at hd
        simp [hd]
      rw [hsame, ← hl]

/-! ## Updating the settings -/

/-- C23 as stated fails here: on the default settings the update
`{ numberOfTeams: 3, draftPosition: 7 }` is accepted, and `getLeagueSettings`
then returns 3 teams and draft position 7; `updateRosterRequirements({ QB: -1 })`
is accepted as well. -/
theorem updateLeagueSettings_counterexample :
    (updateLeagueSettings SettingsService.new
        { leagueType := none, numberOfTeams := some 3, draftPosition := some 7,
          snakeDraft := none, rosterSpots := none, scoringSettings := none }).1.toBool = true ∧
    (getLeagueSettings (updateLeagueSettings SettingsService.new
        { leagueType := none, numberOfTeams := some 3, draftPosition := some 7,
          snakeDraft := none, rosterSpots := none,
          scoringSettings := none }).2).leagueSettings.numberOfTeams = 3 ∧
    (getLeagueSettings (updateLeagueSettings SettingsService.new
        { leagueType := none, numberOfTeams := some 3, draftPosition := some 7,
          snakeDraft := none, rosterSpots := none,
          scoringSettings := none }).2).leagueSettings.draftPosition = 7 ∧
    (getLeagueSettings SettingsService.new).leagueSettings.numberOfTeams = 12 ∧
    (updateRosterRequirements SettingsService.new [("QB", -1)]).1.toBool = true ∧
    objGet (getLeagueSettings
      (updateRosterRequirements SettingsService.new [("QB", -1)]).2).leagueSettings.rosterSpots
      "QB" = some (-1) := by
  decide

/-- C23, amended: `updateLeagueSettings(partial)` merges without validating.
It never rejects; afterwards `getLeagueSettings` returns, for every field, the
value `partial` holds for it, or the prior value when `partial` does not hold
the field, whatever the values are. `updateRosterRequirements` never rejects
either and writes every count it is given, negative ones too. -/
theorem updateLeagueSettings_spec (svc : SettingsService) (newSettings : SettingsPatch) :
    (updateLeagueSettings svc newSettings).1
      = .ok (getLeagueSettings (updateLeagueSettings svc newSettings).2) ∧
    (getLeagueSettings (updateLeagueSettings svc newSettings).2).leagueSettings.numberOfTeams
      = newSettings.numberOfTeams.getD svc.leagueSettings.numberOfTeams ∧
    (getLeagueSettings (updateLeagueSettings svc newSettings).2).leagueSettings.draftPosition
      = newSettings.draftPosition.getD svc.leagueSettings.draftPosition ∧
    (getLeagueSettings (updateLeagueSettings svc newSettings).2).leagueSettings.rosterSpots
      = newSettings.rosterSpots.getD svc.leagueSettings.rosterSpots ∧
    (getLeagueSettings (updateLeagueSettings svc newSettings).2).leagueSettings.leagueType
      = newSettings.leagueType.getD svc.leagueSettings.leagueType ∧
    (getLeagueSettings (updateLeagueSettings svc newSettings).2).leagueSettings.snakeDraft
      = newSettings.snakeDraft.getD svc.leagueSettings.snakeDraft ∧
    (getLeagueSettings (updateLeagueSettings svc newSettings).2).scoringSettings
      = newSettings.scoringSettings.getD svc.scoringSettings ∧
    (∀ n d : Nat,
      (getLeagueSettings (updateLeagueSettings svc
        { newSettings with numberOfTeams := some n,
                           draftPosition := some d }).2).leagueSettings.numberOfTeams = n ∧
      (getLeagueSettings (updateLeagueSettings svc
        { newSettings with numberOfTeams := some n,
                           draftPosition := some d }).2).leagueSettings.draftPosition = d) ∧
    (∀ (position : String) (count : Int),
      (updateRosterRequirements svc [(position, count)]).1.toBool = true ∧
      objGet (getLeagueSettings
        (updateRosterRequirements svc [(position, count)]).2).leagueSettings.rosterSpots position
        = some count) := by
  refine ⟨rfl, rfl, rfl, rfl, rfl, rfl, rfl, fun _ _ => ⟨rfl, rfl⟩, fun position count => ⟨rfl, ?_⟩⟩
  simp only [updateRosterRequirements, getLeagueSettings, List.foldl_cons, List.foldl_nil]
  rw [objGet_objSet, if_pos rfl]

/-! ## League-type presets -/

/-- C24 as stated fails here: `Standard` applied to the default settings leaves
the default roster spots, `Standard` applied after `Dynasty` leaves the roster
spots of `Dynasty`. -/
theorem applyLeagueTypePreset_counterexample :
    (applyLeagueTypePreset SettingsService.new "Standard").leagueSettings.rosterSpots
      = [("QB", 1), ("RB", 2), ("WR", 2), ("TE", 1), ("K", 1), ("DST", 1)] ∧
    (applyLeagueTypePreset (applyLeagueTypePreset SettingsService.new "Dynasty")
        "Standard").leagueSettings.rosterSpots
      = [("QB", 2), ("RB", 4), ("WR", 6), ("TE", 2), ("K", 1), ("DST", 1)] := by
  decide

/-- C24, amended: for each of the five preset names `applyLeagueTypePreset`
sets `receptions` to a value that depends on the name alone (0 for Standard,
0.5 for HalfPPR, 1 for PPR, Superflex and Dynasty) and `leagueType` to the
name; `Dynasty` also sets the roster spots to a fixed object; `Standard`,
`PPR` and `HalfPPR` leave the roster spots as they were, and `Superflex` only
writes `QB = 2` into them, so for these four the roster spots after the call
depend on the prior configuration. -/
theorem applyLeagueTypePreset_spec (svc1 svc2 : SettingsService) (name : String)
    (hname : name ∈ ["Standard", "PPR", "HalfPPR", "Superflex", "Dynasty"]) :
    (applyLeagueTypePreset svc1 name).scoringSettings.receptions
      = (applyLeagueTypePreset svc2 name).scoringSettings.receptions ∧
    (applyLeagueTypePreset svc1 name).scoringSettings.receptions
      = (if name = "Standard" then 0 else if name = "HalfPPR" then 1 / 2 else 1) ∧
    (applyLeagueTypePreset svc1 name).leagueSettings.leagueType = name ∧
    (name = "Dynasty" →
      (applyLeagueTypePreset svc1 name).leagueSettings.rosterSpots
        = [("QB", 2), ("RB", 4), ("WR", 6), ("TE", 2), ("K", 1), ("DST", 1)] ∧
      (applyLeagueTypePreset svc1 name).leagueSettings.rosterSpots
        = (applyLeagueTypePreset svc2 name).leagueSettings.rosterSpots) ∧
    (name ∈ ["Standard", "PPR", "HalfPPR"] →
      (applyLeagueTypePreset svc1 name).leagueSettings.rosterSpots
        = svc1.leagueSettings.rosterSpots) ∧
    (name = "Superflex" →
      (applyLeagueTypePreset svc1 name).leagueSettings.rosterSpots
        = objSet svc1.leagueSettings.rosterSpots "QB" 2) ∧
    (svc1.leagueSettings.rosterSpots = svc2.leagueSettings.rosterSpots →
      (applyLeagueTypePreset svc1 name).leagueSettings.rosterSpots
        = (applyLeagueTypePreset svc2 name).leagueSettings.rosterSpots) := by
  simp only [List.mem_cons, List.mem_singleton, List.not_mem_nil, or_false] at hname
  rcases hname with rfl | rfl | rfl | rfl | rfl
  · simp [applyLeagueTypePreset]
  · simp [applyLeagueTypePreset]
  · simp [applyLeagueTypePreset]
  · simp only [applyLeagueTypePreset]
    simp
    intro h
    rw [h]
  · simp [applyLeagueTypePreset]

theorem applyLeagueTypePreset_spec_witness :
    (applyLeagueTypePreset SettingsService.new "Superflex").leagueSettings.rosterSpots
      = objSet SettingsService.new.leagueSettings.rosterSpots "QB" 2 :=
  (applyLeagueTypePreset_spec SettingsService.new SettingsService.new "Superflex"
    (by decide)).2.2.2.2.2.1 rfl

/-! ## The two engines -/

/-- The combined score of the mobile engine is that of the web engine on the
same reads and round. -/
theorem calculatePlayerScore_eq (m : DraftManager) (player : Player)
    (teamNeeds valueRankings : List (String × ℚ)) :
    m.calculatePlayerScore (objGet teamNeeds player.position) (objGet valueRankings player.id)
      = calculatePlayerScore player teamNeeds valueRankings m.currentRound := rfl

/-- C25 fails on the code: after round 1 of the 12-team draft of the mock
catalog both engines hold the same three available players, at pick 13 of
round 2; the web engine subtracts the round from the ADP and the mobile engine
the pick, and the value scores differ for every player. -/
theorem valueScore_engines_differ :
    afterRoundOne.draftState.currentPick = 13 ∧
    afterRoundOne.draftState.currentRound = 2 ∧
    mobileAfterRoundOne.currentPick = 13 ∧
    mobileAfterRoundOne.currentRound = 2 ∧
    mobileAfterRoundOne.availablePlayers = getAvailablePlayers afterRoundOne.players ∧
    getValueBasedRankings afterRoundOne (getAvailablePlayers afterRoundOne.players) 2
      = [("13", 5726 / 10), ("14", 5837 / 10), ("15", 537)] ∧
    mobileAfterRoundOne.getValueBasedRanking.map (fun e => (e.1.id, e.2))
      = [("13", 5616 / 10), ("14", 5727 / 10), ("15", 526)] := by
  refine ⟨by decide, by decide, rfl, rfl, rfl, by decide!, by decide!⟩

/-! ## The weights of need and value -/

/-- C26: in `calculatePlayerScore` the score is
`need * needWeight + value * valueWeight` with
`needWeight = max(0.3, 1 - 0.05 * round)` and `valueWeight = 1 - needWeight`;
`needWeight` is non-increasing and `valueWeight` non-decreasing in the round;
for every round `≥ 1`, `0.3 ≤ needWeight ≤ 0.95` and `0.05 ≤ valueWeight ≤ 0.7`;
the two weights add up to 1; and `needWeight = 0.3` for every round `≥ 14`. -/
theorem needWeight_valueWeight :
    (∀ (player : Player) (teamNeeds valueRankings : List (String × ℚ)) (round : Int),
      calculatePlayerScore player teamNeeds valueRankings round
        = (objGet teamNeeds player.position).getD 0 * needWeight round
          + (objGet valueRankings player.id).getD 0 * valueWeight round) ∧
    (∀ round : Int, needWeight round = max (3 / 10) (1 - (5 / 100) * (round : ℚ))) ∧
    (∀ round : Int, valueWeight round = 1 - needWeight round) ∧
    (∀ r1 r2 : Int, r1 ≤ r2 → needWeight r2 ≤ needWeight r1) ∧
    (∀ r1 r2 : Int, r1 ≤ r2 → valueWeight r1 ≤ valueWeight r2) ∧
    (∀ round : Int, 1 ≤ round →
      3 / 10 ≤ needWeight round ∧ needWeight round ≤ 95 / 100 ∧
      5 / 100 ≤ valueWeight round ∧ valueWeight round ≤ 7 / 10) ∧
    (∀ round : Int, needWeight round + valueWeight round = 1) ∧
    (∀ round : Int, 14 ≤ round → needWeight round = 3 / 10) := by
  have hmono : ∀ r1 r2 : Int, r1 ≤ r2 → needWeight r2 ≤ needWeight r1 := by
    intro r1 r2 h
    have hc : (r1 : ℚ) ≤ (r2 : ℚ) := by exact_mod_cast h
    unfold needWeight
    exact max_le_max (le_refl _) (by linarith)
  have hbound : ∀ round : Int, 1 ≤ round →
      3 / 10 ≤ needWeight round ∧ needWeight round ≤ 95 / 100 := by
    intro round h
    have hc : (1 : ℚ) ≤ (round : ℚ) := by exact_mod_cast h
    unfold needWeight
    exact ⟨le_max_left _ _, max_le (by norm_num) (by linarith)⟩
  refine ⟨fun _ _ _ _ => rfl, ?_, fun _ => rfl, hmono, ?_, ?_, ?_, ?_⟩
  · intro round
    unfold needWeight
    rw [mul_comm]
  · intro r1 r2 h
    unfold valueWeight
    linarith [hmono r1 r2 h]
  · intro round h
    obtain ⟨h1, h2⟩ := hbound round h
    unfold valueWeight
    exact ⟨h1, h2, by linarith, by linarith⟩
  · intro round
    unfold valueWeight
    ring
  · intro round h
    have hc : (14 : ℚ) ≤ (round : ℚ) := by exact_mod_cast h
    unfold needWeight
    exact max_eq_left (by linarith)

/-! ## Bounds on the scarcity factor -/

theorem filter_position_le (players : List Player) (position : String) :
    (players.filter (fun p => p.position == position && !p.isDrafted)).length
      ≤ (players.filter (fun p => !p.isDrafted)).length := by
  induction players with
  | nil => simp
  | cons x xs ih =>
    simp only [List.filter_cons]
    cases hd : x.isDrafted <;> cases hp : (x.position == position) <;> simp <;> omega

/-- C30: for every catalog state and position `getPositionScarcity` is in
`[1, 2]`; it is 1 when no player is available, and, when some player is
available but none at that position, it is `min(2, totalAvailable)`; so a value
score lies between the unscaled value and twice the unscaled value when the
unscaled value is not negative. The arithmetic is exact. -/
theorem getPositionScarcity_bounds (s : DraftService) (position : String) :
    (1 ≤ getPositionScarcity s position ∧ getPositionScarcity s position ≤ 2) ∧
    ((s.players.filter (fun p => !p.isDrafted)).length = 0 →
      getPositionScarcity s position = 1) ∧
    ((s.players.filter (fun p => !p.isDrafted)).length ≠ 0 →
      (s.players.filter (fun p => p.position == position && !p.isDrafted)).length = 0 →
      getPositionScarcity s position
        = min 2 (((s.players.filter (fun p => !p.isDrafted)).length : Nat) : ℚ)) ∧
    (∀ (player : Player) (round : Int),
      valueScore s player round = unscaledValue player round * getPositionScarcity s player.position ∧
      (0 ≤ unscaledValue player round →
        1 * unscaledValue player round ≤ valueScore s player round ∧
        valueScore s player round ≤ 2 * unscaledValue player round)) := by
  have hb : ∀ pos : String,
      1 ≤ getPositionScarcity s pos ∧ getPositionScarcity s pos ≤ 2 := by
    intro pos
    rw [getPositionScarcity_eq]
    by_cases h0 : (s.players.filter (fun p => !p.isDrafted)).length = 0
    · rw [if_pos h0]; norm_num
    · rw [if_neg h0]
      refine ⟨le_min (by norm_num) ?_, min_le_left _ _⟩
      have hle := filter_position_le s.players pos
      have hpos : (0 : ℚ) < max 1 (((if pos ∈ positions then
          (s.players.filter (fun p => p.position == pos && !p.isDrafted)).length
          else 0 : Nat) : ℚ)) := lt_of_lt_of_le one_pos (le_max_left _ _)
      rw [le_div_iff₀ hpos, one_mul]
      apply max_le
      · have : 1 ≤ (s.players.filter (fun p => !p.isDrafted)).length := Nat.pos_of_ne_zero h0
        exact_mod_cast this
      · by_cases hp : pos ∈ positions
        · rw [if_pos hp]; exact_mod_cast hle
        · rw [if_neg hp]; simp
  refine ⟨hb position, ?_, ?_, ?_⟩
  · intro h0
    rw [getPositionScarcity_eq, if_pos h0]
  · intro h0 hp0
    rw [getPositionScarcity_eq, if_neg h0]
    by_cases hp : position ∈ positions
    · rw [if_pos hp, hp0]; simp
    · rw [if_neg hp]; simp
  · intro player round
    refine ⟨rfl, ?_⟩
    intro hnn
    have h := hb player.position
    have hv : valueScore s player round
        = unscaledValue player round * getPositionScarcity s player.position := rfl
    rw [hv]
    constructor
    · rw [mul_comm (unscaledValue player round)]
      exact mul_le_mul_of_nonneg_right h.1 hnn
    · rw [mul_comm (unscaledValue player round)]
      exact mul_le_mul_of_nonneg_right h.2 hnn

/-! ## Where the two engines agree -/

/-- Where the two engines agree: over the same available players, for a player
at one of the six positions, the value score of the mobile engine is that of
the web engine called with the current pick in place of the round. -/
theorem valueScore_eq_of_same_turn (s : DraftService) (m : DraftManager) (player : Player)
    (hav : m.availablePlayers = getAvailablePlayers s.players)
    (hpos : player.position ∈ positions) :
    m.valueScore player = valueScore s player m.currentPick := by
  have hsc : m.getPositionScarcity player.position = getPositionScarcity s player.position := by
    rw [getPositionScarcity_eq, if_pos hpos]
    unfold DraftManager.getPositionScarcity
    rw [hav]
    unfold getAvailablePlayers
    rw [List.filter_filter]
    simp only [beq_iff_eq, Nat.cast_max, Nat.cast_one]
  unfold DraftManager.valueScore valueScore
  rw [hsc]

/-! ## The pick of a team in a round -/

theorem mem_getDraftOrder (ls : LeagueSettings) (r teamId : Nat) :
    teamId ∈ getDraftOrder ls r ↔ 1 ≤ teamId ∧ teamId ≤ ls.numberOfTeams := by
  rw [getDraftOrder_eq]
  split <;> simp <;> omega

theorem length_getDraftOrder (ls : LeagueSettings) (r : Nat) :
    (getDraftOrder ls r).length = ls.numberOfTeams := by
  rw [getDraftOrder_eq]
  split <;> simp

/-- For a team of the league, `getTeamPickInfo` finds the team in the order of
the round, at the index `i`, and returns position `i + 1`; while
`round * numberOfTeams ≤ 2 ^ 53` no operation of `pickNumber` rounds. -/
theorem getTeamPickInfo_eq (ls : LeagueSettings) (r teamId : Nat)
    (ht1 : 1 ≤ teamId) (ht : teamId ≤ ls.numberOfTeams) :
    (getDraftOrder ls r).indexOf teamId < ls.numberOfTeams ∧
    (getDraftOrder ls r)[(getDraftOrder ls r).indexOf teamId]? = some teamId ∧
    (getTeamPickInfo ls teamId r).pickPosition
      = (((getDraftOrder ls r).indexOf teamId : Nat) : Int) + 1 ∧
    (1 ≤ r → r * ls.numberOfTeams ≤ 2 ^ 53 →
      (getTeamPickInfo ls teamId r).pickNumber
        = (((((r : Int) - 1) * (ls.numberOfTeams : Int)
          + ((((getDraftOrder ls r).indexOf teamId : Nat) : Int) + 1) : Int)) : ℚ)) := by
  have hmem : teamId ∈ getDraftOrder ls r := (mem_getDraftOrder ls r teamId).mpr ⟨ht1, ht⟩
  have hlt : (getDraftOrder ls r).indexOf teamId < ls.numberOfTeams := by
    rw [← length_getDraftOrder ls r]
    exact List.indexOf_lt_length.mpr hmem
  have hpos : (getTeamPickInfo ls teamId r).pickPosition
      = (((getDraftOrder ls r).indexOf teamId : Nat) : Int) + 1 := by
    simp [getTeamPickInfo, jsIndexOf, hmem]
  refine ⟨hlt, List.getElem?_indexOf hmem, hpos, ?_⟩
  intro hr hbound
  have hb : (r : Int) * (ls.numberOfTeams : Int) ≤ 2 ^ 53 := by exact_mod_cast hbound
  have hmul : (r : Int) * (ls.numberOfTeams : Int)
      = ((r : Int) - 1) * (ls.numberOfTeams : Int) + (ls.numberOfTeams : Int) := by ring
  have hprod : 0 ≤ ((r : Int) - 1) * (ls.numberOfTeams : Int) :=
    Int.mul_nonneg (by omega) (by omega)
  have hr1 : (r : Int) - 1 ≤ ((r : Int) - 1) * (ls.numberOfTeams : Int) := by
    have : ((r : Int) - 1) * 1 ≤ ((r : Int) - 1) * (ls.numberOfTeams : Int) :=
      Int.mul_le_mul_of_nonneg_left (by omega) (by omega)
    omega
  have e1 : fsub (r : ℚ) 1 = (((r : Int) - 1 : Int) : ℚ) := by
    have h := toDouble_intCast ((r : Int) - 1) (by rw [abs_le]; constructor <;> omega)
    unfold fsub
    rw [← h]
    push_cast
    rfl
  have e2 : fmul (((r : Int) - 1 : Int) : ℚ) (ls.numberOfTeams : ℚ)
      = ((((r : Int) - 1) * (ls.numberOfTeams : Int) : Int) : ℚ) := by
    have h := toDouble_intCast (((r : Int) - 1) * (ls.numberOfTeams : Int))
      (by rw [abs_le]; constructor <;> omega)
    unfold fmul
    rw [← h]
    push_cast
    rfl
  have e3 : fadd ((((r : Int) - 1) * (ls.numberOfTeams : Int) : Int) : ℚ)
        (((((getDraftOrder ls r).indexOf teamId : Nat) : Int) + 1 : Int) : ℚ)
      = (((((r : Int) - 1) * (ls.numberOfTeams : Int)
          + ((((getDraftOrder ls r).indexOf teamId : Nat) : Int) + 1) : Int)) : ℚ) := by
    have h := toDouble_intCast (((r : Int) - 1) * (ls.numberOfTeams : Int)
        + ((((getDraftOrder ls r).indexOf teamId : Nat) : Int) + 1))
      (by rw [abs_le]; constructor <;> omega)
    unfold fadd
    rw [← h]
    push_cast
    rfl
  have hnum : (getTeamPickInfo ls teamId r).pickNumber
      = fadd (fmul (fsub (r : ℚ) 1) (ls.numberOfTeams : ℚ))
          ((getTeamPickInfo ls teamId r).pickPosition : ℚ) := rfl
  rw [hnum, hpos, e1, e2, e3]

/-- C29 as stated fails here: with 12 teams, in round 750599937895083 team 9
has `pickPosition = 9`, and `(round - 1) * 12 + 9 = 2 ^ 53 + 1` is no double:
`getTeamPickInfo` returns `pickNumber = 2 ^ 53`, the pick number it also returns
for team 8. -/
theorem getTeamPickInfo_counterexample :
    defaultLeagueSettings.numberOfTeams = 12 ∧
    (getTeamPickInfo defaultLeagueSettings 9 750599937895083).pickPosition = 9 ∧
    ((750599937895083 : ℚ) - 1) * 12 + 9 = 2 ^ 53 + 1 ∧
    (getTeamPickInfo defaultLeagueSettings 9 750599937895083).pickNumber = 2 ^ 53 ∧
    (getTeamPickInfo defaultLeagueSettings 8 750599937895083).pickNumber = 2 ^ 53 := by
  refine ⟨rfl, by decide, by norm_num, by decide!, by decide!⟩

/-- C29, amended: for `numberOfTeams = n ≥ 1`, a round `r ≥ 1` with
`r * n ≤ 2 ^ 53` and a team id in `1..n`, `getTeamPickInfo(teamId, r)` returns
`pickPosition` in `1..n` and the integer
`pickNumber = (r - 1) * n + pickPosition`, with
`(r - 1) * n < pickNumber ≤ r * n` and `floor((pickNumber - 1) / n) + 1 = r`;
the element of `getDraftOrder(r)` at index `(pickNumber - 1) mod n` is the team
id; and another team of the league gets another pick number in that round. -/
theorem getTeamPickInfo_roundtrip (ls : LeagueSettings) (n r teamId : Nat)
    (hn : ls.numberOfTeams = n) (hn1 : 1 ≤ n) (hr : 1 ≤ r) (hbound : r * n ≤ 2 ^ 53)
    (ht1 : 1 ≤ teamId) (ht : teamId ≤ n) :
    1 ≤ (getTeamPickInfo ls teamId r).pickPosition ∧
    (getTeamPickInfo ls teamId r).pickPosition ≤ (n : Int) ∧
    ∃ pickNumber : Int,
      (getTeamPickInfo ls teamId r).pickNumber = (pickNumber : ℚ) ∧
      pickNumber = ((r : Int) - 1) * (n : Int) + (getTeamPickInfo ls teamId r).pickPosition ∧
      ((r : Int) - 1) * (n : Int) < pickNumber ∧
      pickNumber ≤ (r : Int) * (n : Int) ∧
      (pickNumber - 1) / (n : Int) + 1 = (r : Int) ∧
      (getDraftOrder ls r)[((pickNumber - 1) % (n : Int)).toNat]? = some teamId ∧
      (∀ teamId2 : Nat, 1 ≤ teamId2 → teamId2 ≤ n → teamId2 ≠ teamId →
        (getTeamPickInfo ls teamId2 r).pickNumber
          ≠ (getTeamPickInfo ls teamId r).pickNumber) := by
  subst hn
  obtain ⟨hlt, hget, hpos, hnum⟩ := getTeamPickInfo_eq ls r teamId ht1 ht
  have hnum := hnum hr hbound
  have hn0 : (ls.numberOfTeams : Int) ≠ 0 := by omega
  have hi0 : (0 : Int) ≤ (((getDraftOrder ls r).indexOf teamId : Nat) : Int) := by omega
  have hi1 : (((getDraftOrder ls r).indexOf teamId : Nat) : Int) < (ls.numberOfTeams : Int) := by
    omega
  have hsub : ((r : Int) - 1) * (ls.numberOfTeams : Int)
        + ((((getDraftOrder ls r).indexOf teamId : Nat) : Int) + 1) - 1
      = (((getDraftOrder ls r).indexOf teamId : Nat) : Int)
        + ((r : Int) - 1) * (ls.numberOfTeams : Int) := by
    ring
  have hmul : (r : Int) * (ls.numberOfTeams : Int)
      = ((r : Int) - 1) * (ls.numberOfTeams : Int) + (ls.numberOfTeams : Int) := by ring
  refine ⟨by omega, by omega, _, hnum, by rw [hpos], by omega, by omega, ?_, ?_, ?_⟩
  · rw [hsub, Int.add_mul_ediv_right _ _ hn0, Int.ediv_eq_zero_of_lt hi0 hi1]
    omega
  · rw [hsub, Int.add_mul_emod_self, Int.emod_eq_of_lt hi0 hi1, Int.toNat_ofNat]
    exact hget
  · intro teamId2 h1 h2 hne heq
    obtain ⟨_, _, _, hnum2⟩ := getTeamPickInfo_eq ls r teamId2 h1 h2
    rw [hnum, hnum2 hr hbound] at heq
    have heq2 := Int.cast_injective heq
    have hidx : (getDraftOrder ls r).indexOf teamId2 = (getDraftOrder ls r).indexOf teamId := by
      omega
    exact hne ((List.indexOf_inj ((mem_getDraftOrder ls r teamId2).mpr ⟨h1, h2⟩)
      ((mem_getDraftOrder ls r teamId).mpr ⟨ht1, ht⟩)).mp hidx)

theorem getTeamPickInfo_roundtrip_witness :
    ∃ pickNumber : Int,
      (getTeamPickInfo defaultLeagueSettings 5 2).pickNumber = (pickNumber : ℚ) ∧
      pickNumber
        = ((2 : Int) - 1) * 12 + (getTeamPickInfo defaultLeagueSettings 5 2).pickPosition ∧
      (getDraftOrder defaultLeagueSettings 2)[((pickNumber - 1) % (12 : Int)).toNat]?
        = some 5 :=
  have h := getTeamPickInfo_roundtrip defaultLeagueSettings 12 2 5 (by decide) (by decide)
    (by decide) (by decide) (by decide) (by decide)
  h.2.2.elim fun k hk => ⟨k, hk.1, hk.2.1, hk.2.2.2.2.2.1⟩

/-! ## Counts along a draft -/

theorem newTeams_rosterTotal (l : List Nat) :
    ((l.map newTeam).map (fun t => t.roster.length)).sum = 0 := by
  induction l with
  | nil => rfl
  | cons x xs ih => simpa [newTeam] using ih

theorem newTeams_rosterIds (l : List Nat) :
    ((l.map newTeam).map (fun t => t.roster.map (fun p => p.id))).flatten = [] := by
  induction l with
  | nil => rfl
  | cons x xs ih => simp [newTeam]

theorem filter_drafted_of_fresh (players : List Player)
    (h : ∀ p ∈ players, p.isDrafted = false) :
    (players.filter (fun p => p.isDrafted)).length = 0 := by
  rw [List.length_eq_zero, List.filter_eq_nil_iff]
  intro p hp
  simp [h p hp]

theorem create_countInv (players : List Player) (settings : LeagueSettings)
    (h : ∀ p ∈ players, p.isDrafted = false) :
    CountInv (DraftService.create players settings) := by
  rw [create_eq]
  exact ⟨rfl, (filter_drafted_of_fresh players h).symm, (newTeams_rosterTotal _).symm⟩

theorem resetDraft_countInv (s : DraftService) : CountInv (resetDraft s) := by
  rw [resetDraft_eq]
  refine ⟨rfl, ?_, (newTeams_rosterTotal _).symm⟩
  have := filter_drafted_of_fresh
    (s.players.map (fun player => { player with isDrafted := false }))
    (fun p hp => by
      obtain ⟨q, _, rfl⟩ := List.mem_map.mp hp
      rfl)
  exact this.symm

theorem makePick_countInv (s : DraftService) (h : CountInv s) (playerId : String)
    (teamId round pickNumber now : Nat) :
    CountInv (makePick s playerId teamId round pickNumber now).2 := by
  rcases makePick_cases s playerId teamId round pickNumber now with
    ⟨_, h1⟩ | ⟨_, _, _, h1⟩ | ⟨_, _, _, _, h1⟩ | ⟨p, t, hp, hd, ht, _, hpl, _, hteams, hdp, hds⟩
  · rw [h1]; exact h
  · rw [h1]; exact h
  · rw [h1]; exact h
  · obtain ⟨pre, post, hl, _, _, hup⟩ :=
      updateFirst_split (fun q : Player => q.id == playerId)
        (fun q => { q with isDrafted := true }) s.players p
        (by unfold getPlayerById at hp; exact hp)
    obtain ⟨before, after, hl2, _, _, hup2⟩ :=
      updateFirst_split (fun x : Team => x.id == teamId)
        (addPick (drafted p) round pickNumber now) s.teams t ht
    obtain ⟨h1, h2, h3⟩ := h
    have hcp : (makePick s playerId teamId round pickNumber now).2.draftState.currentPick
        = s.draftState.currentPick + 1 := by
      rw [hds]; split <;> rfl
    have hlen : (makePick s playerId teamId round pickNumber now).2.draftPicks.length
        = s.draftPicks.length + 1 := by
      rw [hdp, List.length_append]; rfl
    refine ⟨by rw [hcp, hlen, h1], ?_, ?_⟩
    · rw [hlen, h2]
      unfold draftedCount
      rw [hpl]
      unfold markPlayerAsDrafted
      rw [hup, hl]
      simp [List.filter_append, List.filter_cons, hd]
      omega
    · rw [hlen, h3]
      unfold rosterTotal
      rw [hteams, hup2, hl2]
      simp [addPick]
      omega

theorem runOps_countInv :
    ∀ (ops : List DraftOp) (s : DraftService), CountInv s → CountInv (runOps s ops)
  | [], _, h => h
  | DraftOp.pick c :: ops, s, h =>
    runOps_countInv ops _ (makePick_countInv s h c.playerId c.teamId c.round c.pickNumber c.now)
  | DraftOp.reset :: ops, s, _ => runOps_countInv ops _ (resetDraft_countInv s)

/-- C27: in every state reached from a fresh `DraftService` (its catalog
undrafted) by any sequence of `makePick` calls, successful or failing, and
`resetDraft` calls, the number of recorded draft picks equals `currentPick - 1`,
the number of catalog players with `isDrafted = true`, and the sum of the
roster lengths of all teams. -/
theorem pick_counts (players : List Player) (settings : LeagueSettings)
    (hfresh : ∀ p ∈ players, p.isDrafted = false) (ops : List DraftOp) (s : DraftService)
    (hs : s = runOps (DraftService.create players settings) ops) :
    s.draftPicks.length = s.draftState.currentPick - 1 ∧
    s.draftPicks.length = (s.players.filter (fun p => p.isDrafted)).length ∧
    s.draftPicks.length = (s.teams.map (fun t => t.roster.length)).sum := by
  have h := runOps_countInv ops _ (create_countInv players settings hfresh)
  rw [← hs] at h
  exact ⟨by have := h.picks_eq; omega, h.drafted_eq, h.roster_eq⟩

theorem pick_counts_witness :
    (runOps DraftService.new
        [DraftOp.pick { playerId := "1", teamId := 1, round := 1, pickNumber := 1, now := 0 },
         DraftOp.reset,
         DraftOp.pick { playerId := "4", teamId := 2, round := 1, pickNumber := 1, now := 1 }]
      ).draftPicks.length
      = (runOps DraftService.new
        [DraftOp.pick { playerId := "1", teamId := 1, round := 1, pickNumber := 1, now := 0 },
         DraftOp.reset,
         DraftOp.pick { playerId := "4", teamId := 2, round := 1, pickNumber := 1, now := 1 }]
      ).draftState.currentPick - 1 :=
  (pick_counts loadMockData defaultLeagueSettings (by decide)
    [DraftOp.pick { playerId := "1", teamId := 1, round := 1, pickNumber := 1, now := 0 },
     DraftOp.reset,
     DraftOp.pick { playerId := "4", teamId := 2, round := 1, pickNumber := 1, now := 1 }]
    _ rfl).1

/-! ## Rosters along a draft -/

theorem rosterIds_addPick (before after : List Team) (t : Team) (x : Player)
    (round pickNumber now : Nat) :
    (((before ++ addPick x round pickNumber now t :: after).map
        (fun t => t.roster.map (fun p => p.id))).flatten).Perm
      (x.id :: ((before ++ t :: after).map (fun t => t.roster.map (fun p => p.id))).flatten) := by
  simp only [List.map_append, List.map_cons, List.flatten_append, List.flatten_cons, addPick,
    List.map_nil, List.append_assoc, List.singleton_append]
  rw [← List.append_assoc, ← List.append_assoc]
  exact List.perm_middle

theorem create_rosterInv (players : List Player) (settings : LeagueSettings)
    (hids : (players.map (fun p => p.id)).Nodup) (h : ∀ p ∈ players, p.isDrafted = false) :
    RosterInv (DraftService.create players settings) := by
  rw [create_eq]
  have hr : rosterIds
      { players := players, leagueSettings := settings,
        draftState := { currentRound := 1, currentPick := 1,
                        totalPicks := settings.numberOfTeams * 15, isComplete := false },
        draftPicks := [],
        teams := (List.range' 1 settings.numberOfTeams).map newTeam } = [] :=
    newTeams_rosterIds _
  refine ⟨hids, by rw [hr]; exact List.nodup_nil, ?_, ?_⟩
  · intro p hp
    rw [hr]
    simp [h p hp]
  · intro i hi
    rw [hr] at hi
    cases hi

theorem resetDraft_rosterInv (s : DraftService) (h : RosterInv s) : RosterInv (resetDraft s) := by
  rw [resetDraft_eq]
  have hr : rosterIds
      { players := s.players.map (fun player => { player with isDrafted := false }),
        leagueSettings := s.leagueSettings,
        draftState := { currentRound := 1, currentPick := 1,
                        totalPicks := s.leagueSettings.numberOfTeams * 15, isComplete := false },
        draftPicks := [],
        teams := (List.range' 1 s.leagueSettings.numberOfTeams).map newTeam } = [] :=
    newTeams_rosterIds _
  refine ⟨?_, by rw [hr]; exact List.nodup_nil, ?_, ?_⟩
  · have : (s.players.map (fun player : Player => { player with isDrafted := false })).map
        (fun p => p.id) = s.players.map (fun p => p.id) := by
      rw [List.map_map]
      exact List.map_congr_left (fun _ _ => rfl)
    simp only
    rw [this]
    exact h.ids_nodup
  · intro p hp
    rw [hr]
    obtain ⟨q, _, rfl⟩ := List.mem_map.mp hp
    simp
  · intro i hi
    rw [hr] at hi
    cases hi

theorem makePick_rosterInv (s : DraftService) (h : RosterInv s) (playerId : String)
    (teamId round pickNumber now : Nat) :
    RosterInv (makePick s playerId teamId round pickNumber now).2 := by
  rcases makePick_cases s playerId teamId round pickNumber now with
    ⟨_, h1⟩ | ⟨_, _, _, h1⟩ | ⟨_, _, _, _, h1⟩ | ⟨p, t, hp, hd, ht, _, hpl, _, hteams, _, _⟩
  · rw [h1]; exact h
  · rw [h1]; exact h
  · rw [h1]; exact h
  · obtain ⟨pre, post, hl, hpre, hpx, hup⟩ :=
      updateFirst_split (fun q : Player => q.id == playerId)
        (fun q => { q with isDrafted := true }) s.players p
        (by unfold getPlayerById at hp; exact hp)
    obtain ⟨before, after, hl2, _, _, hup2⟩ :=
      updateFirst_split (fun x : Team => x.id == teamId)
        (addPick (drafted p) round pickNumber now) s.teams t ht
    obtain ⟨hids, hnd, hiff, hsub⟩ := h
    have hpmem : p ∈ s.players := by rw [hl]; simp
    have hpnot : p.id ∉ rosterIds s := fun hmem => by
      have := (hiff p hpmem).mpr hmem
      rw [hd] at this
      cases this
    have hplayers : (makePick s playerId teamId round pickNumber now).2.players
        = pre ++ { p with isDrafted := true } :: post := by
      rw [hpl]; exact hup
    have hperm : (rosterIds (makePick s playerId teamId round pickNumber now).2).Perm
        (p.id :: rosterIds s) := by
      unfold rosterIds
      rw [hteams, hup2, hl2]
      exact rosterIds_addPick before after t (drafted p) round pickNumber now
    have hidmap : (makePick s playerId teamId round pickNumber now).2.players.map (fun q => q.id)
        = s.players.map (fun q => q.id) := by
      rw [hplayers, hl]
      simp
    have hmemiff : ∀ i, i ∈ rosterIds (makePick s playerId teamId round pickNumber now).2 ↔
        i = p.id ∨ i ∈ rosterIds s := fun i => by
      rw [hperm.mem_iff, List.mem_cons]
    have hpost : ∀ q ∈ post, ¬ q.id = p.id := by
      intro q hq heq
      rw [hl, List.map_append, List.map_cons] at hids
      have h2 := (List.nodup_cons.mp (List.nodup_append.mp hids).2.1).1
      exact h2 (heq ▸ List.mem_map_of_mem _ hq)
    have hpid : p.id = playerId := by simpa using hpx
    refine ⟨by rw [hidmap]; exact hids, ?_, ?_, ?_⟩
    · rw [hperm.nodup_iff]
      exact List.nodup_cons.mpr ⟨hpnot, hnd⟩
    · intro q hq
      rw [hplayers] at hq
      rw [hmemiff]
      rcases List.mem_append.mp hq with hq | hq
      · have hne : ¬ q.id = p.id := by
          have := hpre q hq
          rw [hpid]
          simpa using this
        have hqmem : q ∈ s.players := by rw [hl]; exact List.mem_append_left _ hq
        rw [hiff q hqmem]
        simp [hne]
      · rcases List.mem_cons.mp hq with rfl | hq
        · simp
        · have hne := hpost q hq
          have hqmem : q ∈ s.players := by
            rw [hl]; exact List.mem_append_right _ (List.mem_cons_of_mem _ hq)
          rw [hiff q hqmem]
          simp [hne]
    · intro i hi
      rw [hidmap]
      rcases (hmemiff i).mp hi with rfl | hi
      · exact List.mem_map_of_mem _ hpmem
      · exact hsub i hi

theorem runOps_rosterInv :
    ∀ (ops : List DraftOp) (s : DraftService), RosterInv s → RosterInv (runOps s ops)
  | [], _, h => h
  | DraftOp.pick c :: ops, s, h =>
    runOps_rosterInv ops _ (makePick_rosterInv s h c.playerId c.teamId c.round c.pickNumber c.now)
  | DraftOp.reset :: ops, s, h => runOps_rosterInv ops _ (resetDraft_rosterInv s h)

/-- C28: when the catalog player ids are unique, in every state reached from a
fresh `DraftService` by `makePick` and `resetDraft` calls no player id occurs
more than once across all team rosters taken together; a catalog player's id
is on some roster if and only if the player's `isDrafted` flag is true, and
every id on a roster is the id of a catalog player; so no player that
`getAvailablePlayers` returns has an id on a roster, and no roster entry is
among the players `getAvailablePlayers` returns. -/
theorem roster_ids_unique (players : List Player) (settings : LeagueSettings)
    (hids : (players.map (fun p => p.id)).Nodup)
    (hfresh : ∀ p ∈ players, p.isDrafted = false) (ops : List DraftOp) (s : DraftService)
    (hs : s = runOps (DraftService.create players settings) ops) :
    ((s.teams.map (fun t => t.roster.map (fun p => p.id))).flatten).Nodup ∧
    (∀ p ∈ s.players,
      (p.id ∈ (s.teams.map (fun t => t.roster.map (fun p => p.id))).flatten ↔
        p.isDrafted = true)) ∧
    (∀ i ∈ (s.teams.map (fun t => t.roster.map (fun p => p.id))).flatten,
      ∃ p ∈ s.players, p.id = i ∧ p.isDrafted = true) ∧
    (∀ a ∈ getAvailablePlayers s.players,
      a.id ∉ (s.teams.map (fun t => t.roster.map (fun p => p.id))).flatten) ∧
    (∀ t ∈ s.teams, ∀ q ∈ t.roster, q ∉ getAvailablePlayers s.players) := by
  have h := runOps_rosterInv ops _ (create_rosterInv players settings hids hfresh)
  rw [← hs] at h
  obtain ⟨_, hnd, hiff, hsub⟩ := h
  have havail : ∀ a ∈ getAvailablePlayers s.players, a.id ∉ rosterIds s := by
    intro a ha hmem
    unfold getAvailablePlayers at ha
    obtain ⟨ha1, ha2⟩ := List.mem_filter.mp ha
    have := (hiff a ha1).mpr hmem
    rw [this] at ha2
    cases ha2
  refine ⟨hnd, fun p hp => (hiff p hp).symm, ?_, havail, ?_⟩
  · intro i hi
    obtain ⟨p, hp, rfl⟩ := List.mem_map.mp (hsub i hi)
    exact ⟨p, hp, rfl, (hiff p hp).mpr hi⟩
  · intro t ht q hq hqa
    apply havail q hqa
    unfold rosterIds
    rw [List.mem_flatten]
    exact ⟨t.roster.map (fun p => p.id), List.mem_map_of_mem _ ht, List.mem_map_of_mem _ hq⟩

theorem roster_ids_unique_witness :
    ((runOps DraftService.new
        [DraftOp.pick { playerId := "1", teamId := 1, round := 1, pickNumber := 1, now := 0 },
         DraftOp.pick { playerId := "1", teamId := 2, round := 1, pickNumber := 2, now := 1 }]
      ).teams.map (fun t => t.roster.map (fun p => p.id))).flatten.Nodup :=
  (roster_ids_unique loadMockData defaultLeagueSettings (by decide) (by decide)
    [DraftOp.pick { playerId := "1", teamId := 1, round := 1, pickNumber := 1, now := 0 },
     DraftOp.pick { playerId := "1", teamId := 2, round := 1, pickNumber := 2, now := 1 }]
    _ rfl).1

end FantasyDraftCalc
